import Mathlib

/-!
# Verification of the `cascade` agent-scheduling simulator

This file gives a shallow embedding, in Lean 4, of the parts of the
`cascade` simulator (C++ sources under `src/sim/`) that the verified
claims are about:

* the deterministic RNG (`src/sim/random.cpp`),
* the latency sampler's tail-multiplier / failure / timeout logic
  (`src/sim/provider.cpp`),
* the per-tier bounded queue with its concurrency cap
  (`src/sim/provider.cpp`),
* the workflow DAG, its node state machine, lazy iteration expansion and
  the continue/stop decision (`src/sim/workflow.cpp`),
* the scheduler's option selection and the provider-dispatch decision
  (`src/sim/scheduler.cpp`).

Modelling conventions:

* C++ `uint64_t` arithmetic is `Nat` arithmetic reduced `% 2^64`;
  C++ `int` values that are always nonnegative at the modelled call
  sites (node ids, iteration indices, counts) are `Nat`, other `int`
  values are `Int`.
* C++ `double` values are modelled by `ℚ`.  Every double operation the
  claims depend on (division of small integers, comparison against the
  decimal thresholds of `ComputeDecideAction`, the `(h & 0xFFFF)/65535`
  tie-breaker) is either exact in binary64 or separated from the
  threshold by far more than the double rounding error (the rationals
  compared have denominators below `2^35` while binary64 rounding of
  the threshold constants perturbs them by less than `2^-52`), so the
  rational model decides every comparison exactly as the double code
  does.
* `std::unordered_map<NodeId, Node>` is modelled as a `List Node`
  looked up by the `id` field with `List.find?`.  Every map iteration
  in the modelled code is order-independent (shown where used), so the
  list order is immaterial to the proved statements.
* C++ functions that `throw` are modelled in `Except String`; total
  functions stay total.
-/

namespace Cascade

/-! ## Deterministic RNG (`src/sim/random.cpp`) -/

/-- `2^64`, the modulus of all C++ `uint64_t` arithmetic. -/
def U : Nat := 18446744073709551616

/-- xoshiro-style 256-bit RNG state (`SeededRng::s_[4]`). -/
structure RngState where
  s0 : Nat
  s1 : Nat
  s2 : Nat
  s3 : Nat
deriving DecidableEq, Repr

/-- `SeededRng::Rotl`: 64-bit left rotation. -/
def rotl (x : Nat) (k : Nat) : Nat :=
  (((x <<< k) % U) ||| (x >>> (64 - k))) % U

/-- SplitMix64-style finalizer used both by `SeededRng`'s seeding loop and
by `Mix64` in `src/sim/workflow.cpp`. -/
def mix64 (x0 : Nat) : Nat :=
  let x1 := x0 ^^^ (x0 >>> 30)
  let x2 := (x1 * 0xbf58476d1ce4e5b9) % U
  let x3 := x2 ^^^ (x2 >>> 27)
  let x4 := (x3 * 0x94d049bb133111eb) % U
  x4 ^^^ (x4 >>> 31)

/-- `SeededRng::U64`: one step of the generator, returning the output word
and the advanced state. -/
def u64 (s : RngState) : Nat × RngState :=
  let result := (rotl ((s.s0 + s.s3) % U) 23 + s.s0) % U
  let t := (s.s1 <<< 17) % U
  let s2 := s.s2 ^^^ s.s0
  let s3 := s.s3 ^^^ s.s1
  let s1 := s.s1 ^^^ s2
  let s0 := s.s0 ^^^ s3
  let s2 := s2 ^^^ t
  let s3 := rotl s3 45
  (result, ⟨s0, s1, s2, s3⟩)

/-- `SeededRng::Uniform01`: `(U64() >> 11) / 2^53`, exact in binary64. -/
def uniform01 (s : RngState) : ℚ × RngState :=
  let (r, s') := u64 s
  (((r >>> 11 : Nat) : ℚ) / 9007199254740992, s')

/-- `SeededRng::Bernoulli(p)`: `p ≤ 0` and `p ≥ 1` answer immediately
without touching the state; otherwise one uniform is drawn and compared
strictly against `p`. -/
def bernoulli (p : ℚ) (s : RngState) : Bool × RngState :=
  if p ≤ 0 then (false, s)
  else if 1 ≤ p then (true, s)
  else
    let (u, s') := uniform01 s
    (decide (u < p), s')

/-! ## Latency sampler (`src/sim/provider.cpp`) -/

/-- Node types of the retrieval workflow (`src/sim/types.h`). -/
inductive NodeType
  | Plan
  | LoadPDF
  | Chunk
  | Embed
  | SimilaritySearch
  | ExtractEvidence
  | Aggregate
  | DecideNext
deriving DecidableEq, Repr

/-- Resource classes (`src/sim/types.h`). -/
inductive ResourceClass
  | cpu
  | io
  | embed
  | llm
deriving DecidableEq, Repr

/-- Latency distribution parameters (`src/sim/config.h`).  Only the tail
fields drive the modelled logic; the distribution choice itself produces
the `raw` input of `serviceTimeFromRaw`. -/
structure LatencyParams where
  tail_multiplier : ℚ := 1
  tail_prob : ℚ := 0
deriving DecidableEq, Repr

/-- The tail-multiplier step of `LatencySampler::SampleServiceTime`
(provider.cpp lines 130–135), with the raw distribution sample supplied
as `raw` (the lognormal/gamma/linear draw itself is transcendental
floating point and is not needed by any claim).  Mirrors the C++
short-circuit: `Bernoulli` is only invoked when `tail_prob > 0`. -/
def serviceTimeFromRaw (params : LatencyParams) (raw : ℚ) (rng : RngState) :
    ℚ × RngState :=
  let (hit, rng') :=
    if params.tail_prob > 0 then bernoulli params.tail_prob rng else (false, rng)
  let raw' :=
    if params.tail_prob > 0 ∧ hit then raw * params.tail_multiplier
    else if params.tail_prob = 0 ∧ params.tail_multiplier ≠ 1 then
      raw * params.tail_multiplier
    else raw
  (max 1 raw', rng')

/-- Result of `LatencySampler::Sample` (`src/sim/provider.h`). -/
structure LatencySample where
  service_time_ms : ℚ := 0
  failed : Bool := false
  timeout : Bool := false
deriving DecidableEq, Repr

/-- `LatencySampler::Sample` (provider.cpp lines 138–155) with the
already-computed service time passed in as `service`; `rng` is the RNG
state at the point of the `Bernoulli(p_fail)` call. -/
def sampleFromService (service : ℚ) (timeout_ms : Int) (p_fail : ℚ)
    (rng : RngState) : LatencySample × RngState :=
  let (fail, rng') := bernoulli p_fail rng
  if fail then
    ({ service_time_ms := service, failed := true, timeout := false }, rng')
  else if timeout_ms > 0 ∧ service > (timeout_ms : ℚ) then
    ({ service_time_ms := (timeout_ms : ℚ), failed := false, timeout := true }, rng')
  else
    ({ service_time_ms := service, failed := false, timeout := false }, rng')

/-! ## Tier queue and concurrency cap (`src/sim/provider.cpp`) -/

/-- Per-tier configuration (`src/sim/config.h`).  The token-bucket fields
are omitted: no claim mentions them. -/
structure TierConfig where
  provider : String := ""
  tier_id : Int := 0
  concurrency_cap : Int := 4
  price_per_call : ℚ := 1/1000
  p_fail : ℚ := 1/50
  default_timeout_ms : Int := 30000
  default_max_retries : Int := 3
deriving DecidableEq, Repr

/-- Mutable part of a `Tier`: its pending queue (attempts abstracted to
labels) and the `in_flight` counter. -/
structure TierState where
  config : TierConfig
  queue : List Nat := []
  in_flight : Int := 0
deriving DecidableEq, Repr

/-- `Tier::can_accept`: advisory `in_flight < concurrency_cap`. -/
def canAccept (t : TierState) : Bool :=
  t.in_flight < t.config.concurrency_cap

/-- `Tier::Enqueue`: append to the pending queue. -/
def tierEnqueue (t : TierState) (a : Nat) : TierState :=
  { t with queue := t.queue ++ [a] }

/-- `Tier::TryDequeue`: fails when the queue is empty or
`in_flight ≥ concurrency_cap`; otherwise pops the front and increments
`in_flight`. -/
def tryDequeue (t : TierState) : Option (Nat × TierState) :=
  if t.queue = [] ∨ t.in_flight ≥ t.config.concurrency_cap then none
  else
    match t.queue with
    | [] => none
    | a :: rest => some (a, { t with queue := rest, in_flight := t.in_flight + 1 })

/-- `Tier::BlockingDequeue` waits for `¬empty ∧ in_flight < cap` and then
performs exactly the pop/increment of `TryDequeue`; in this sequential
model an attempt that would block is simply not yet enabled, leaving the
state unchanged. -/
def blockingDequeue (t : TierState) : Option (Nat × TierState) :=
  tryDequeue t

/-- `Tier::OnAttemptFinish`: decrement `in_flight`. -/
def onAttemptFinish (t : TierState) : TierState :=
  { t with in_flight := t.in_flight - 1 }

/-- One operation of the tier interface, for reasoning about operation
sequences. -/
inductive TierOp
  | enq (a : Nat)
  | tryDeq
  | blockingDeq
  | finish
deriving DecidableEq, Repr

/-- History carried along a run of tier operations: the tier state plus
the lists of all enqueued and all dequeued attempts (in order) and the
counters used to phrase the `OnAttemptFinish ≤ dequeues` side condition. -/
structure TierRun where
  tier : TierState
  enqueued : List Nat := []
  dequeued : List Nat := []
  deq_count : Nat := 0
  fin_count : Nat := 0
deriving DecidableEq, Repr

/-- Apply one tier operation to a run history. -/
def tierStep (r : TierRun) : TierOp → TierRun
  | .enq a => { r with tier := tierEnqueue r.tier a, enqueued := r.enqueued ++ [a] }
  | .tryDeq =>
    match tryDequeue r.tier with
    | none => r
    | some (a, t') =>
      { r with tier := t', dequeued := r.dequeued ++ [a], deq_count := r.deq_count + 1 }
  | .blockingDeq =>
    match blockingDequeue r.tier with
    | none => r
    | some (a, t') =>
      { r with tier := t', dequeued := r.dequeued ++ [a], deq_count := r.deq_count + 1 }
  | .finish =>
    { r with tier := onAttemptFinish r.tier, fin_count := r.fin_count + 1 }

/-- Run a list of tier operations from a history. -/
def tierRun (r : TierRun) (ops : List TierOp) : TierRun :=
  ops.foldl tierStep r

/-- The initial history for a tier with configuration `tc`:
`in_flight = 0` and an empty queue. -/
def tierInit (tc : TierConfig) : TierRun :=
  { tier := { config := tc } }

/-! ## Workflow data model (`src/sim/types.h`, `src/sim/workflow.h`) -/

/-- Node states (`src/sim/types.h`). -/
inductive NodeState
  | WaitingDeps
  | Runnable
  | Queued
  | Running
  | Succeeded
  | Failed
  | Cancelled
deriving DecidableEq, Repr

/-- `IsTerminal` (`src/sim/types.h`). -/
def isTerminal (s : NodeState) : Bool :=
  s = NodeState.Succeeded ∨ s = NodeState.Failed ∨ s = NodeState.Cancelled

/-- `IsActive` (`src/sim/types.h`). -/
def isActive (s : NodeState) : Bool :=
  s = NodeState.Runnable ∨ s = NodeState.Queued ∨ s = NodeState.Running

/-- An execution option of a node's preference list (`src/sim/types.h`). -/
structure ExecutionOption where
  provider : String := ""
  tier_id : Int := 0
  price_per_call : ℚ := 0
  timeout_ms : Int := 0
  max_retries : Int := 0
deriving DecidableEq, Repr

/-- A workflow DAG node (`src/sim/types.h`).  `pdf_idx`/`subquery_idx`
keep the C++ `-1` default, hence `Int`. -/
structure Node where
  id : Nat := 0
  workflow_id : Nat := 0
  ntype : NodeType := NodeType.Plan
  resource_class : ResourceClass := ResourceClass.cpu
  idempotent : Bool := true
  state : NodeState := NodeState.WaitingDeps
  iter : Nat := 0
  pdf_idx : Int := -1
  subquery_idx : Int := -1
  deps : List Nat := []
  children : List Nat := []
  preference_list : List ExecutionOption := []
  output_size_est : Nat := 0
  evidence_count_est : Int := 0
deriving DecidableEq, Repr

/-- Workload parameters (`src/sim/workflow.h`).  The constructor rejects
`pdfs ≤ 0`, `subqueries_per_iter < 0` and `max_iters ≤ 0`, so the three
counts are `Nat` here and theorems that need `pdfs ≥ 1` or
`max_iters ≥ 1` carry them as hypotheses. -/
structure WorkloadParams where
  pdfs : Nat := 10
  subqueries_per_iter : Nat := 4
  max_iters : Nat := 3
  seed : Nat := 1
deriving DecidableEq, Repr

/-- `DecideAction` (`src/sim/workflow.h`). -/
inductive DecideAction
  | Stop
  | Continue
deriving DecidableEq, Repr

/-- A workflow: the node map (as an id-keyed list), the id counter, and
the completion flags (`src/sim/workflow.h`, `WorkflowGraph`). -/
structure Workflow where
  id : Nat
  params : WorkloadParams
  provider_config : List TierConfig
  nodes : List Node := []
  next_node_id : Nat := 1
  done : Bool := false
  completed_iters : Nat := 0
  stop_iter : Option Nat := none
deriving DecidableEq, Repr

/-- Node lookup (`Workflow::node`); `none` where the C++ would throw
"Unknown node id". -/
def findNode (w : Workflow) (nid : Nat) : Option Node :=
  w.nodes.find? (fun n => n.id = nid)

/-- `Workflow::NewNodeId`: hand out the counter and bump it. -/
def newNodeId (w : Workflow) : Nat × Workflow :=
  (w.next_node_id, { w with next_node_id := w.next_node_id + 1 })

/-- `Workflow::AddNode`: insert a node.  Call sites only insert nodes
with a fresh id from `NewNodeId`, so the C++ duplicate-id throw cannot
fire and the model is a plain append. -/
def addNode (w : Workflow) (n : Node) : Workflow :=
  { w with nodes := w.nodes ++ [n] }

/-- Update the node with id `nid` in place (the C++ mutates the node
found in the map by reference). -/
def updateNode (w : Workflow) (nid : Nat) (f : Node → Node) : Workflow :=
  { w with nodes := w.nodes.map (fun m => if m.id = nid then f m else m) }

/-- The per-node effect of `Workflow::AddEdge fro dst`: extend the
child list of `fro` and the dep list of `dst`. -/
def edgeF (fro dst : Nat) (m : Node) : Node :=
  let m1 := if m.id = fro then { m with children := m.children ++ [dst] } else m
  if m1.id = dst then { m1 with deps := m1.deps ++ [fro] } else m1

/-- `Workflow::AddEdge`: child-list of `fro` and dep-list of `dst` both
grow; both ends exist at every call site, so the lookup throws of
`node_mut` cannot fire. -/
def addEdge (w : Workflow) (fro dst : Nat) : Workflow :=
  { w with nodes := w.nodes.map (edgeF fro dst) }

/-- Is the node with id `nid` currently `Succeeded`? -/
def succAt (w : Workflow) (nid : Nat) : Bool :=
  match findNode w nid with
  | some m => m.state = NodeState.Succeeded
  | none => false

/-- `Workflow::DepsSatisfied`: every dependency is `Succeeded`.  All dep
ids exist on real workflows (edges only target inserted nodes), so the
missing-id throw of `node` is modelled as `false`. -/
def depsSatisfied (w : Workflow) (n : Node) : Bool :=
  n.deps.all (succAt w)

/-- `Workflow::InitializeStateFromDeps`. -/
def initializeStateFromDeps (w : Workflow) (nid : Nat) : Workflow :=
  match findNode w nid with
  | none => w
  | some n =>
    if isTerminal n.state then w
    else
      updateNode w nid (fun m =>
        { m with
          state := if depsSatisfied w n then NodeState.Runnable
                   else NodeState.WaitingDeps })

/-- The `allowed` test of `Workflow::SetState` for a target state, as a
named predicate. -/
def allowedNext (w : Workflow) (n : Node) (next : NodeState) : Bool :=
  match next with
  | NodeState.WaitingDeps => ¬ depsSatisfied w n
  | NodeState.Runnable => depsSatisfied w n
  | NodeState.Queued => n.state = NodeState.Runnable
  | NodeState.Running =>
    n.state = NodeState.Queued ∨ n.state = NodeState.Runnable
  | NodeState.Succeeded =>
    n.state = NodeState.Running ∨ n.state = NodeState.Queued ∨
      n.state = NodeState.Runnable
  | NodeState.Failed =>
    n.state = NodeState.Running ∨ n.state = NodeState.Queued ∨
      n.state = NodeState.Runnable
  | NodeState.Cancelled => true

/-- `Workflow::SetState` (workflow.cpp lines 75–115): the guarded state
transition; `Except.error` corresponds to the C++ `throw`. -/
def setState (w : Workflow) (nid : Nat) (next : NodeState) :
    Except String Workflow :=
  match findNode w nid with
  | none => .error "Unknown node id"
  | some n =>
    if n.state = next then .ok w
    else if isTerminal n.state then
      .error "Invalid node transition: terminal state cannot transition"
    else
      let allowed : Bool := allowedNext w n next
      if allowed then .ok (updateNode w nid (fun m => { m with state := next }))
      else .error "Invalid node transition"

/-- The per-node effect of one `RefreshRunnable` pass, reading dependency
states from the pre-pass workflow `w`: the C++ loop mutates only
`Runnable`/`WaitingDeps` states while `DepsSatisfied` reads only
`Succeeded`-ness, so the in-place loop computes exactly this
order-independent map. -/
def refreshNode (w : Workflow) (n : Node) : Node :=
  if isTerminal n.state ∨ n.state = NodeState.Queued ∨ n.state = NodeState.Running
  then n
  else if depsSatisfied w n then { n with state := NodeState.Runnable }
  else { n with state := NodeState.WaitingDeps }

/-- `Workflow::RefreshRunnable` (the returned newly-runnable list is
ignored by every caller and is not modelled). -/
def refreshRunnable (w : Workflow) : Workflow :=
  { w with nodes := w.nodes.map (refreshNode w) }

/-- `Workflow::RunnableNodes`: ids of runnable nodes, sorted. -/
def runnableNodes (w : Workflow) : List Nat :=
  (((w.nodes.filter (fun n => n.state = NodeState.Runnable)).map Node.id).mergeSort (· ≤ ·))

/-- `Workflow::PruneAfterStop`: cancel every non-terminal node with
`iter > stop_iter`, then refresh. -/
def pruneAfterStop (w : Workflow) (k : Nat) : Workflow :=
  refreshRunnable
    { w with
      nodes := w.nodes.map (fun n =>
        if isTerminal n.state then n
        else if k < n.iter then { n with state := NodeState.Cancelled } else n) }

/-! ## DAG generation and decide policy (`src/sim/workflow.cpp`) -/

/-- `ResourceForType` (workflow.cpp lines 206–218). -/
def resourceForType (t : NodeType) : ResourceClass :=
  match t with
  | NodeType.LoadPDF => ResourceClass.io
  | NodeType.Chunk => ResourceClass.cpu
  | NodeType.Embed => ResourceClass.embed
  | NodeType.SimilaritySearch => ResourceClass.cpu
  | NodeType.ExtractEvidence => ResourceClass.llm
  | NodeType.Plan => ResourceClass.llm
  | NodeType.Aggregate => ResourceClass.cpu
  | NodeType.DecideNext => ResourceClass.llm

/-- Build one `ExecutionOption` from a tier configuration. -/
def mkOption (tc : TierConfig) : ExecutionOption :=
  { provider := tc.provider
    tier_id := tc.tier_id
    price_per_call := tc.price_per_call
    timeout_ms := tc.default_timeout_ms
    max_retries := tc.default_max_retries }

/-- Insertion sort ascending by price, the result of the
`std::sort`-with-`<`-comparator in `PopulatePreferenceListForNode`. -/
def insertByPrice (o : ExecutionOption) : List ExecutionOption → List ExecutionOption
  | [] => [o]
  | x :: xs =>
    if o.price_per_call < x.price_per_call then o :: x :: xs
    else x :: insertByPrice o xs

/-- Sort a preference list ascending by price. -/
def sortByPrice (l : List ExecutionOption) : List ExecutionOption :=
  l.foldr insertByPrice []

/-- `Workflow::PopulatePreferenceListForNode` (workflow.cpp lines
393–419), applied to the node value before insertion (the C++ fills the
inserted node through a reference; the resulting node is the same). -/
def populatePrefList (cfg : List TierConfig) (n : Node) : Node :=
  let opts := (cfg.filter (fun tc =>
      (n.resource_class = ResourceClass.embed ∧ tc.provider = "embed_provider") ∨
      (n.resource_class = ResourceClass.llm ∧ tc.provider = "llm_provider"))).map mkOption
  { n with preference_list := sortByPrice opts }

/-- The SplitMix64 mix of `(seed, workflow id, iteration, pdf, subquery)`
that seeds `evidence_count_est` (workflow.cpp lines 302–304). -/
def evidenceHash (seed wfid iter p q : Nat) : Nat :=
  mix64 ((((seed % U) ^^^ ((wfid <<< 32) % U)) ^^^ ((iter * 0x9e3779b97f4a7c15) % U)
    ^^^ ((p <<< 8) % U)) ^^^ (q % U))

/-- Loop body for one subquery `q` of pdf `p` in
`ExpandIterationFromPlan`: create `SimilaritySearch(p,q)` and
`ExtractEvidence(p,q)`, wire `Embed(p)→SS→Ext`, accumulate the
extract-node id. -/
def expandSubStep (iter p embed_id : Nat) (acc : Workflow × List Nat) (q : Nat) :
    Workflow × List Nat :=
  let (w, exs) := acc
  let (ss_id, w) := newNodeId w
  let (ex_id, w) := newNodeId w
  let ss : Node :=
    { id := ss_id, workflow_id := w.id, ntype := NodeType.SimilaritySearch
      resource_class := resourceForType NodeType.SimilaritySearch
      idempotent := true, iter := iter, pdf_idx := (p : Int), subquery_idx := (q : Int) }
  let ev : Int := ((evidenceHash w.params.seed w.id iter p q) % 4 : Nat)
  let ex : Node :=
    { id := ex_id, workflow_id := w.id, ntype := NodeType.ExtractEvidence
      resource_class := resourceForType NodeType.ExtractEvidence
      idempotent := true, iter := iter, pdf_idx := (p : Int), subquery_idx := (q : Int)
      evidence_count_est := ev }
  let w := addNode w (populatePrefList w.provider_config ss)
  let w := addNode w (populatePrefList w.provider_config ex)
  let w := addEdge w embed_id ss_id
  let w := addEdge w ss_id ex_id
  (w, exs ++ [ex_id])

/-- Loop body for one pdf `p` in `ExpandIterationFromPlan`: create the
`LoadPDF(p) → Chunk(p) → Embed(p)` chain hanging off the plan, then the
subquery pairs. -/
def expandPdfPrefix (plan_node iter p : Nat) (w0 : Workflow) : Workflow :=
  let (load_id, w) := newNodeId w0
  let (chunk_id, w) := newNodeId w
  let (embed_id, w) := newNodeId w
  let load : Node :=
    { id := load_id, workflow_id := w.id, ntype := NodeType.LoadPDF
      resource_class := resourceForType NodeType.LoadPDF
      idempotent := true, iter := iter, pdf_idx := (p : Int) }
  let chunk : Node :=
    { id := chunk_id, workflow_id := w.id, ntype := NodeType.Chunk
      resource_class := resourceForType NodeType.Chunk
      idempotent := true, iter := iter, pdf_idx := (p : Int) }
  let embed : Node :=
    { id := embed_id, workflow_id := w.id, ntype := NodeType.Embed
      resource_class := resourceForType NodeType.Embed
      idempotent := true, iter := iter, pdf_idx := (p : Int) }
  let w := addNode w (populatePrefList w.provider_config load)
  let w := addNode w (populatePrefList w.provider_config chunk)
  let w := addNode w (populatePrefList w.provider_config embed)
  let w := addEdge w plan_node load_id
  let w := addEdge w load_id chunk_id
  addEdge w chunk_id embed_id

/-- The full loop body for one pdf `p`: the chain prefix (whose embed
node receives id `w.next_node_id + 2`), then, unless
`subqueries_per_iter` is zero, the inner subquery loop. -/
def expandPdfStep (plan_node iter : Nat) (acc : Workflow × List Nat) (p : Nat) :
    Workflow × List Nat :=
  let (w, exs) := acc
  let embed_id := w.next_node_id + 2
  let w2 := expandPdfPrefix plan_node iter p w
  if w2.params.subqueries_per_iter = 0 then (w2, exs)
  else (List.range w2.params.subqueries_per_iter).foldl
    (expandSubStep iter p embed_id) (w2, exs)

/-- `Workflow::ExpandIterationFromPlan` (workflow.cpp lines 220–353). -/
def expandIterationFromPlan (w : Workflow) (plan_node : Nat) : Workflow :=
  match findNode w plan_node with
  | none => w
  | some plan =>
    let iter := plan.iter
    if w.params.max_iters ≤ iter then w
    else if w.nodes.any (fun n => n.ntype = NodeType.Aggregate ∧ n.iter = iter) then w
    else
      let (w, extract_nodes) :=
        (List.range w.params.pdfs).foldl (expandPdfStep plan_node iter) (w, [])
      let (agg_id, w) := newNodeId w
      let (decide_id, w) := newNodeId w
      let agg : Node :=
        { id := agg_id, workflow_id := w.id, ntype := NodeType.Aggregate
          resource_class := resourceForType NodeType.Aggregate
          idempotent := true, iter := iter }
      let dec : Node :=
        { id := decide_id, workflow_id := w.id, ntype := NodeType.DecideNext
          resource_class := resourceForType NodeType.DecideNext
          idempotent := true, iter := iter }
      let w := addNode w (populatePrefList w.provider_config agg)
      let w := addNode w (populatePrefList w.provider_config dec)
      let w :=
        if extract_nodes.isEmpty then addEdge w plan_node agg_id
        else extract_nodes.foldl (fun w2 ex_id => addEdge w2 ex_id agg_id) w
      let w := addEdge w agg_id decide_id
      let w := initializeStateFromDeps w agg_id
      initializeStateFromDeps w decide_id

/-- `Workflow::IterEvidenceTotal`: sum of `evidence_count_est` over the
iteration's `ExtractEvidence` nodes (order-independent sum over the
node map). -/
def iterEvidenceTotal (w : Workflow) (iter : Nat) : Int :=
  ((w.nodes.filter (fun n =>
      n.iter = iter ∧ n.ntype = NodeType.ExtractEvidence)).map
    Node.evidence_count_est).sum

/-- `Workflow::IterPdfCoverageCount`: the number of distinct pdf indices
with positive evidence at the iteration (the C++ inserts into an
`unordered_set`; its size is the number of distinct values). -/
def iterPdfCoverageCount (w : Workflow) (iter : Nat) : Nat :=
  (((w.nodes.filter (fun n =>
      n.iter = iter ∧ n.ntype = NodeType.ExtractEvidence ∧
        n.evidence_count_est > 0)).map Node.pdf_idx).dedup).length

/-- `Workflow::ComputeDecideAction` (workflow.cpp lines 373–391).  The
decimal thresholds are exact rationals here; see the header note on
double rounding. -/
def computeDecideAction (w : Workflow) (iter : Nat) : DecideAction :=
  if w.params.max_iters ≤ iter + 1 then DecideAction.Stop
  else
    let total := iterEvidenceTotal w iter
    let covered := iterPdfCoverageCount w iter
    let coverage : ℚ := (covered : ℚ) / (max 1 w.params.pdfs : Nat)
    let denom : ℚ :=
      (max 1 (w.params.pdfs * max 1 w.params.subqueries_per_iter * 2) : Nat)
    let confidence : ℚ := min 1 ((total : ℚ) / denom)
    let h := mix64 (((w.params.seed % U) ^^^ ((w.id <<< 1) % U)) ^^^
      ((iter * 0xD1B54A32D192ED03) % U))
    let u01 : ℚ := ((h &&& 0xFFFF : Nat) : ℚ) / 65535
    let strong := coverage ≥ 6/10 ∧ confidence ≥ 5/10
    let borderline := coverage ≥ 45/100 ∧ confidence ≥ 35/100 ∧ u01 > 7/10
    if strong ∨ borderline then DecideAction.Stop else DecideAction.Continue

/-- `Workflow::OnDecideNext` (workflow.cpp lines 421–448). -/
def onDecideNext (w : Workflow) (decide_node : Nat) : Workflow :=
  match findNode w decide_node with
  | none => w
  | some dn =>
    let iter := dn.iter
    match computeDecideAction w iter with
    | DecideAction.Stop =>
      pruneAfterStop { w with done := true, stop_iter := some iter } iter
    | DecideAction.Continue =>
      let (plan_id, w) := newNodeId w
      let plan : Node :=
        { id := plan_id, workflow_id := w.id, ntype := NodeType.Plan
          resource_class := ResourceClass.llm, idempotent := true, iter := iter + 1
          output_size_est := 220 + 15 * w.params.subqueries_per_iter + 4 * w.params.pdfs }
      let w := addNode w (populatePrefList w.provider_config plan)
      let w := addEdge w decide_node plan_id
      initializeStateFromDeps w plan_id

/-! ## Workflow mutators (`src/sim/workflow.cpp` lines 145–187) -/

/-- `Workflow::MarkQueued`. -/
def markQueued (w : Workflow) (nid : Nat) : Except String Workflow :=
  setState w nid NodeState.Queued

/-- `Workflow::MarkRunning`. -/
def markRunning (w : Workflow) (nid : Nat) : Except String Workflow :=
  setState w nid NodeState.Running

/-- `Workflow::MarkSucceeded`: set the state, then expand (for a `Plan`)
or decide (for a `DecideNext`), then refresh. -/
def markSucceeded (w : Workflow) (nid : Nat) : Except String Workflow :=
  match findNode w nid with
  | none => .error "Unknown node id"
  | some n => do
    let w1 ← setState w nid NodeState.Succeeded
    let w2 :=
      if n.ntype = NodeType.Plan then expandIterationFromPlan w1 nid
      else if n.ntype = NodeType.DecideNext then
        let w3 := onDecideNext w1 nid
        { w3 with completed_iters := max w3.completed_iters (n.iter + 1) }
      else w1
    .ok (refreshRunnable w2)

/-- `Workflow::MarkFailed`. -/
def markFailed (w : Workflow) (nid : Nat) : Except String Workflow := do
  let w1 ← setState w nid NodeState.Failed
  .ok (refreshRunnable w1)

/-- `Workflow::Cancel`: no-op on terminal nodes, otherwise force
`Cancelled` and refresh. -/
def cancel (w : Workflow) (nid : Nat) : Except String Workflow :=
  match findNode w nid with
  | none => .error "Unknown node id"
  | some n =>
    if isTerminal n.state then .ok w
    else
      .ok (refreshRunnable
        (updateNode w nid (fun m => { m with state := NodeState.Cancelled })))

/-- `Workflow::EnsureInitialPlan` (workflow.cpp lines 189–204). -/
def ensureInitialPlan (w : Workflow) : Workflow :=
  let (pid, w) := newNodeId w
  let plan : Node :=
    { id := pid, workflow_id := w.id, ntype := NodeType.Plan
      resource_class := ResourceClass.llm, idempotent := true, iter := 0
      state := NodeState.Runnable
      output_size_est := 200 + 10 * w.params.subqueries_per_iter + 3 * w.params.pdfs }
  addNode w (populatePrefList w.provider_config plan)

/-- The `Workflow` constructor: initial plan, then a refresh.  The
parameter validation throws are captured by the `Nat` field types plus
the positivity hypotheses carried by the theorems that need them. -/
def mkWorkflow (id : Nat) (prm : WorkloadParams) (cfg : List TierConfig) : Workflow :=
  refreshRunnable (ensureInitialPlan
    { id := id, params := prm, provider_config := cfg })

/-- The workflow mutators named by the state-machine claim, as one
operation type. -/
inductive Mutator
  | mQueued (nid : Nat)
  | mRunning (nid : Nat)
  | mSucceeded (nid : Nat)
  | mFailed (nid : Nat)
  | mCancel (nid : Nat)
  | mRefresh
  | mPrune (k : Nat)
deriving DecidableEq, Repr

/-- Apply one mutator (the two total ones are wrapped in `.ok`). -/
def applyMutator (m : Mutator) (w : Workflow) : Except String Workflow :=
  match m with
  | Mutator.mQueued nid => markQueued w nid
  | Mutator.mRunning nid => markRunning w nid
  | Mutator.mSucceeded nid => markSucceeded w nid
  | Mutator.mFailed nid => markFailed w nid
  | Mutator.mCancel nid => cancel w nid
  | Mutator.mRefresh => .ok (refreshRunnable w)
  | Mutator.mPrune k => .ok (pruneAfterStop w k)

/-- Workflows reachable from the constructor through the public
mutators: the states the simulator can actually put a workflow in. -/
inductive Reachable : Workflow → Prop
  | init (id : Nat) (prm : WorkloadParams) (cfg : List TierConfig) :
      Reachable (mkWorkflow id prm cfg)
  | step (w w' : Workflow) (m : Mutator) : Reachable w →
      applyMutator m w = Except.ok w' → Reachable w'

/-! ## Scheduler option selection and dispatch (`src/sim/scheduler.cpp`) -/

/-- Scheduler policies (`src/sim/scheduler.h`). -/
inductive SchedulerPolicy
  | fifo_cheapest
  | dag_cheapest
  | dag_escalation
  | full
deriving DecidableEq, Repr

/-- Scheduler configuration (`src/sim/scheduler.h`); `enable_model_routing`
is the flag `Scheduler::Dispatch` tests (forwarded from the CLI's
`--enable_model_routing`). -/
structure SchedulerConfig where
  policy : SchedulerPolicy := SchedulerPolicy.full
  disable_hedging : Bool := false
  disable_escalation : Bool := false
  disable_dag_priority : Bool := false
  enable_model_routing : Bool := false
  max_in_flight_global : Int := 200
  budget_per_workflow : ℚ := 10
  escalation_benefit_cost_threshold : ℚ := 1/2
deriving DecidableEq, Repr

/-- The latency estimate store, abstracted to its two read functions
(`GetP50` and `GetP95QueueWait`); the store holds arbitrary rolling
samples, so the functions are arbitrary. -/
structure LatencyStore where
  p50 : NodeType → String → Int → ℚ
  p95_queue_wait : String → Int → ℚ

/-- `ProviderManager::GetTier`: the C++ builds an index map in
construction order, later duplicates overwriting earlier ones, so the
lookup returns the last matching tier. -/
def getTier (tiers : List TierState) (provider : String) (tier_id : Int) :
    Option TierState :=
  tiers.foldl (fun acc t =>
    if t.config.provider = provider ∧ t.config.tier_id = tier_id then some t else acc)
    none

/-- The option-walk of `Scheduler::SelectOption` (scheduler.cpp lines
187–212): skip over-budget options and options without an accepting
tier; once an option is acceptable the loop breaks on every path with
`chosen = &opt` (the escalation branch recomputes `chosen` to the same
`opt`). -/
def selectLoop (cfg : SchedulerConfig) (tiers : List TierState)
    (store : LatencyStore) (nty : NodeType) (front : ExecutionOption)
    (budget_left : ℚ) (is_critical : Bool) :
    List ExecutionOption → Option ExecutionOption
  | [] => none
  | opt :: rest =>
    if opt.price_per_call > budget_left then
      selectLoop cfg tiers store nty front budget_left is_critical rest
    else
      match getTier tiers opt.provider opt.tier_id with
      | none => selectLoop cfg tiers store nty front budget_left is_critical rest
      | some t =>
        if ¬ canAccept t then
          selectLoop cfg tiers store nty front budget_left is_critical rest
        else if cfg.disable_escalation ∨ cfg.policy = SchedulerPolicy.fifo_cheapest ∨
            cfg.policy = SchedulerPolicy.dag_cheapest then some opt
        else if ¬ is_critical then some opt
        else
          let delta_cost := opt.price_per_call - front.price_per_call
          if delta_cost ≤ 0 then some opt
          else
            let ect_cheap := store.p95_queue_wait front.provider front.tier_id +
              store.p50 nty front.provider front.tier_id
            let ect_fast := store.p95_queue_wait opt.provider opt.tier_id +
              store.p50 nty opt.provider opt.tier_id
            let benefit := ect_cheap - ect_fast
            if benefit / delta_cost ≥ cfg.escalation_benefit_cost_threshold then some opt
            else some opt

/-- `Scheduler::SelectOption` (scheduler.cpp lines 182–214): run the walk
and fall back to the front of the (sorted, cheapest-first) preference
list when no option was acceptable. -/
def selectOption (cfg : SchedulerConfig) (tiers : List TierState)
    (store : LatencyStore) (n : Node) (workflow_cost : ℚ) (is_critical : Bool) :
    Option ExecutionOption :=
  match n.preference_list with
  | [] => none
  | front :: _ =>
    let budget_left := cfg.budget_per_workflow - workflow_cost
    match selectLoop cfg tiers store n.ntype front budget_left is_critical
        n.preference_list with
    | some o => some o
    | none => some front

/-- The provider/tier/timeout/retries a dispatched attempt is built
with. -/
structure DispatchChoice where
  provider : String
  tier_id : Int
  timeout_ms : Int
  max_retries : Int
deriving DecidableEq, Repr

/-- The provider-tier arm of `Scheduler::Dispatch` for a single
provider-backed node (scheduler.cpp lines 267–297): either the
model-routing path through `SelectOption` (re-checking `can_accept`) or
the resource-class-matched first accepting tier; `none` means the node
is skipped and no attempt is enqueued. -/
def providerDispatchDecision (cfg : SchedulerConfig) (tiers : List TierState)
    (store : LatencyStore) (n : Node) (workflow_cost : ℚ) (is_critical : Bool) :
    Option DispatchChoice :=
  if cfg.enable_model_routing ∧ ¬ n.preference_list.isEmpty then
    match selectOption cfg tiers store n workflow_cost is_critical with
    | none => none
    | some opt =>
      match getTier tiers opt.provider opt.tier_id with
      | none => none
      | some t =>
        if canAccept t then
          some { provider := opt.provider, tier_id := opt.tier_id
                 timeout_ms := opt.timeout_ms, max_retries := opt.max_retries }
        else none
  else
    let provider_name :=
      if n.resource_class = ResourceClass.embed then "embed_provider"
      else "llm_provider"
    match tiers.find? (fun t => t.config.provider = provider_name ∧ canAccept t) with
    | none => none
    | some t =>
      some { provider := t.config.provider, tier_id := t.config.tier_id
             timeout_ms := t.config.default_timeout_ms
             max_retries := t.config.default_max_retries }

/-! ## Claim-level predicates and concrete instances -/

/-- An option is acceptable to the `SelectOption` walk: within the
remaining budget and backed by a tier that `can_accept`. -/
def acceptableB (tiers : List TierState) (budget_left : ℚ) (o : ExecutionOption) :
    Bool :=
  decide (o.price_per_call ≤ budget_left) &&
  (match getTier tiers o.provider o.tier_id with
   | some t => canAccept t
   | none => false)

/-- Claim C1 as stated, at one input: a selected option never exceeds the
remaining budget, and a non-positive remaining budget blocks provider
dispatch. -/
def c1ClaimAt (cfg : SchedulerConfig) (tiers : List TierState)
    (store : LatencyStore) (n : Node) (workflow_cost : ℚ) (is_critical : Bool) :
    Prop :=
  ((selectOption cfg tiers store n workflow_cost is_critical).all
    (fun o => decide (o.price_per_call ≤ cfg.budget_per_workflow - workflow_cost))) = true ∧
  (cfg.budget_per_workflow - workflow_cost ≤ 0 →
    providerDispatchDecision cfg tiers store n workflow_cost is_critical = none)

/-- Claim C6 as stated, at one input: `failed` mirrors the Bernoulli
draw, a failure suppresses the timeout check, and (unconditionally on
the sign of `timeout_ms`) the sample times out with a clamped service
time exactly when the sampled service time exceeds `timeout_ms`. -/
def c6ClaimAt (service : ℚ) (timeout_ms : Int) (p_fail : ℚ) (rng : RngState) :
    Prop :=
  let r := (sampleFromService service timeout_ms p_fail rng).1
  r.failed = (bernoulli p_fail rng).1 ∧
  (r.failed = true → r.timeout = false) ∧
  (r.failed = false →
    ((r.timeout = true ∧ r.service_time_ms = (timeout_ms : ℚ)) ↔
      service > (timeout_ms : ℚ))) ∧
  ¬ (r.failed = true ∧ r.timeout = true)

/-- The `(pdf_idx, evidence_count_est)` pairs of an iteration's
`ExtractEvidence` nodes: the data `DecideNext` is a function of. -/
def extEvidenceData (w : Workflow) (iter : Nat) : List (Int × Int) :=
  (w.nodes.filter (fun n =>
    n.iter = iter ∧ n.ntype = NodeType.ExtractEvidence)).map
    (fun n => (n.pdf_idx, n.evidence_count_est))

/-- All node ids are below the id counter; true of every workflow the
constructor and mutators produce. -/
def idsBelow (w : Workflow) : Bool :=
  w.nodes.all (fun n => n.id < w.next_node_id)

/-- The state-machine claim's transition relation, judged in the
post-state graph `w'` (parent `Succeeded`-ness is stable over the rest
of each mutator run, so the post-state reading is the at-transition-time
reading): unchanged states are always fine, terminal states are
absorbing, `Runnable` needs all parents `Succeeded`, `Queued` comes only
from `Runnable`, `Running` from `Queued`/`Runnable`,
`Succeeded`/`Failed` from the active states, `Cancelled` from any
non-terminal; the claim places no constraint on `WaitingDeps`. -/
def claimStepOK (w' : Workflow) (old : NodeState) (n' : Node) : Bool :=
  if old = n'.state then true
  else if isTerminal old then false
  else
    match n'.state with
    | NodeState.WaitingDeps => true
    | NodeState.Runnable => depsSatisfied w' n'
    | NodeState.Queued => old = NodeState.Runnable
    | NodeState.Running => old = NodeState.Queued ∨ old = NodeState.Runnable
    | NodeState.Succeeded => isActive old
    | NodeState.Failed => isActive old
    | NodeState.Cancelled => true

/-- A fixed RNG state used by concrete witnesses. -/
def rngW : RngState := ⟨1, 2, 3, 4⟩

/-- The built-in provider configuration (`ProviderConfig::ProviderConfig`
in `src/sim/config.cpp`), used by concrete witnesses. -/
def defaultTiers : List TierConfig :=
  [ { provider := "embed_provider", tier_id := 0, concurrency_cap := 4,
      price_per_call := 1/10000, p_fail := 1/50, default_timeout_ms := 10000,
      default_max_retries := 3 },
    { provider := "embed_provider", tier_id := 1, concurrency_cap := 8,
      price_per_call := 5/10000, p_fail := 1/100, default_timeout_ms := 5000,
      default_max_retries := 3 },
    { provider := "llm_provider", tier_id := 0, concurrency_cap := 2,
      price_per_call := 1/100, p_fail := 3/100, default_timeout_ms := 30000,
      default_max_retries := 3 },
    { provider := "llm_provider", tier_id := 1, concurrency_cap := 4,
      price_per_call := 5/100, p_fail := 1/50, default_timeout_ms := 15000,
      default_max_retries := 3 } ]

/-- A latency store returning the documented empty-window defaults. -/
def defaultStore : LatencyStore :=
  { p50 := fun _ _ _ => 100, p95_queue_wait := fun _ _ => 50 }

/-- A two-pdf workflow fragment holding only iteration-0
`ExtractEvidence` data, for the C3 witness. -/
def wfC3A : Workflow :=
  { id := 7
    params := { pdfs := 2, subqueries_per_iter := 1, max_iters := 3, seed := 5 }
    provider_config := []
    nodes :=
      [ { id := 6, workflow_id := 7, ntype := NodeType.ExtractEvidence
          resource_class := ResourceClass.llm, iter := 0, pdf_idx := 0
          subquery_idx := 0, evidence_count_est := 2 },
        { id := 8, workflow_id := 7, ntype := NodeType.ExtractEvidence
          resource_class := ResourceClass.llm, iter := 0, pdf_idx := 1
          subquery_idx := 0, evidence_count_est := 1 } ]
    next_node_id := 9 }

/-- The same `ExtractEvidence` data as `wfC3A` embedded in a different
node list (an unrelated `Aggregate` node in front). -/
def wfC3B : Workflow :=
  { wfC3A with
    nodes :=
      { id := 5, workflow_id := 7, ntype := NodeType.Aggregate
        resource_class := ResourceClass.cpu, iter := 0 } :: wfC3A.nodes }

/-- Scheduler configuration of end-to-end scenario 5 of the spec:
model routing on, `budget_per_workflow = 0`. -/
def cfgC1 : SchedulerConfig :=
  { policy := SchedulerPolicy.dag_cheapest, enable_model_routing := true
    budget_per_workflow := 0 }

/-- A single idle `llm_provider` tier. -/
def tiersC1 : List TierState :=
  [ { config := { provider := "llm_provider", tier_id := 0, concurrency_cap := 2
                  price_per_call := 1/100, p_fail := 3/100
                  default_timeout_ms := 30000, default_max_retries := 3 } } ]

/-- A provider-backed (llm) node whose only option costs `0.01` per
call. -/
def nodeC1 : Node :=
  { id := 1, workflow_id := 1, ntype := NodeType.Plan
    resource_class := ResourceClass.llm, state := NodeState.Runnable
    preference_list :=
      [ { provider := "llm_provider", tier_id := 0, price_per_call := 1/100
          timeout_ms := 30000, max_retries := 3 } ] }

/-- The succeeded iteration-0 plan node of the expansion witnesses. -/
def planC4 : Node :=
  { id := 0, workflow_id := 1, ntype := NodeType.Plan
    resource_class := ResourceClass.llm, state := NodeState.Succeeded
    iter := 0 }

/-- A one-pdf, one-subquery workflow about to expand iteration 0, for
the expansion witnesses. -/
def wfC4 : Workflow :=
  { id := 1
    params := { pdfs := 1, subqueries_per_iter := 1, max_iters := 2, seed := 0 }
    provider_config := []
    nodes := [planC4]
    next_node_id := 1 }

/-- A running iteration-0 `DecideNext` node, for the decide-effects
witness. -/
def nodeC7 : Node :=
  { id := 0, workflow_id := 0, ntype := NodeType.DecideNext
    resource_class := ResourceClass.llm, state := NodeState.Running
    iter := 0 }

/-- A one-node workflow whose `DecideNext` is about to succeed (with
`max_iters = 1` the decision is `Stop`), for the decide-effects
witness. -/
def wfC7 : Workflow :=
  { id := 0
    params := { pdfs := 1, subqueries_per_iter := 0, max_iters := 1, seed := 0 }
    provider_config := []
    nodes := [nodeC7]
    next_node_id := 1 }

/-! ### Closed-form description of one expanded iteration

The following definitions name the graph fragment that
`ExpandIterationFromPlan` builds, so that its loop can be characterised
once and the structural claims read off the explicit form. -/

/-- The preference list `PopulatePreferenceListForNode` computes for a
node of resource class `rc`. -/
def prefFor (cfg : List TierConfig) (rc : ResourceClass) : List ExecutionOption :=
  sortByPrice ((cfg.filter (fun tc =>
    (rc = ResourceClass.embed ∧ tc.provider = "embed_provider") ∨
    (rc = ResourceClass.llm ∧ tc.provider = "llm_provider"))).map mkOption)

/-- Append several children to the node with id `a`. -/
def extendChildren (a : Nat) (cids : List Nat) (m : Node) : Node :=
  if m.id = a then { m with children := m.children ++ cids } else m

/-- The accumulated per-node effect of adding the
`ExtractEvidence → Aggregate` edges for the extract-node ids `es`. -/
def exMapF (es : List Nat) (agg : Nat) (m : Node) : Node :=
  if m.id = agg then { m with deps := m.deps ++ es }
  else if m.id ∈ es then { m with children := m.children ++ [agg] }
  else m

/-- The `SimilaritySearch(p,q) → ExtractEvidence(p,q)` pair with ids
`sid` and `sid+1`, hanging off the embed node `embed_id`. -/
def subPairSpec (cfg : List TierConfig) (wfid seed iter p q embed_id sid : Nat) :
    List Node :=
  [ { id := sid, workflow_id := wfid, ntype := NodeType.SimilaritySearch
      resource_class := ResourceClass.cpu, idempotent := true, iter := iter
      pdf_idx := (p : Int), subquery_idx := (q : Int), deps := [embed_id]
      children := [sid+1]
      preference_list := prefFor cfg ResourceClass.cpu },
    { id := sid+1, workflow_id := wfid, ntype := NodeType.ExtractEvidence
      resource_class := ResourceClass.llm, idempotent := true, iter := iter
      pdf_idx := (p : Int), subquery_idx := (q : Int), deps := [sid]
      evidence_count_est := ((evidenceHash seed wfid iter p q) % 4 : Nat)
      preference_list := prefFor cfg ResourceClass.llm } ]

/-- The nodes one pdf `p` contributes to an expanded iteration, with
base id `b`: the `LoadPDF → Chunk → Embed` chain followed by the
`SimilaritySearch(p,q) → ExtractEvidence(p,q)` pairs. -/
def pdfBlock (cfg : List TierConfig) (wfid seed iter K pid b p : Nat) :
    List Node :=
  { id := b, workflow_id := wfid, ntype := NodeType.LoadPDF
    resource_class := ResourceClass.io, idempotent := true, iter := iter
    pdf_idx := (p : Int), deps := [pid], children := [b+1]
    preference_list := prefFor cfg ResourceClass.io } ::
  { id := b+1, workflow_id := wfid, ntype := NodeType.Chunk
    resource_class := ResourceClass.cpu, idempotent := true, iter := iter
    pdf_idx := (p : Int), deps := [b], children := [b+2]
    preference_list := prefFor cfg ResourceClass.cpu } ::
  { id := b+2, workflow_id := wfid, ntype := NodeType.Embed
    resource_class := ResourceClass.embed, idempotent := true, iter := iter
    pdf_idx := (p : Int), deps := [b+1]
    children := (List.range K).map (fun q => b+3+2*q)
    preference_list := prefFor cfg ResourceClass.embed } ::
  (List.range K).flatMap (fun q =>
    subPairSpec cfg wfid seed iter p q (b+2) (b+3+2*q))

/-- The extract-node ids accumulated by the pdf loop starting at base
id `n0`. -/
def exIdsOf (n0 P K : Nat) : List Nat :=
  (List.range P).flatMap (fun p => (List.range K).map (fun q => n0 + p*(3+2*K) + 3 + 2*q + 1))

/-- The load-node ids of the pdf loop starting at base id `n0`. -/
def loadIdsOf (n0 P K : Nat) : List Nat :=
  (List.range P).map (fun p => n0 + p*(3+2*K))

/-- The fresh `Aggregate` node. -/
def aggSpec (cfg : List TierConfig) (wfid iter agg_id : Nat) : Node :=
  { id := agg_id, workflow_id := wfid, ntype := NodeType.Aggregate
    resource_class := ResourceClass.cpu, idempotent := true, iter := iter
    preference_list := prefFor cfg ResourceClass.cpu }

/-- The fresh `DecideNext` node. -/
def decSpec (cfg : List TierConfig) (wfid iter dec_id : Nat) : Node :=
  { id := dec_id, workflow_id := wfid, ntype := NodeType.DecideNext
    resource_class := ResourceClass.llm, idempotent := true, iter := iter
    preference_list := prefFor cfg ResourceClass.llm }

/-- The closed form of a successful (unguarded) run of
`ExpandIterationFromPlan` on plan node `pid` at iteration `k`: the pdf
blocks, the `Aggregate`/`DecideNext` pair, the collected
extract→aggregate (or plan→aggregate) edges, the aggregate→decide edge,
and the two state initializations. -/
def expandedAt (w : Workflow) (pid k : Nat) : Workflow :=
  let n0 := w.next_node_id
  let P := w.params.pdfs
  let K := w.params.subqueries_per_iter
  let A := n0 + P*(3+2*K)
  let es := exIdsOf n0 P K
  let base := w.nodes.map (extendChildren pid (loadIdsOf n0 P K)) ++
    (List.range P).flatMap (fun p =>
      pdfBlock w.provider_config w.id w.params.seed k K pid
        (n0 + p*(3+2*K)) p) ++
    [aggSpec w.provider_config w.id k A,
     decSpec w.provider_config w.id k (A+1)]
  let edged := if es.isEmpty then base.map (edgeF pid A)
               else base.map (exMapF es A)
  initializeStateFromDeps (initializeStateFromDeps
    { w with
      nodes := edged.map (edgeF A (A+1))
      next_node_id := A + 2 } A) (A + 1)

/-- The node-count predicate of the structural claims: node type `t` at
iteration `k`. -/
def typeIterP (t : NodeType) (k : Nat) : Node → Bool :=
  fun n => decide (n.ntype = t ∧ n.iter = k)

/-- Number of nodes of type `t` at iteration `k`. -/
def typeCount (w : Workflow) (t : NodeType) (k : Nat) : Nat :=
  w.nodes.countP (typeIterP t k)

/-- Per-pdf-block contribution of each node type. -/
def blockCountOf (t : NodeType) (K : Nat) : Nat :=
  match t with
  | NodeType.LoadPDF => 1
  | NodeType.Chunk => 1
  | NodeType.Embed => 1
  | NodeType.SimilaritySearch => K
  | NodeType.ExtractEvidence => K
  | _ => 0

/-- Number of nodes of each type one expanded iteration adds. -/
def addedCountOf (t : NodeType) (P K : Nat) : Nat :=
  match t with
  | NodeType.LoadPDF => P
  | NodeType.Chunk => P
  | NodeType.Embed => P
  | NodeType.SimilaritySearch => P*K
  | NodeType.ExtractEvidence => P*K
  | NodeType.Aggregate => 1
  | NodeType.DecideNext => 1
  | NodeType.Plan => 0

/-- The uniqueness invariant of claim C9 (with the id-counter bound that
keeps the expansion closed form applicable, and strengthened to
`DecideNext ≤ Aggregate` so that the expansion step preserves it). -/
def wfInv (w : Workflow) : Prop :=
  idsBelow w = true ∧ ∀ k, typeCount w NodeType.Aggregate k ≤ 1 ∧
    typeCount w NodeType.DecideNext k ≤ typeCount w NodeType.Aggregate k

/-- Claim C4's structural description of one expanded iteration `k`:
node counts per type, the per-pdf chains with their edges (edges read
off the `deps`/`children` lists of the created nodes), the subquery
pairs with their deterministic evidence estimates, and the
`Aggregate`/`DecideNext` pair with its incoming edges. -/
def c4Prop (w : Workflow) (pid k : Nat) : Prop :=
  let n0 := w.next_node_id
  let P := w.params.pdfs
  let K := w.params.subqueries_per_iter
  let A := n0 + P*(3+2*K)
  let cfg := w.provider_config
  let w' := expandIterationFromPlan w pid
  typeCount w' NodeType.LoadPDF k = typeCount w NodeType.LoadPDF k + P ∧
  typeCount w' NodeType.Chunk k = typeCount w NodeType.Chunk k + P ∧
  typeCount w' NodeType.Embed k = typeCount w NodeType.Embed k + P ∧
  typeCount w' NodeType.SimilaritySearch k =
    typeCount w NodeType.SimilaritySearch k + P*K ∧
  typeCount w' NodeType.ExtractEvidence k =
    typeCount w NodeType.ExtractEvidence k + P*K ∧
  typeCount w' NodeType.Aggregate k = 1 ∧
  typeCount w' NodeType.DecideNext k = typeCount w NodeType.DecideNext k + 1 ∧
  (∀ p, p < P →
    ({ id := n0 + p*(3+2*K), workflow_id := w.id, ntype := NodeType.LoadPDF
       resource_class := ResourceClass.io, idempotent := true, iter := k
       pdf_idx := (p : Int), deps := [pid], children := [n0 + p*(3+2*K) + 1]
       preference_list := prefFor cfg ResourceClass.io } : Node) ∈ w'.nodes ∧
    ({ id := n0 + p*(3+2*K) + 1, workflow_id := w.id, ntype := NodeType.Chunk
       resource_class := ResourceClass.cpu, idempotent := true, iter := k
       pdf_idx := (p : Int), deps := [n0 + p*(3+2*K)]
       children := [n0 + p*(3+2*K) + 2]
       preference_list := prefFor cfg ResourceClass.cpu } : Node) ∈ w'.nodes ∧
    ({ id := n0 + p*(3+2*K) + 2, workflow_id := w.id, ntype := NodeType.Embed
       resource_class := ResourceClass.embed, idempotent := true, iter := k
       pdf_idx := (p : Int), deps := [n0 + p*(3+2*K) + 1]
       children := (List.range K).map (fun q => n0 + p*(3+2*K) + 3 + 2*q)
       preference_list := prefFor cfg ResourceClass.embed } : Node) ∈
      w'.nodes) ∧
  (∀ p, p < P → ∀ q, q < K →
    ({ id := n0 + p*(3+2*K) + 3 + 2*q, workflow_id := w.id
       ntype := NodeType.SimilaritySearch, resource_class := ResourceClass.cpu
       idempotent := true, iter := k, pdf_idx := (p : Int)
       subquery_idx := (q : Int), deps := [n0 + p*(3+2*K) + 2]
       children := [n0 + p*(3+2*K) + 3 + 2*q + 1]
       preference_list := prefFor cfg ResourceClass.cpu } : Node) ∈ w'.nodes ∧
    ({ id := n0 + p*(3+2*K) + 3 + 2*q + 1, workflow_id := w.id
       ntype := NodeType.ExtractEvidence, resource_class := ResourceClass.llm
       idempotent := true, iter := k, pdf_idx := (p : Int)
       subquery_idx := (q : Int), deps := [n0 + p*(3+2*K) + 3 + 2*q]
       children := [A]
       evidence_count_est := ((evidenceHash w.params.seed w.id k p q) % 4 : Nat)
       preference_list := prefFor cfg ResourceClass.llm } : Node) ∈ w'.nodes ∧
    ((evidenceHash w.params.seed w.id k p q) % 4 : Nat) < 4) ∧
  (∃ st, ({ id := A, workflow_id := w.id, ntype := NodeType.Aggregate
            resource_class := ResourceClass.cpu, idempotent := true
            state := st, iter := k
            deps := if K = 0 then [pid] else exIdsOf n0 P K
            children := [A+1]
            preference_list := prefFor cfg ResourceClass.cpu } : Node) ∈
    w'.nodes) ∧
  (∃ st, ({ id := A+1, workflow_id := w.id, ntype := NodeType.DecideNext
            resource_class := ResourceClass.llm, idempotent := true
            state := st, iter := k, deps := [A]
            preference_list := prefFor cfg ResourceClass.llm } : Node) ∈
    w'.nodes)

/-! ## Theorems -/

/-- **C10.** `SeededRng::Bernoulli(p)` returns `false` for `p ≤ 0` and
`true` for `p ≥ 1` without advancing the 256-bit state, and for
`0 < p < 1` it consumes exactly one uniform draw, returning whether that
draw is strictly below `p`; hence boundary probabilities leave the
stream position of later sampling sites unchanged. -/
theorem bernoulli_boundary_and_stream (p : ℚ) (s : RngState) :
    (p ≤ 0 → bernoulli p s = (false, s)) ∧
    (1 ≤ p → bernoulli p s = (true, s)) ∧
    (0 < p → p < 1 →
      bernoulli p s = (decide ((uniform01 s).1 < p), (uniform01 s).2)) ∧
    ((p ≤ 0 ∨ 1 ≤ p) → uniform01 (bernoulli p s).2 = uniform01 s) := by
  refine ⟨fun h => ?_, fun h => ?_, fun h0 h1 => ?_, fun h => ?_⟩
  · simp [bernoulli, h]
  · by_cases h0 : p ≤ 0
    · exact absurd (le_trans h h0) (by norm_num)
    · simp [bernoulli, h0, h]
  · have hn0 : ¬ p ≤ 0 := not_le.mpr h0
    have hn1 : ¬ 1 ≤ p := not_le.mpr h1
    simp only [bernoulli, hn0, hn1, if_false, uniform01]
  · rcases h with h | h
    · simp [bernoulli, h]
    · by_cases h0 : p ≤ 0
      · simp [bernoulli, h0]
      · simp [bernoulli, h0, h]

/-- Witness for C10 at `p = 0`, `p = 1` and `p = 1/2`. -/
theorem bernoulli_boundary_and_stream_witness :
    bernoulli 0 rngW = (false, rngW) ∧
    bernoulli 1 rngW = (true, rngW) ∧
    bernoulli (1/2) rngW = (decide ((uniform01 rngW).1 < 1/2), (uniform01 rngW).2) := by
  refine ⟨(bernoulli_boundary_and_stream 0 rngW).1 (by norm_num),
    (bernoulli_boundary_and_stream 1 rngW).2.1 (by norm_num),
    (bernoulli_boundary_and_stream (1/2) rngW).2.2.1 (by norm_num) (by norm_num)⟩

/-- **C5 (failing input).**  With `tail_prob = 0` and
`tail_multiplier = 3`, `SampleServiceTime`'s tail step multiplies the
raw sample `10` into `30` without any Bernoulli draw, although
`tail_prob` is documented in `src/sim/config.h` as "probability of
applying tail_multiplier" (and the parallel local-worker sampler in
`src/sim/worker.cpp` applies no multiplier in this case): the
`tail_prob == 0.0 && tail_multiplier != 1.0` branch fires
unconditionally. -/
theorem tail_multiplier_applied_at_prob_zero :
    serviceTimeFromRaw { tail_multiplier := 3, tail_prob := 0 } 10 rngW =
      (30, rngW) := by
  norm_num [serviceTimeFromRaw, bernoulli]

/-- **C6 (counterexample).**  At `timeout_ms = 0`, `p_fail = 0` and a
sampled service time of `5`, the claim as stated demands
`timeout = true` (since `5 > 0`), but `Sample` only compares against
positive timeouts and returns `timeout = false`. -/
theorem sample_claim_false_at_zero_timeout : ¬ c6ClaimAt 5 0 0 rngW := by
  intro h
  have hfail : (sampleFromService 5 0 0 rngW).1.failed = false := by decide
  have := (h.2.2.1 hfail).2 (by norm_num)
  exact absurd this.1 (by decide)

/-- **C6 (amended).**  `failed` mirrors the `Bernoulli(p_fail)` draw; on
failure the timeout flag is false and the service time is returned
unclamped (the timeout comparison is skipped); otherwise the sample
times out, with service time clamped to `timeout_ms`, exactly when
`timeout_ms > 0` and the sampled service time exceeds it; `failed` and
`timeout` are never both true. -/
theorem sample_failure_timeout (service : ℚ) (timeout_ms : Int) (p_fail : ℚ)
    (rng : RngState) :
    ((sampleFromService service timeout_ms p_fail rng).1.failed =
      (bernoulli p_fail rng).1) ∧
    ((sampleFromService service timeout_ms p_fail rng).1.failed = true →
      (sampleFromService service timeout_ms p_fail rng).1.timeout = false ∧
      (sampleFromService service timeout_ms p_fail rng).1.service_time_ms = service) ∧
    ((sampleFromService service timeout_ms p_fail rng).1.failed = false →
      ((sampleFromService service timeout_ms p_fail rng).1.timeout = true ↔
        timeout_ms > 0 ∧ service > (timeout_ms : ℚ)) ∧
      (sampleFromService service timeout_ms p_fail rng).1.service_time_ms =
        (if timeout_ms > 0 ∧ service > (timeout_ms : ℚ) then (timeout_ms : ℚ)
         else service)) ∧
    ¬ ((sampleFromService service timeout_ms p_fail rng).1.failed = true ∧
       (sampleFromService service timeout_ms p_fail rng).1.timeout = true) := by
  unfold sampleFromService
  rcases hb : bernoulli p_fail rng with ⟨fail, rng'⟩
  cases fail
  · by_cases ht : timeout_ms > 0 ∧ service > (timeout_ms : ℚ)
    · simp [ht]
    · simp [ht]
  · simp

/-- Witness for C6 (amended) at `service = 500`, `timeout_ms = 100`,
`p_fail = 0`. -/
theorem sample_failure_timeout_witness :
    ((sampleFromService 500 100 0 rngW).1.timeout = true ↔
      (100 : Int) > 0 ∧ (500 : ℚ) > ((100 : Int) : ℚ)) ∧
    (sampleFromService 500 100 0 rngW).1.service_time_ms =
      (if (100 : Int) > 0 ∧ (500 : ℚ) > ((100 : Int) : ℚ) then ((100 : Int) : ℚ)
       else 500) :=
  (sample_failure_timeout 500 100 0 rngW).2.2.1 (by decide)

/-- `tryDequeue` in pattern-match form: `none` on an empty queue or a
full tier, otherwise pop-and-increment. -/
theorem tryDequeue_eq (t : TierState) :
    tryDequeue t =
      (match t.queue with
       | [] => none
       | a :: rest =>
         if t.in_flight < t.config.concurrency_cap then
           some (a, { t with queue := rest, in_flight := t.in_flight + 1 })
         else none) := by
  unfold tryDequeue
  rcases hq : t.queue with _ | ⟨a, rest⟩
  · simp
  · by_cases hf : t.in_flight < t.config.concurrency_cap
    · simp [hf, not_le.mpr hf]
    · simp [hf, not_lt.mp hf]

/-- Inversion of a successful `tryDequeue`. -/
theorem tryDequeue_some {t : TierState} {a : Nat} {t' : TierState}
    (h : tryDequeue t = some (a, t')) :
    ∃ rest, t.queue = a :: rest ∧ t.in_flight < t.config.concurrency_cap ∧
      t' = { t with queue := rest, in_flight := t.in_flight + 1 } := by
  rw [tryDequeue_eq] at h
  rcases hq : t.queue with _ | ⟨b, rest2⟩
  · rw [hq] at h
    exact absurd h (by simp)
  · rw [hq] at h
    by_cases hf : t.in_flight < t.config.concurrency_cap
    · simp only [hf, if_true, Option.some.injEq, Prod.mk.injEq] at h
      exact ⟨rest2, by rw [h.1], hf, h.2.symm⟩
    · simp only [hf, if_false] at h
      exact absurd h (by simp)

/-- Invariant of a tier run: configuration fixed, `in_flight` capped,
and the dequeued history followed by the pending queue is exactly the
enqueue history (FIFO). -/
def tierInv (tc : TierConfig) (r : TierRun) : Prop :=
  r.tier.config = tc ∧ r.tier.in_flight ≤ tc.concurrency_cap ∧
    r.dequeued ++ r.tier.queue = r.enqueued

theorem tierInv_step (tc : TierConfig) (r : TierRun) (op : TierOp)
    (h : tierInv tc r) : tierInv tc (tierStep r op) := by
  obtain ⟨hc, hcap, hq⟩ := h
  have hdeq : ∀ a t', tryDequeue r.tier = some (a, t') →
      tierInv tc
        { r with tier := t', dequeued := r.dequeued ++ [a],
                 deq_count := r.deq_count + 1 } := by
    intro a t' hd
    obtain ⟨rest, hql, hlt, ht⟩ := tryDequeue_some hd
    refine ⟨by rw [ht]; exact hc, ?_, ?_⟩
    · rw [ht]
      have : r.tier.config.concurrency_cap = tc.concurrency_cap := by rw [hc]
      simp only
      omega
    · rw [ht]
      simpa [hql] using hq
  cases op with
  | enq a =>
    refine ⟨hc, hcap, ?_⟩
    simp [tierStep, tierEnqueue, ← hq]
  | tryDeq =>
    rcases hd : tryDequeue r.tier with _ | ⟨a, t'⟩
    · simpa [tierStep, hd] using ⟨hc, hcap, hq⟩
    · simpa [tierStep, hd] using hdeq a t' hd
  | blockingDeq =>
    rcases hd : tryDequeue r.tier with _ | ⟨a, t'⟩
    · simpa [tierStep, blockingDequeue, hd] using ⟨hc, hcap, hq⟩
    · simpa [tierStep, blockingDequeue, hd] using hdeq a t' hd
  | finish =>
    refine ⟨hc, ?_, hq⟩
    simp only [tierStep, onAttemptFinish]
    omega

theorem tierInv_fold (tc : TierConfig) (ops : List TierOp) :
    ∀ r, tierInv tc r → tierInv tc (ops.foldl tierStep r) := by
  induction ops with
  | nil => exact fun r h => h
  | cons op rest ih =>
    intro r h
    rw [List.foldl_cons]
    exact ih _ (tierInv_step tc r op h)

theorem tierInv_run (tc : TierConfig) (h0 : 0 ≤ tc.concurrency_cap)
    (ops : List TierOp) : tierInv tc (tierRun (tierInit tc) ops) :=
  tierInv_fold tc ops _ ⟨rfl, h0, rfl⟩

/-- **C8.**  `TryDequeue` refuses exactly on an empty queue or a full
tier and otherwise pops the front while incrementing `in_flight`; and
along any operation sequence started at `in_flight = 0` (with
`OnAttemptFinish` never outrunning the successful dequeues) every prefix
keeps `in_flight ≤ concurrency_cap` and delivers the dequeued attempts
in FIFO order of their enqueues (the dequeue history followed by the
pending queue is the enqueue history). -/
theorem tier_cap_and_fifo (tc : TierConfig) (ops : List TierOp)
    (h0 : 0 ≤ tc.concurrency_cap)
    (hfin : ∀ k ≤ ops.length,
      (tierRun (tierInit tc) (ops.take k)).fin_count ≤
        (tierRun (tierInit tc) (ops.take k)).deq_count) :
    (∀ t : TierState,
      (t.queue = [] ∨ t.in_flight ≥ t.config.concurrency_cap →
        tryDequeue t = none) ∧
      (∀ a rest, t.queue = a :: rest →
        t.in_flight < t.config.concurrency_cap →
        tryDequeue t =
          some (a, { t with queue := rest, in_flight := t.in_flight + 1 }))) ∧
    (∀ k, (tierRun (tierInit tc) (ops.take k)).tier.in_flight ≤
      tc.concurrency_cap) ∧
    (∀ k, (tierRun (tierInit tc) (ops.take k)).dequeued ++
        (tierRun (tierInit tc) (ops.take k)).tier.queue =
      (tierRun (tierInit tc) (ops.take k)).enqueued) := by
  refine ⟨fun t => ⟨fun hcond => ?_, fun a rest hql hlt => ?_⟩,
    fun k => (tierInv_run tc h0 (ops.take k)).2.1,
    fun k => (tierInv_run tc h0 (ops.take k)).2.2⟩
  · unfold tryDequeue
    rcases hcond with hc | hc
    · rw [if_pos (Or.inl hc)]
    · rw [if_pos (Or.inr hc)]
  · rw [tryDequeue_eq, hql]
    simp [hlt]

/-- Witness for C8: a five-operation run on a cap-2 tier. -/
theorem tier_cap_and_fifo_witness :
    (tierRun (tierInit { provider := "llm_provider", concurrency_cap := 2 })
        ([TierOp.enq 5, TierOp.enq 6, TierOp.tryDeq, TierOp.finish,
          TierOp.blockingDeq].take 5)).tier.in_flight ≤ (2 : Int) ∧
    (tierRun (tierInit { provider := "llm_provider", concurrency_cap := 2 })
        ([TierOp.enq 5, TierOp.enq 6, TierOp.tryDeq, TierOp.finish,
          TierOp.blockingDeq].take 5)).dequeued ++
      (tierRun (tierInit { provider := "llm_provider", concurrency_cap := 2 })
        ([TierOp.enq 5, TierOp.enq 6, TierOp.tryDeq, TierOp.finish,
          TierOp.blockingDeq].take 5)).tier.queue =
      (tierRun (tierInit { provider := "llm_provider", concurrency_cap := 2 })
        ([TierOp.enq 5, TierOp.enq 6, TierOp.tryDeq, TierOp.finish,
          TierOp.blockingDeq].take 5)).enqueued := by
  have h := tier_cap_and_fifo { provider := "llm_provider", concurrency_cap := 2 }
    [TierOp.enq 5, TierOp.enq 6, TierOp.tryDeq, TierOp.finish, TierOp.blockingDeq]
    (by norm_num) (by decide)
  exact ⟨h.2.1 5, h.2.2 5⟩

/-- `IterEvidenceTotal` depends only on the iteration's
`ExtractEvidence` data. -/
theorem iterEvidenceTotal_eq_data (w : Workflow) (k : Nat) :
    iterEvidenceTotal w k = ((extEvidenceData w k).map Prod.snd).sum := by
  simp only [iterEvidenceTotal, extEvidenceData, List.map_map]
  rfl

/-- `IterPdfCoverageCount` depends only on the iteration's
`ExtractEvidence` data: it is the number of distinct pdf indices among
the pairs with positive evidence. -/
theorem iterPdfCoverageCount_eq_data (w : Workflow) (k : Nat) :
    iterPdfCoverageCount w k =
      ((((extEvidenceData w k).filter (fun pr => pr.2 > 0)).map
        Prod.fst).dedup).length := by
  unfold iterPdfCoverageCount extEvidenceData
  rw [List.filter_map, List.map_map, List.filter_filter]
  have hfe : List.filter (fun n =>
      decide (n.iter = k ∧ n.ntype = NodeType.ExtractEvidence ∧
        n.evidence_count_est > 0)) w.nodes =
      List.filter (fun a =>
        ((fun pr : Int × Int => decide (pr.2 > 0)) ∘
          fun n : Node => (n.pdf_idx, n.evidence_count_est)) a &&
        decide (a.iter = k ∧ a.ntype = NodeType.ExtractEvidence)) w.nodes := by
    refine List.filter_congr (fun n _ => ?_)
    by_cases h1 : n.iter = k <;>
      by_cases h2 : n.ntype = NodeType.ExtractEvidence <;>
      by_cases h3 : n.evidence_count_est > 0 <;>
      simp [h1, h2, h3, Function.comp]
  rw [hfe]
  rfl

/-- **C3.**  The `DecideNext` decision at iteration `k` is a pure
function of the workflow's identity, parameters and the
`(pdf, evidence)` data of its iteration-`k` `ExtractEvidence` nodes, and
it stops exactly when `k+1 ≥ max_iters`, or coverage ≥ 0.60 and
confidence ≥ 0.50, or coverage ≥ 0.45, confidence ≥ 0.35 and the
deterministic tie-breaker exceeds 0.70, where coverage is the number of
distinct pdf indices with positive evidence over `max 1 pdfs` and
confidence is `min 1 (total evidence / max 1 (pdfs·max 1 subqueries·2))`. -/
theorem computeDecideAction_pure_and_stop_iff (w w2 : Workflow) (k : Nat)
    (hp : w.params = w2.params) (hid : w.id = w2.id)
    (hdata : extEvidenceData w k = extEvidenceData w2 k) :
    computeDecideAction w k = computeDecideAction w2 k ∧
    (computeDecideAction w k = DecideAction.Stop ↔
      (w.params.max_iters ≤ k + 1 ∨
        (((((extEvidenceData w k).filter (fun pr => pr.2 > 0)).map
              Prod.fst).dedup.length : ℚ) / (max 1 w.params.pdfs : Nat) ≥ 6/10 ∧
          min 1 ((((extEvidenceData w k).map Prod.snd).sum : ℚ) /
            (max 1 (w.params.pdfs * max 1 w.params.subqueries_per_iter * 2) : Nat))
            ≥ 5/10) ∨
        (((((extEvidenceData w k).filter (fun pr => pr.2 > 0)).map
              Prod.fst).dedup.length : ℚ) / (max 1 w.params.pdfs : Nat) ≥ 45/100 ∧
          min 1 ((((extEvidenceData w k).map Prod.snd).sum : ℚ) /
            (max 1 (w.params.pdfs * max 1 w.params.subqueries_per_iter * 2) : Nat))
            ≥ 35/100 ∧
          ((mix64 (((w.params.seed % U) ^^^ ((w.id <<< 1) % U)) ^^^
              ((k * 0xD1B54A32D192ED03) % U)) &&& 0xFFFF : Nat) : ℚ) / 65535
            > 7/10))) := by
  constructor
  · have htotal : iterEvidenceTotal w k = iterEvidenceTotal w2 k := by
      rw [iterEvidenceTotal_eq_data, iterEvidenceTotal_eq_data, hdata]
    have hcov : iterPdfCoverageCount w k = iterPdfCoverageCount w2 k := by
      rw [iterPdfCoverageCount_eq_data, iterPdfCoverageCount_eq_data, hdata]
    unfold computeDecideAction
    rw [htotal, hcov, hp, hid]
  · unfold computeDecideAction
    rw [iterEvidenceTotal_eq_data, iterPdfCoverageCount_eq_data]
    by_cases hm : w.params.max_iters ≤ k + 1
    · simp [hm]
    · simp only [hm, if_false, false_or]
      by_cases hs : (((((extEvidenceData w k).filter (fun pr => pr.2 > 0)).map
            Prod.fst).dedup.length : ℚ) / (max 1 w.params.pdfs : Nat) ≥ 6/10 ∧
          min 1 ((((extEvidenceData w k).map Prod.snd).sum : ℚ) /
            (max 1 (w.params.pdfs * max 1 w.params.subqueries_per_iter * 2) : Nat))
            ≥ 5/10) ∨
          (((((extEvidenceData w k).filter (fun pr => pr.2 > 0)).map
            Prod.fst).dedup.length : ℚ) / (max 1 w.params.pdfs : Nat) ≥ 45/100 ∧
          min 1 ((((extEvidenceData w k).map Prod.snd).sum : ℚ) /
            (max 1 (w.params.pdfs * max 1 w.params.subqueries_per_iter * 2) : Nat))
            ≥ 35/100 ∧
          ((mix64 (((w.params.seed % U) ^^^ ((w.id <<< 1) % U)) ^^^
              ((k * 0xD1B54A32D192ED03) % U)) &&& 0xFFFF : Nat) : ℚ) / 65535
            > 7/10)
      · simp only [ge_iff_le, gt_iff_lt] at hs ⊢
        rw [if_pos hs]
        exact ⟨fun _ => hs, fun _ => rfl⟩
      · simp only [ge_iff_le, gt_iff_lt] at hs ⊢
        rw [if_neg hs]
        exact ⟨fun h => absurd h (by decide), fun h => absurd h hs⟩

/-- Witness for C3: the decision at iteration 0 agrees across two node
lists carrying the same `ExtractEvidence` data. -/
theorem computeDecideAction_pure_witness :
    computeDecideAction wfC3A 0 = computeDecideAction wfC3B 0 :=
  (computeDecideAction_pure_and_stop_iff wfC3A wfC3B 0 (by rfl) (by rfl)
    (by rfl)).1

/-- The `SelectOption` walk returns the first option that is within the
remaining budget and has an accepting tier (every break path of the C++
loop leaves `chosen` at that option). -/
theorem selectLoop_eq_find (cfg : SchedulerConfig) (tiers : List TierState)
    (store : LatencyStore) (nty : NodeType) (front : ExecutionOption)
    (budget_left : ℚ) (is_critical : Bool) (l : List ExecutionOption) :
    selectLoop cfg tiers store nty front budget_left is_critical l =
      l.find? (acceptableB tiers budget_left) := by
  induction l with
  | nil => rfl
  | cons opt rest ih =>
    unfold selectLoop
    by_cases hp : opt.price_per_call > budget_left
    · rw [if_pos hp, ih,
        List.find?_cons_of_neg _ (by simp [acceptableB, not_le.mpr hp])]
    · rw [if_neg hp]
      cases hgt : getTier tiers opt.provider opt.tier_id with
      | none =>
        show selectLoop cfg tiers store nty front budget_left is_critical rest = _
        rw [ih, List.find?_cons_of_neg _ (by simp [acceptableB, hgt])]
      | some t =>
        by_cases hca : canAccept t
        · have hacc : acceptableB tiers budget_left opt = true := by
            simp [acceptableB, hgt, hca, not_lt.mp hp]
          rw [List.find?_cons_of_pos _ hacc]
          simp [hca, ite_self]
        · have hacc : ¬ acceptableB tiers budget_left opt = true := by
            simp [acceptableB, hgt, hca]
          rw [List.find?_cons_of_neg _ hacc, ← ih]
          simp [hca]

/-- **C1 (amended).**  `SelectOption` walks the preference list cheapest
first and skips options that are over the remaining budget or whose tier
cannot accept; the first acceptable option (which is then within budget)
is selected — but when *no* option is acceptable the code falls back to
the front (cheapest) option regardless of budget, so with
`budget_left ≤ 0` and positive prices the cheapest option is still
selected and, whenever its tier can accept, a provider attempt is
dispatched. -/
theorem selectOption_walk_and_fallback (cfg : SchedulerConfig)
    (tiers : List TierState) (store : LatencyStore) (n : Node) (wcost : ℚ)
    (crit : Bool) :
    (selectOption cfg tiers store n wcost crit =
      ((n.preference_list.find?
          (acceptableB tiers (cfg.budget_per_workflow - wcost))).orElse
        (fun _ => n.preference_list.head?))) ∧
    (∀ o, n.preference_list.find?
        (acceptableB tiers (cfg.budget_per_workflow - wcost)) = some o →
      o.price_per_call ≤ cfg.budget_per_workflow - wcost ∧
        ∃ t, getTier tiers o.provider o.tier_id = some t ∧ canAccept t = true) ∧
    (cfg.budget_per_workflow - wcost ≤ 0 →
      (∀ o ∈ n.preference_list, 0 < o.price_per_call) →
      selectOption cfg tiers store n wcost crit = n.preference_list.head?) ∧
    (∀ front rest t, cfg.enable_model_routing = true →
      n.preference_list = front :: rest →
      cfg.budget_per_workflow - wcost ≤ 0 →
      (∀ o ∈ n.preference_list, 0 < o.price_per_call) →
      getTier tiers front.provider front.tier_id = some t →
      canAccept t = true →
      providerDispatchDecision cfg tiers store n wcost crit =
        some { provider := front.provider, tier_id := front.tier_id
               timeout_ms := front.timeout_ms
               max_retries := front.max_retries }) := by
  have hwalk : selectOption cfg tiers store n wcost crit =
      ((n.preference_list.find?
          (acceptableB tiers (cfg.budget_per_workflow - wcost))).orElse
        (fun _ => n.preference_list.head?)) := by
    unfold selectOption
    cases hl : n.preference_list with
    | nil => rfl
    | cons front rest =>
      simp only [selectLoop_eq_find]
      cases hf : List.find? (acceptableB tiers (cfg.budget_per_workflow - wcost))
          (front :: rest) with
      | none => rfl
      | some o => rfl
  have hfind : ∀ o, n.preference_list.find?
      (acceptableB tiers (cfg.budget_per_workflow - wcost)) = some o →
      o.price_per_call ≤ cfg.budget_per_workflow - wcost ∧
        ∃ t, getTier tiers o.provider o.tier_id = some t ∧ canAccept t = true := by
    intro o ho
    have hacc := List.find?_some ho
    simp only [acceptableB, Bool.and_eq_true, decide_eq_true_eq] at hacc
    refine ⟨hacc.1, ?_⟩
    rcases hgt : getTier tiers o.provider o.tier_id with _ | t
    · rw [hgt] at hacc
      exact absurd hacc.2 (by simp)
    · rw [hgt] at hacc
      exact ⟨t, rfl, hacc.2⟩
  have hnoneB : cfg.budget_per_workflow - wcost ≤ 0 →
      (∀ o ∈ n.preference_list, 0 < o.price_per_call) →
      n.preference_list.find?
        (acceptableB tiers (cfg.budget_per_workflow - wcost)) = none := by
    intro hb hpos
    rw [List.find?_eq_none]
    intro o ho
    have : ¬ o.price_per_call ≤ cfg.budget_per_workflow - wcost :=
      not_le.mpr (lt_of_le_of_lt hb (hpos o ho))
    simp [acceptableB, this]
  have hfall : cfg.budget_per_workflow - wcost ≤ 0 →
      (∀ o ∈ n.preference_list, 0 < o.price_per_call) →
      selectOption cfg tiers store n wcost crit = n.preference_list.head? := by
    intro hb hpos
    rw [hwalk, hnoneB hb hpos]
    rfl
  refine ⟨hwalk, hfind, hfall, ?_⟩
  intro front rest t hrout hl hb hpos hgt hca
  unfold providerDispatchDecision
  rw [if_pos (by simp [hrout, hl])]
  rw [hfall hb hpos, hl]
  simp only [List.head?_cons]
  rw [hgt]
  simp [hca]

/-- **C1 (counterexample).**  With model routing enabled and
`budget_per_workflow = 0` (scenario 5 of the spec), the node's only
option costs `0.01 > 0 = budget_left`, yet `SelectOption` returns it via
its fallback and `Dispatch` enqueues the attempt: the claim's "selected
option is within budget / budget ≤ 0 blocks dispatch" is false. -/
theorem selectOption_budget_claim_false :
    ¬ c1ClaimAt cfgC1 tiersC1 defaultStore nodeC1 0 false := by
  intro h
  have hd := h.2 (by norm_num [cfgC1])
  have hval : providerDispatchDecision cfgC1 tiersC1 defaultStore nodeC1 0 false =
      some { provider := "llm_provider", tier_id := 0, timeout_ms := 30000,
             max_retries := 3 } := by
    norm_num [providerDispatchDecision, selectOption, selectLoop, getTier,
      canAccept, cfgC1, tiersC1, nodeC1, defaultStore]
  rw [hval] at hd
  exact absurd hd (by simp)

/-- Witness for C1 (amended): the scenario-5 instance, where the
fallback selects the cheapest option and the dispatch proceeds. -/
theorem selectOption_walk_and_fallback_witness :
    selectOption cfgC1 tiersC1 defaultStore nodeC1 0 false =
      nodeC1.preference_list.head? ∧
    providerDispatchDecision cfgC1 tiersC1 defaultStore nodeC1 0 false =
      some { provider := "llm_provider", tier_id := 0, timeout_ms := 30000,
             max_retries := 3 } := by
  have h := selectOption_walk_and_fallback cfgC1 tiersC1 defaultStore nodeC1 0 false
  have hpos : ∀ o ∈ nodeC1.preference_list, (0 : ℚ) < o.price_per_call := by
    intro o ho
    simp only [nodeC1, List.mem_singleton] at ho
    rw [ho]
    norm_num
  refine ⟨h.2.2.1 (by norm_num [cfgC1]) hpos, ?_⟩
  have hd := h.2.2.2
    { provider := "llm_provider", tier_id := 0, price_per_call := 1/100,
      timeout_ms := 30000, max_retries := 3 } []
    (tiersC1.head (by norm_num [tiersC1])) rfl rfl (by norm_num [cfgC1]) hpos
    (by norm_num [getTier, tiersC1]) (by norm_num [canAccept, tiersC1])
  exact hd

/-! ### Node-map lemmas -/

theorem find?_map_of_id (f : Node → Node) (hf : ∀ x, (f x).id = x.id)
    (l : List Node) (nid : Nat) :
    (l.map f).find? (fun n => n.id = nid) =
      (l.find? (fun n => n.id = nid)).map f := by
  induction l with
  | nil => rfl
  | cons a l ih =>
    by_cases ha : a.id = nid
    · rw [List.map_cons, List.find?_cons_of_pos _ (by simp [hf, ha]),
        List.find?_cons_of_pos _ (by simp [ha])]
      rfl
    · rw [List.map_cons, List.find?_cons_of_neg _ (by simp [hf, ha]),
        List.find?_cons_of_neg _ (by simp [ha]), ih]

theorem findNode_id {w : Workflow} {nid : Nat} {n : Node}
    (h : findNode w nid = some n) : n.id = nid := by
  have := List.find?_some h
  simpa using this

theorem mem_of_findNode {w : Workflow} {nid : Nat} {n : Node}
    (h : findNode w nid = some n) : n ∈ w.nodes :=
  List.mem_of_find?_eq_some h

/-- Lookup in a workflow whose node list was mapped by an id-preserving
function. -/
theorem findNode_mapNodes (w : Workflow) (f : Node → Node)
    (hf : ∀ x, (f x).id = x.id) (rest : List Node → List Node) (nid : Nat)
    (hrest : ∀ l, rest l = l.map f) (w2 : Workflow)
    (hw2 : w2.nodes = rest w.nodes) :
    findNode w2 nid = (findNode w nid).map f := by
  unfold findNode
  rw [hw2, hrest]
  exact find?_map_of_id f hf w.nodes nid

theorem findNode_append (w w2 : Workflow) (tail : List Node)
    (hw2 : w2.nodes = w.nodes ++ tail) (nid : Nat) :
    findNode w2 nid =
      ((findNode w nid).or (tail.find? (fun n => n.id = nid))) := by
  unfold findNode
  rw [hw2, List.find?_append]

theorem findNode_updateNode (w : Workflow) (nid : Nat) (f : Node → Node)
    (hf : ∀ m, (f m).id = m.id) (mid : Nat) :
    findNode (updateNode w nid f) mid =
      (findNode w mid).map (fun m => if m.id = nid then f m else m) := by
  unfold findNode updateNode
  exact find?_map_of_id _ (fun x => by by_cases h : x.id = nid <;> simp [h, hf]) _ _

theorem extendChildren_fields (a : Nat) (cids : List Nat) (m : Node) :
    (extendChildren a cids m).id = m.id ∧
    (extendChildren a cids m).ntype = m.ntype ∧
    (extendChildren a cids m).state = m.state ∧
    (extendChildren a cids m).iter = m.iter ∧
    (extendChildren a cids m).deps = m.deps ∧
    (extendChildren a cids m).pdf_idx = m.pdf_idx ∧
    (extendChildren a cids m).subquery_idx = m.subquery_idx ∧
    (extendChildren a cids m).evidence_count_est = m.evidence_count_est ∧
    (extendChildren a cids m).preference_list = m.preference_list := by
  unfold extendChildren
  split <;> exact ⟨rfl, rfl, rfl, rfl, rfl, rfl, rfl, rfl, rfl⟩

theorem edgeF_fields (a b : Nat) (m : Node) :
    (edgeF a b m).id = m.id ∧
    (edgeF a b m).ntype = m.ntype ∧
    (edgeF a b m).state = m.state ∧
    (edgeF a b m).iter = m.iter ∧
    (edgeF a b m).pdf_idx = m.pdf_idx ∧
    (edgeF a b m).evidence_count_est = m.evidence_count_est := by
  unfold edgeF
  dsimp only
  split <;> split <;> exact ⟨rfl, rfl, rfl, rfl, rfl, rfl⟩

theorem edgeF_of_ne (a b : Nat) (m : Node) (ha : m.id ≠ a) (hb : m.id ≠ b) :
    edgeF a b m = m := by
  unfold edgeF
  rw [if_neg ha, if_neg hb]

theorem edgeF_deps_of_ne (a b : Nat) (m : Node) (hb : m.id ≠ b) :
    (edgeF a b m).deps = m.deps := by
  unfold edgeF
  dsimp only
  by_cases ha : m.id = a
  · rw [if_pos ha, if_neg (by simpa using hb)]
  · rw [if_neg ha, if_neg hb]

theorem exMapF_fields (es : List Nat) (agg : Nat) (m : Node) :
    (exMapF es agg m).id = m.id ∧
    (exMapF es agg m).ntype = m.ntype ∧
    (exMapF es agg m).state = m.state ∧
    (exMapF es agg m).iter = m.iter ∧
    (exMapF es agg m).pdf_idx = m.pdf_idx ∧
    (exMapF es agg m).subquery_idx = m.subquery_idx ∧
    (exMapF es agg m).evidence_count_est = m.evidence_count_est := by
  unfold exMapF
  split
  · exact ⟨rfl, rfl, rfl, rfl, rfl, rfl, rfl⟩
  · split <;> exact ⟨rfl, rfl, rfl, rfl, rfl, rfl, rfl⟩

theorem exMapF_of_ne (es : List Nat) (agg : Nat) (m : Node)
    (ha : m.id ≠ agg) (hm : m.id ∉ es) : exMapF es agg m = m := by
  unfold exMapF
  rw [if_neg ha, if_neg hm]

theorem exMapF_deps_of_ne (es : List Nat) (agg : Nat) (m : Node)
    (ha : m.id ≠ agg) : (exMapF es agg m).deps = m.deps := by
  unfold exMapF
  rw [if_neg ha]
  split <;> rfl

theorem refreshNode_id (w : Workflow) (n : Node) : (refreshNode w n).id = n.id := by
  unfold refreshNode
  split
  · rfl
  · split <;> rfl

theorem findNode_refresh (w : Workflow) (nid : Nat) :
    findNode (refreshRunnable w) nid = (findNode w nid).map (refreshNode w) :=
  findNode_mapNodes w (refreshNode w) (refreshNode_id w) _ nid (fun _ => rfl)
    (refreshRunnable w) rfl

theorem refreshNode_not_succeeded (w : Workflow) (n : Node) :
    ((refreshNode w n).state = NodeState.Succeeded) =
      (n.state = NodeState.Succeeded) := by
  unfold refreshNode
  by_cases hs : isTerminal n.state ∨ n.state = NodeState.Queued ∨
      n.state = NodeState.Running
  · rw [if_pos hs]
  · rw [if_neg hs]
    have : ¬ n.state = NodeState.Succeeded := by
      intro h
      exact hs (Or.inl (by simp [isTerminal, h]))
    split <;> simp [this]

theorem succAt_refresh (w : Workflow) (nid : Nat) :
    succAt (refreshRunnable w) nid = succAt w nid := by
  unfold succAt
  rw [findNode_refresh]
  cases h : findNode w nid with
  | none => rfl
  | some n =>
    show decide ((refreshNode w n).state = NodeState.Succeeded) =
      decide (n.state = NodeState.Succeeded)
    simp only [refreshNode_not_succeeded]

theorem all_congr_mem (l : List Nat) (p q : Nat → Bool)
    (h : ∀ x ∈ l, p x = q x) : l.all p = l.all q := by
  induction l with
  | nil => rfl
  | cons a l ih =>
    simp only [List.all_cons]
    rw [h a (by simp), ih (fun x hx => h x (by simp [hx]))]

theorem depsSatisfied_congr (w w2 : Workflow) (n n2 : Node)
    (hdeps : n2.deps = n.deps) (hsucc : ∀ d, succAt w2 d = succAt w d) :
    depsSatisfied w2 n2 = depsSatisfied w n := by
  unfold depsSatisfied
  rw [hdeps]
  exact all_congr_mem _ _ _ (fun d _ => hsucc d)

/-! ### Closed form of `ExpandIterationFromPlan` -/

theorem populatePrefList_eq (cfg : List TierConfig) (n : Node) :
    populatePrefList cfg n =
      { n with preference_list := prefFor cfg n.resource_class } := rfl

theorem idsBelow_bound {w : Workflow} (hids : idsBelow w = true) :
    ∀ m ∈ w.nodes, m.id < w.next_node_id := by
  intro m hm
  have := (List.all_eq_true.mp hids) m hm
  simpa using this

theorem extendChildren_of_ne (a : Nat) (cids : List Nat) (m : Node)
    (h : m.id ≠ a) : extendChildren a cids m = m := by
  unfold extendChildren
  rw [if_neg h]

theorem extendChildren_nil (a : Nat) (m : Node) :
    extendChildren a [] m = m := by
  unfold extendChildren
  split
  · rw [List.append_nil]
  · rfl

theorem extendChildren_snoc (a : Nat) (c : Nat) (cs : List Nat) (m : Node) :
    extendChildren a [c] (extendChildren a cs m) =
      extendChildren a (cs ++ [c]) m := by
  obtain ⟨mid, mwf, mnt, mrc, mide, mst, mit, mpdf, msub, mdeps, mch, mpref,
    mout, mev⟩ := m
  unfold extendChildren
  by_cases ha : mid = a
  · rw [if_pos ha]
    dsimp only
    rw [if_pos ha, if_pos ha, List.append_assoc]
  · rw [if_neg ha, if_neg ha, if_neg ha]

theorem extendChildren_self (a : Nat) (cids : List Nat) (m : Node)
    (h : m.id = a) :
    extendChildren a cids m = { m with children := m.children ++ cids } := by
  unfold extendChildren
  rw [if_pos h]

theorem edgeF_eq_extend (a dst : Nat) (m : Node) (hm : m.id ≠ dst) :
    edgeF a dst m = extendChildren a [dst] m := by
  obtain ⟨mid, mwf, mnt, mrc, mide, mst, mit, mpdf, msub, mdeps, mch, mpref,
    mout, mev⟩ := m
  unfold edgeF extendChildren
  dsimp only at hm ⊢
  by_cases ha : mid = a
  · rw [if_pos ha]
    dsimp only
    rw [if_neg hm]
  · rw [if_neg ha]
    dsimp only
    rw [if_neg hm]

theorem edgeF_dst (a dst : Nat) (m : Node) (hm : m.id = dst) (hma : m.id ≠ a) :
    edgeF a dst m = { m with deps := m.deps ++ [a] } := by
  obtain ⟨mid, mwf, mnt, mrc, mide, mst, mit, mpdf, msub, mdeps, mch, mpref,
    mout, mev⟩ := m
  unfold edgeF
  dsimp only at hm hma ⊢
  rw [if_neg hma]
  dsimp only
  rw [if_pos hm]

theorem expandSubStep_eq (iter p embed_id : Nat) (w : Workflow)
    (exs : List Nat) (q : Nat) (hids : idsBelow w = true)
    (hembed : embed_id < w.next_node_id) :
    expandSubStep iter p embed_id (w, exs) q =
      ({ w with
         nodes := w.nodes.map (extendChildren embed_id [w.next_node_id]) ++
           subPairSpec w.provider_config w.id w.params.seed iter p q embed_id
             w.next_node_id,
         next_node_id := w.next_node_id + 2 },
       exs ++ [w.next_node_id + 1]) := by
  have hbound := idsBelow_bound hids
  unfold expandSubStep
  dsimp only [newNodeId, addNode, addEdge]
  simp only [populatePrefList_eq]
  rw [Prod.mk.injEq]
  refine ⟨?_, rfl⟩
  congr 1
  rw [List.map_append, List.map_append, List.map_append, List.map_append,
    List.map_map]
  have hold : List.map (edgeF (w.next_node_id) (w.next_node_id + 1) ∘
      edgeF embed_id (w.next_node_id)) w.nodes =
      List.map (extendChildren embed_id [w.next_node_id]) w.nodes := by
    refine List.map_congr_left (fun m hm => ?_)
    have hb := hbound m hm
    have h1 : m.id ≠ w.next_node_id := by omega
    have h2 : m.id ≠ w.next_node_id + 1 := by omega
    show edgeF (w.next_node_id) (w.next_node_id + 1)
      (edgeF embed_id (w.next_node_id) m) = _
    rw [edgeF_eq_extend _ _ _ h1,
      edgeF_of_ne _ _ _ (by rw [(extendChildren_fields _ _ _).1]; exact h1)
        (by rw [(extendChildren_fields _ _ _).1]; exact h2)]
  rw [hold, List.append_assoc]
  congr 1
  have hds : (w.next_node_id : Nat) ≠ embed_id := by omega
  have hds2 : (w.next_node_id + 1 : Nat) ≠ embed_id := by omega
  rw [List.map_singleton, List.map_singleton, List.map_singleton,
    List.map_singleton]
  rw [edgeF_dst embed_id (w.next_node_id) _ rfl hds]
  rw [edgeF_eq_extend (w.next_node_id) (w.next_node_id + 1) _
    (show (w.next_node_id : Nat) ≠ w.next_node_id + 1 by omega)]
  rw [extendChildren_self (w.next_node_id) [w.next_node_id + 1] _ rfl]
  rw [edgeF_of_ne embed_id (w.next_node_id) _
    (show (w.next_node_id + 1 : Nat) ≠ embed_id by omega)
    (show (w.next_node_id + 1 : Nat) ≠ w.next_node_id by omega)]
  rw [edgeF_dst (w.next_node_id) (w.next_node_id + 1) _ rfl
    (show (w.next_node_id + 1 : Nat) ≠ w.next_node_id by omega)]
  rfl

theorem expandSub_fold (iter p embed_id : Nat) (K0 : Nat) :
    ∀ (w : Workflow) (exs : List Nat), idsBelow w = true →
      embed_id < w.next_node_id →
      (List.range K0).foldl (expandSubStep iter p embed_id) (w, exs) =
        ({ w with
           nodes := w.nodes.map (extendChildren embed_id
               ((List.range K0).map (fun q => w.next_node_id + 2*q))) ++
             (List.range K0).flatMap (fun q =>
               subPairSpec w.provider_config w.id w.params.seed iter p q
                 embed_id (w.next_node_id + 2*q)),
           next_node_id := w.next_node_id + 2*K0 },
         exs ++ (List.range K0).map (fun q => w.next_node_id + 2*q + 1)) := by
  induction K0 with
  | zero =>
    intro w exs hids hembed
    simp only [List.range_zero, List.foldl_nil, List.map_nil, List.flatMap_nil,
      List.append_nil, Nat.mul_zero, Nat.add_zero]
    rw [Prod.mk.injEq]
    refine ⟨?_, rfl⟩
    rw [(List.map_congr_left (fun m _ => extendChildren_nil embed_id m)).trans
      (List.map_id w.nodes)]
  | succ K ih =>
    intro w exs hids hembed
    rw [List.range_succ, List.foldl_append, ih w exs hids hembed,
      List.foldl_cons, List.foldl_nil]
    have hids1 : idsBelow
        ({ w with
           nodes := w.nodes.map (extendChildren embed_id
               ((List.range K).map (fun q => w.next_node_id + 2*q))) ++
             (List.range K).flatMap (fun q =>
               subPairSpec w.provider_config w.id w.params.seed iter p q
                 embed_id (w.next_node_id + 2*q)),
           next_node_id := w.next_node_id + 2*K }) = true := by
      unfold idsBelow
      rw [List.all_append, Bool.and_eq_true]
      refine ⟨?_, ?_⟩
      · rw [List.all_eq_true]
        intro m hm
        obtain ⟨m0, hm0, rfl⟩ := List.mem_map.mp hm
        have hb := idsBelow_bound hids m0 hm0
        refine decide_eq_true ?_
        rw [(extendChildren_fields _ _ _).1]
        show m0.id < w.next_node_id + 2*K
        omega
      · rw [List.all_eq_true]
        intro m hm
        obtain ⟨q, hq, hmem⟩ := List.mem_flatMap.mp hm
        have hq2 : q < K := List.mem_range.mp hq
        refine decide_eq_true ?_
        rcases (by simpa [subPairSpec] using hmem :
            m = _ ∨ m = _) with rfl | rfl
        · show w.next_node_id + 2*q < w.next_node_id + 2*K
          omega
        · show w.next_node_id + 2*q + 1 < w.next_node_id + 2*K
          omega
    rw [expandSubStep_eq iter p embed_id _ _ K hids1 (by dsimp only; omega)]
    rw [Prod.mk.injEq]
    constructor
    · dsimp only
      congr 1
      · rw [List.map_append, List.map_map,
          (List.map_congr_left (fun m _ => extendChildren_snoc embed_id _ _ m) :
            List.map (extendChildren embed_id [w.next_node_id + 2*K] ∘
              extendChildren embed_id
                ((List.range K).map (fun q => w.next_node_id + 2*q))) w.nodes = _)]
        rw [List.append_assoc]
        congr 1
        · congr 2
          rw [List.map_append]
          rfl
        · rw [List.flatMap_append]
          congr 1
          · refine (List.map_congr_left (fun m hm => ?_)).trans (List.map_id _)
            obtain ⟨q, hq, hmem⟩ := List.mem_flatMap.mp hm
            refine extendChildren_of_ne _ _ _ ?_
            rcases (by simpa [subPairSpec] using hmem :
                m = _ ∨ m = _) with rfl | rfl
            · show w.next_node_id + 2*q ≠ embed_id
              omega
            · show w.next_node_id + 2*q + 1 ≠ embed_id
              omega
    · dsimp only
      rw [List.map_append, List.append_assoc]
      rfl

theorem expandPdfPrefix_eq (pid iter p : Nat) (w : Workflow)
    (hids : idsBelow w = true) (hpid : pid < w.next_node_id) :
    expandPdfPrefix pid iter p w =
      { w with
        nodes := w.nodes.map (extendChildren pid [w.next_node_id]) ++
          [ { id := w.next_node_id, workflow_id := w.id
              ntype := NodeType.LoadPDF, resource_class := ResourceClass.io
              idempotent := true, iter := iter, pdf_idx := (p : Int)
              deps := [pid], children := [w.next_node_id+1]
              preference_list := prefFor w.provider_config ResourceClass.io },
            { id := w.next_node_id+1, workflow_id := w.id
              ntype := NodeType.Chunk, resource_class := ResourceClass.cpu
              idempotent := true, iter := iter, pdf_idx := (p : Int)
              deps := [w.next_node_id], children := [w.next_node_id+2]
              preference_list := prefFor w.provider_config ResourceClass.cpu },
            { id := w.next_node_id+2, workflow_id := w.id
              ntype := NodeType.Embed, resource_class := ResourceClass.embed
              idempotent := true, iter := iter, pdf_idx := (p : Int)
              deps := [w.next_node_id+1], children := []
              preference_list := prefFor w.provider_config ResourceClass.embed } ],
        next_node_id := w.next_node_id + 3 } := by
  have hbound := idsBelow_bound hids
  unfold expandPdfPrefix
  dsimp only [newNodeId, addNode, addEdge]
  simp only [populatePrefList_eq,
    show w.next_node_id + 1 + 1 = w.next_node_id + 2 from rfl]
  congr 1
  rw [List.map_map, List.map_map, List.map_append, List.map_append,
    List.map_append]
  have hold : List.map ((edgeF (w.next_node_id+1) (w.next_node_id+2) ∘
      edgeF (w.next_node_id) (w.next_node_id+1)) ∘ edgeF pid (w.next_node_id))
      w.nodes = List.map (extendChildren pid [w.next_node_id]) w.nodes := by
    refine List.map_congr_left (fun m hm => ?_)
    have hb := hbound m hm
    show edgeF (w.next_node_id+1) (w.next_node_id+2)
      (edgeF (w.next_node_id) (w.next_node_id+1) (edgeF pid (w.next_node_id) m)) = _
    rw [edgeF_eq_extend _ _ _ (show m.id ≠ w.next_node_id by omega)]
    rw [edgeF_of_ne (w.next_node_id) (w.next_node_id+1)
      (extendChildren pid [w.next_node_id] m)
      (by rw [(extendChildren_fields _ _ _).1]; omega)
      (by rw [(extendChildren_fields _ _ _).1]; omega)]
    rw [edgeF_of_ne (w.next_node_id+1) (w.next_node_id+2)
      (extendChildren pid [w.next_node_id] m)
      (by rw [(extendChildren_fields _ _ _).1]; omega)
      (by rw [(extendChildren_fields _ _ _).1]; omega)]
  rw [hold, List.append_assoc, List.append_assoc]
  congr 1
  rw [List.map_singleton, List.map_singleton, List.map_singleton]
  dsimp only [Function.comp]
  rw [edgeF_dst pid (w.next_node_id) _ rfl
    (show (w.next_node_id : Nat) ≠ pid by omega)]
  rw [edgeF_eq_extend (w.next_node_id) (w.next_node_id+1) _
    (show (w.next_node_id : Nat) ≠ w.next_node_id+1 by omega)]
  rw [extendChildren_self (w.next_node_id) [w.next_node_id+1] _ rfl]
  rw [edgeF_of_ne (w.next_node_id+1) (w.next_node_id+2) _
    (show (w.next_node_id : Nat) ≠ w.next_node_id+1 by omega)
    (show (w.next_node_id : Nat) ≠ w.next_node_id+2 by omega)]
  rw [edgeF_of_ne pid (w.next_node_id) _
    (show (w.next_node_id+1 : Nat) ≠ pid by omega)
    (show (w.next_node_id+1 : Nat) ≠ w.next_node_id by omega)]
  rw [edgeF_dst (w.next_node_id) (w.next_node_id+1) _ rfl
    (show (w.next_node_id+1 : Nat) ≠ w.next_node_id by omega)]
  rw [edgeF_eq_extend (w.next_node_id+1) (w.next_node_id+2) _
    (show (w.next_node_id+1 : Nat) ≠ w.next_node_id+2 by omega)]
  rw [extendChildren_self (w.next_node_id+1) [w.next_node_id+2] _ rfl]
  rw [edgeF_of_ne pid (w.next_node_id) _
    (show (w.next_node_id+2 : Nat) ≠ pid by omega)
    (show (w.next_node_id+2 : Nat) ≠ w.next_node_id by omega)]
  rw [edgeF_of_ne (w.next_node_id) (w.next_node_id+1) _
    (show (w.next_node_id+2 : Nat) ≠ w.next_node_id by omega)
    (show (w.next_node_id+2 : Nat) ≠ w.next_node_id+1 by omega)]
  rw [edgeF_dst (w.next_node_id+1) (w.next_node_id+2) _ rfl
    (show (w.next_node_id+2 : Nat) ≠ w.next_node_id+1 by omega)]
  rfl

theorem expandPdfStep_eq (pid iter p K : Nat) (w : Workflow) (exs : List Nat)
    (hids : idsBelow w = true) (hpid : pid < w.next_node_id)
    (hK : w.params.subqueries_per_iter = K) :
    expandPdfStep pid iter (w, exs) p =
      ({ w with
         nodes := w.nodes.map (extendChildren pid [w.next_node_id]) ++
           pdfBlock w.provider_config w.id w.params.seed iter K pid
             w.next_node_id p,
         next_node_id := w.next_node_id + 3 + 2*K },
       exs ++ (List.range K).map (fun q => w.next_node_id + 3 + 2*q + 1)) := by
  have hbound := idsBelow_bound hids
  unfold expandPdfStep
  dsimp only
  rw [expandPdfPrefix_eq pid iter p w hids hpid]
  dsimp only
  rw [hK]
  by_cases hK0 : K = 0
  · subst hK0
    rw [if_pos rfl]
    simp only [pdfBlock, List.range_zero, List.map_nil, List.flatMap_nil,
      List.append_nil, Nat.mul_zero, Nat.add_zero]
  · rw [if_neg hK0]
    have hids2 : idsBelow
        { w with
          nodes := w.nodes.map (extendChildren pid [w.next_node_id]) ++
            [ { id := w.next_node_id, workflow_id := w.id
                ntype := NodeType.LoadPDF, resource_class := ResourceClass.io
                idempotent := true, iter := iter, pdf_idx := (p : Int)
                deps := [pid], children := [w.next_node_id+1]
                preference_list := prefFor w.provider_config ResourceClass.io },
              { id := w.next_node_id+1, workflow_id := w.id
                ntype := NodeType.Chunk, resource_class := ResourceClass.cpu
                idempotent := true, iter := iter, pdf_idx := (p : Int)
                deps := [w.next_node_id], children := [w.next_node_id+2]
                preference_list := prefFor w.provider_config ResourceClass.cpu },
              { id := w.next_node_id+2, workflow_id := w.id
                ntype := NodeType.Embed, resource_class := ResourceClass.embed
                idempotent := true, iter := iter, pdf_idx := (p : Int)
                deps := [w.next_node_id+1], children := []
                preference_list := prefFor w.provider_config ResourceClass.embed } ],
          next_node_id := w.next_node_id + 3 } = true := by
      unfold idsBelow
      rw [List.all_append, Bool.and_eq_true]
      refine ⟨?_, ?_⟩
      · rw [List.all_eq_true]
        intro m hm
        obtain ⟨m0, hm0, rfl⟩ := List.mem_map.mp hm
        have hb := hbound m0 hm0
        refine decide_eq_true ?_
        rw [(extendChildren_fields _ _ _).1]
        show m0.id < w.next_node_id + 3
        omega
      · simp only [List.all_cons, List.all_nil, Bool.and_eq_true]
        refine ⟨decide_eq_true ?_, decide_eq_true ?_, decide_eq_true ?_, trivial⟩
        · show w.next_node_id < w.next_node_id + 3; omega
        · show w.next_node_id + 1 < w.next_node_id + 3; omega
        · show w.next_node_id + 2 < w.next_node_id + 3; omega
    rw [expandSub_fold iter p (w.next_node_id + 2) K _ exs hids2
      (by dsimp only; omega)]
    dsimp only
    rw [Prod.mk.injEq]
    refine ⟨?_, rfl⟩
    congr 1
    rw [List.map_append, List.map_map]
    have hmap1 : List.map (extendChildren (w.next_node_id + 2)
        ((List.range K).map (fun q => w.next_node_id + 3 + 2*q)) ∘
          extendChildren pid [w.next_node_id]) w.nodes =
        List.map (extendChildren pid [w.next_node_id]) w.nodes := by
      refine List.map_congr_left (fun m hm => ?_)
      have hb := hbound m hm
      show extendChildren (w.next_node_id + 2) _
        (extendChildren pid [w.next_node_id] m) = _
      rw [extendChildren_of_ne _ _ _
        (by rw [(extendChildren_fields _ _ _).1]; omega)]
    rw [hmap1]
    simp only [List.map_cons, List.map_nil]
    rw [extendChildren_of_ne _ _ _
      (show (w.next_node_id : Nat) ≠ w.next_node_id + 2 by omega)]
    rw [extendChildren_of_ne _ _ _
      (show (w.next_node_id + 1 : Nat) ≠ w.next_node_id + 2 by omega)]
    rw [extendChildren_self (w.next_node_id + 2)
      ((List.range K).map (fun q => w.next_node_id + 3 + 2*q))
      { id := w.next_node_id+2, workflow_id := w.id
        ntype := NodeType.Embed, resource_class := ResourceClass.embed
        idempotent := true, iter := iter, pdf_idx := (p : Int)
        deps := [w.next_node_id+1], children := []
        preference_list := prefFor w.provider_config ResourceClass.embed } rfl]
    rw [List.append_assoc]
    rfl

theorem pdfBlock_id_bounds (cfg : List TierConfig)
    (wfid seed iter K pid b p : Nat) :
    ∀ m ∈ pdfBlock cfg wfid seed iter K pid b p,
      b ≤ m.id ∧ m.id < b + 3 + 2*K := by
  intro m hm
  simp only [pdfBlock, List.mem_cons, List.mem_flatMap, List.mem_range] at hm
  rcases hm with rfl | rfl | rfl | ⟨q, hq, hmem⟩
  · dsimp only; omega
  · dsimp only; omega
  · dsimp only; omega
  · rcases (by simpa [subPairSpec] using hmem : m = _ ∨ m = _) with rfl | rfl
    · dsimp only; omega
    · dsimp only; omega

theorem expandPdf_fold (pid iter K : Nat) (P : Nat) :
    ∀ (w : Workflow) (exs : List Nat), idsBelow w = true →
      pid < w.next_node_id → w.params.subqueries_per_iter = K →
      (List.range P).foldl (expandPdfStep pid iter) (w, exs) =
        ({ w with
           nodes := w.nodes.map (extendChildren pid
               (loadIdsOf w.next_node_id P K)) ++
             (List.range P).flatMap (fun p =>
               pdfBlock w.provider_config w.id w.params.seed iter K pid
                 (w.next_node_id + p*(3+2*K)) p),
           next_node_id := w.next_node_id + P*(3+2*K) },
         exs ++ exIdsOf w.next_node_id P K) := by
  induction P with
  | zero =>
    intro w exs hids hpid hK
    simp only [List.range_zero, List.foldl_nil, loadIdsOf, exIdsOf,
      List.map_nil, List.flatMap_nil, List.append_nil, Nat.zero_mul,
      Nat.add_zero]
    rw [Prod.mk.injEq]
    refine ⟨?_, rfl⟩
    rw [(List.map_congr_left (fun m _ => extendChildren_nil pid m)).trans
      (List.map_id w.nodes)]
  | succ P ih =>
    intro w exs hids hpid hK
    rw [List.range_succ, List.foldl_append, ih w exs hids hpid hK,
      List.foldl_cons, List.foldl_nil]
    have hmul : (P+1)*(3+2*K) = P*(3+2*K) + 3 + 2*K := by ring
    have hidsP : idsBelow
        ({ w with
           nodes := w.nodes.map (extendChildren pid
               (loadIdsOf w.next_node_id P K)) ++
             (List.range P).flatMap (fun p =>
               pdfBlock w.provider_config w.id w.params.seed iter K pid
                 (w.next_node_id + p*(3+2*K)) p),
           next_node_id := w.next_node_id + P*(3+2*K) }) = true := by
      unfold idsBelow
      rw [List.all_append, Bool.and_eq_true]
      refine ⟨?_, ?_⟩
      · rw [List.all_eq_true]
        intro m hm
        obtain ⟨m0, hm0, rfl⟩ := List.mem_map.mp hm
        have hb := idsBelow_bound hids m0 hm0
        refine decide_eq_true ?_
        rw [(extendChildren_fields _ _ _).1]
        show m0.id < w.next_node_id + P*(3+2*K)
        exact lt_of_lt_of_le hb (Nat.le_add_right _ _)
      · rw [List.all_eq_true]
        intro m hm
        obtain ⟨p, hp, hmem⟩ := List.mem_flatMap.mp hm
        have hp2 : p < P := List.mem_range.mp hp
        have hbd := (pdfBlock_id_bounds _ _ _ _ _ _ _ _ m hmem).2
        refine decide_eq_true ?_
        show m.id < w.next_node_id + P*(3+2*K)
        have hle : p*(3+2*K) + 3 + 2*K ≤ P*(3+2*K) := by
          calc p*(3+2*K) + 3 + 2*K = (p+1)*(3+2*K) := by ring
            _ ≤ P*(3+2*K) := Nat.mul_le_mul_right _ hp2
        calc m.id < w.next_node_id + p*(3+2*K) + 3 + 2*K := hbd
          _ = w.next_node_id + (p*(3+2*K) + 3 + 2*K) := by
              rw [Nat.add_assoc, Nat.add_assoc, Nat.add_assoc]
          _ ≤ w.next_node_id + P*(3+2*K) := Nat.add_le_add_left hle _
    have hpidP : pid < w.next_node_id + P*(3+2*K) :=
      lt_of_lt_of_le hpid (Nat.le_add_right _ _)
    rw [expandPdfStep_eq pid iter P K _ _ hidsP hpidP hK]
    dsimp only
    rw [Prod.mk.injEq]
    constructor
    · congr 1
      · rw [List.map_append, List.map_map,
          (List.map_congr_left (fun m _ =>
            extendChildren_snoc pid (w.next_node_id + P*(3+2*K))
              (loadIdsOf w.next_node_id P K) m) :
            List.map (extendChildren pid [w.next_node_id + P*(3+2*K)] ∘
              extendChildren pid (loadIdsOf w.next_node_id P K)) w.nodes = _)]
        have hmap2 : List.map (extendChildren pid [w.next_node_id + P*(3+2*K)])
            ((List.range P).flatMap (fun p =>
              pdfBlock w.provider_config w.id w.params.seed iter K pid
                (w.next_node_id + p*(3+2*K)) p)) =
            (List.range P).flatMap (fun p =>
              pdfBlock w.provider_config w.id w.params.seed iter K pid
                (w.next_node_id + p*(3+2*K)) p) := by
          refine (List.map_congr_left (fun m hm => ?_)).trans (List.map_id _)
          obtain ⟨p, hp, hmem⟩ := List.mem_flatMap.mp hm
          have hge := (pdfBlock_id_bounds _ _ _ _ _ _ _ _ m hmem).1
          refine extendChildren_of_ne _ _ _ ?_
          exact (lt_of_lt_of_le hpid
            (le_trans (Nat.le_add_right _ _) hge)).ne'
        rw [hmap2, List.append_assoc]
        have hload : loadIdsOf w.next_node_id (P+1) K =
            loadIdsOf w.next_node_id P K ++ [w.next_node_id + P*(3+2*K)] := by
          simp only [loadIdsOf, List.range_succ, List.map_append,
            List.map_cons, List.map_nil]
        rw [hload]
        congr 1
        simp only [List.range_succ, List.flatMap_append, List.flatMap_cons,
          List.flatMap_nil, List.append_nil]
      · rw [hmul]
        rw [Nat.add_assoc, Nat.add_assoc, Nat.add_assoc]
    · rw [List.append_assoc]
      congr 1
      simp only [exIdsOf, List.range_succ, List.flatMap_append,
        List.flatMap_cons, List.flatMap_nil, List.append_nil]

theorem exMapF_nil (agg : Nat) (m : Node) : exMapF [] agg m = m := by
  obtain ⟨mid, mwf, mnt, mrc, mide, mst, mit, mpdf, msub, mdeps, mch, mpref,
    mout, mev⟩ := m
  unfold exMapF
  dsimp only
  by_cases h : mid = agg
  · rw [if_pos h]
    rw [List.append_nil]
  · rw [if_neg h, if_neg (List.not_mem_nil mid)]

theorem exMapF_cons (e : Nat) (rest : List Nat) (agg : Nat) (m : Node)
    (hea : e ≠ agg) (hner : e ∉ rest) :
    exMapF rest agg (edgeF e agg m) = exMapF (e :: rest) agg m := by
  obtain ⟨mid, mwf, mnt, mrc, mide, mst, mit, mpdf, msub, mdeps, mch, mpref,
    mout, mev⟩ := m
  unfold edgeF exMapF
  dsimp only
  by_cases h1 : mid = e
  · rw [if_pos h1]
    dsimp only
    have hna : mid ≠ agg := fun h => hea (h1 ▸ h)
    rw [if_neg hna]
    dsimp only
    rw [if_neg hna, if_neg hna, if_neg (h1 ▸ hner),
      if_pos (h1 ▸ List.mem_cons_self e rest)]
  · rw [if_neg h1]
    by_cases h2 : mid = agg
    · rw [if_pos h2]
      dsimp only
      rw [if_pos h2, if_pos h2]
      rw [List.append_assoc]
      rfl
    · rw [if_neg h2]
      dsimp only
      rw [if_neg h2, if_neg h2]
      by_cases h3 : mid ∈ rest
      · rw [if_pos h3, if_pos (List.mem_cons_of_mem e h3)]
      · rw [if_neg h3, if_neg (fun h => (List.mem_cons.mp h).elim h1 h3)]

theorem foldl_addEdge_eq (agg : Nat) :
    ∀ (es : List Nat) (w : Workflow), es.Nodup → agg ∉ es →
      es.foldl (fun w2 ex_id => addEdge w2 ex_id agg) w =
        { w with nodes := w.nodes.map (exMapF es agg) } := by
  intro es
  induction es with
  | nil =>
    intro w _ _
    simp only [List.foldl_nil]
    rw [(List.map_congr_left (fun m _ => exMapF_nil agg m)).trans
      (List.map_id w.nodes)]
  | cons e rest ih =>
    intro w hnd hagg
    have hner : e ∉ rest := (List.nodup_cons.mp hnd).1
    have hnd' : rest.Nodup := (List.nodup_cons.mp hnd).2
    have hagg' : agg ∉ rest := fun h => hagg (List.mem_cons_of_mem e h)
    have hea : e ≠ agg := fun h => hagg (h ▸ List.mem_cons_self e rest)
    rw [List.foldl_cons, ih (addEdge w e agg) hnd' hagg']
    dsimp only [addEdge]
    congr 1
    rw [List.map_map]
    refine List.map_congr_left (fun m _ => ?_)
    show exMapF rest agg (edgeF e agg m) = _
    exact exMapF_cons e rest agg m hea hner

theorem exIdsOf_mem (n0 P K : Nat) :
    ∀ x ∈ exIdsOf n0 P K, ∃ p q, p < P ∧ q < K ∧
      x = n0 + p*(3+2*K) + 3 + 2*q + 1 := by
  intro x hx
  obtain ⟨p, hp, hq⟩ := List.mem_flatMap.mp hx
  obtain ⟨q, hq2, rfl⟩ := List.mem_map.mp hq
  exact ⟨p, q, List.mem_range.mp hp, List.mem_range.mp hq2, rfl⟩

theorem exIdsOf_bounds (n0 P K : Nat) :
    ∀ x ∈ exIdsOf n0 P K, n0 + 3 < x ∧ x < n0 + P*(3+2*K) := by
  intro x hx
  obtain ⟨p, q, hp, hq, rfl⟩ := exIdsOf_mem n0 P K x hx
  have h1 : (p+1)*(3+2*K) = p*(3+2*K)+3+2*K := by ring
  have h2 : (p+1)*(3+2*K) ≤ P*(3+2*K) := Nat.mul_le_mul_right _ hp
  omega

theorem exIdsOf_nodup (n0 K : Nat) : ∀ P, (exIdsOf n0 P K).Nodup := by
  intro P
  induction P with
  | zero => simp [exIdsOf]
  | succ P ih =>
    have hsplit : exIdsOf n0 (P+1) K = exIdsOf n0 P K ++
        (List.range K).map (fun q => n0 + P*(3+2*K) + 3 + 2*q + 1) := by
      simp only [exIdsOf, List.range_succ, List.flatMap_append,
        List.flatMap_cons, List.flatMap_nil, List.append_nil]
    rw [hsplit]
    refine List.Nodup.append ih ?_ ?_
    · refine List.Nodup.map ?_ (List.nodup_range K)
      intro a b h
      have h2 : n0 + P*(3+2*K) + 3 + 2*a + 1 =
        n0 + P*(3+2*K) + 3 + 2*b + 1 := h
      omega
    · intro x hx1 hx2
      have hb := (exIdsOf_bounds n0 P K x hx1).2
      obtain ⟨q, hq, rfl⟩ := List.mem_map.mp hx2
      omega

theorem exIdsOf_isEmpty (n0 P K : Nat) :
    (exIdsOf n0 P K).isEmpty = true ↔ P = 0 ∨ K = 0 := by
  constructor
  · intro h
    by_contra hc
    push_neg at hc
    obtain ⟨hP, hK⟩ := hc
    have : n0 + 0*(3+2*K) + 3 + 2*0 + 1 ∈ exIdsOf n0 P K := by
      refine List.mem_flatMap.mpr ⟨0, List.mem_range.mpr (by omega), ?_⟩
      exact List.mem_map.mpr ⟨0, List.mem_range.mpr (by omega), rfl⟩
    rw [List.isEmpty_iff] at h
    rw [h] at this
    exact absurd this (List.not_mem_nil _)
  · intro h
    rcases h with rfl | rfl
    · simp [exIdsOf]
    · simp [exIdsOf]

theorem expandIterationFromPlan_eq (w : Workflow) (pid : Nat) (plan : Node)
    (hids : idsBelow w = true)
    (hfind : findNode w pid = some plan)
    (hmax : plan.iter < w.params.max_iters)
    (hnoagg : w.nodes.any (fun n =>
      n.ntype = NodeType.Aggregate ∧ n.iter = plan.iter) = false) :
    expandIterationFromPlan w pid = expandedAt w pid plan.iter := by
  have hpid : pid < w.next_node_id := by
    have hmem := mem_of_findNode hfind
    have hid := findNode_id hfind
    have hb := idsBelow_bound hids plan hmem
    omega
  unfold expandIterationFromPlan expandedAt
  rw [hfind]
  dsimp only
  rw [if_neg (by omega : ¬ w.params.max_iters ≤ plan.iter)]
  rw [if_neg (fun hc => Bool.false_ne_true (hnoagg ▸ hc))]
  rw [expandPdf_fold pid plan.iter w.params.subqueries_per_iter
    w.params.pdfs w [] hids hpid rfl]
  dsimp only [newNodeId, addNode]
  simp only [populatePrefList_eq, List.nil_append]
  dsimp only [resourceForType, aggSpec, decSpec]
  have h2 : ∀ x : Nat, x + 1 + 1 = x + 2 := fun x => rfl
  simp only [h2]
  rw [List.append_assoc]
  by_cases hE : (exIdsOf w.next_node_id w.params.pdfs
      w.params.subqueries_per_iter).isEmpty = true
  · rw [if_pos hE, if_pos hE]
    rfl
  · rw [if_neg hE, if_neg hE]
    have hAnm : w.next_node_id +
        w.params.pdfs*(3+2*w.params.subqueries_per_iter) ∉
        exIdsOf w.next_node_id w.params.pdfs
          w.params.subqueries_per_iter := by
      intro hc
      have := (exIdsOf_bounds _ _ _ _ hc).2
      omega
    rw [foldl_addEdge_eq _ _ _
      (exIdsOf_nodup w.next_node_id w.params.subqueries_per_iter
        w.params.pdfs) hAnm]
    rfl

theorem countP_flatMap {α β : Type} (p : β → Bool) (l : List α)
    (f : α → List β) :
    (l.flatMap f).countP p = (l.map (fun a => (f a).countP p)).sum := by
  induction l with
  | nil => rfl
  | cons a l ih =>
    simp only [List.flatMap_cons, List.countP_append, List.map_cons,
      List.sum_cons, ih]

theorem sum_map_const {α : Type} (c : Nat) (l : List α) :
    (l.map (fun _ => c)).sum = l.length * c := by
  induction l with
  | nil => simp
  | cons a l ih =>
    simp only [List.map_cons, List.sum_cons, List.length_cons, ih]
    ring

theorem typeIterP_state (t : NodeType) (k : Nat) (m : Node) (st : NodeState) :
    typeIterP t k { m with state := st } = typeIterP t k m := rfl

theorem countP_typeIter_map (t : NodeType) (k : Nat) (f : Node → Node)
    (hf : ∀ m, (f m).ntype = m.ntype) (hf2 : ∀ m, (f m).iter = m.iter)
    (l : List Node) :
    (l.map f).countP (typeIterP t k) = l.countP (typeIterP t k) := by
  rw [List.countP_map]
  refine List.countP_congr (fun m _ => ?_)
  show typeIterP t k (f m) = true ↔ typeIterP t k m = true
  unfold typeIterP
  rw [hf m, hf2 m]

theorem typeCount_init (w : Workflow) (nid : Nat) (t : NodeType) (k : Nat) :
    typeCount (initializeStateFromDeps w nid) t k = typeCount w t k := by
  unfold typeCount initializeStateFromDeps
  cases hf : findNode w nid with
  | none => rfl
  | some n =>
    dsimp only
    split
    · rfl
    · dsimp only [updateNode]
      rw [List.countP_map]
      refine List.countP_congr (fun m _ => ?_)
      show typeIterP t k (if m.id = nid then _ else m) = true ↔
        typeIterP t k m = true
      by_cases h : m.id = nid
      · rw [if_pos h, typeIterP_state t k m _]
      · rw [if_neg h]

theorem pdfBlock_typeCount (cfg : List TierConfig)
    (wfid seed k K pid b p : Nat) (t : NodeType) (k' : Nat) :
    (pdfBlock cfg wfid seed k K pid b p).countP (typeIterP t k') =
      if k' = k then blockCountOf t K else 0 := by
  by_cases hk : k' = k
  · subst hk
    rw [if_pos rfl]
    cases t <;>
      simp [pdfBlock, subPairSpec, typeIterP, countP_flatMap,
        List.countP_cons, List.countP_nil, blockCountOf, sum_map_const]
  · rw [if_neg hk]
    simp [pdfBlock, subPairSpec, typeIterP, countP_flatMap,
      List.countP_cons, List.countP_nil, Ne.symm hk, sum_map_const]

theorem expandedAt_countP (w : Workflow) (pid k : Nat) (t : NodeType)
    (k' : Nat) :
    typeCount (expandedAt w pid k) t k' =
      typeCount w t k' +
      ((List.range w.params.pdfs).map (fun p =>
        (pdfBlock w.provider_config w.id w.params.seed k
          w.params.subqueries_per_iter pid
          (w.next_node_id + p*(3+2*w.params.subqueries_per_iter)) p).countP
            (typeIterP t k'))).sum +
      ([aggSpec w.provider_config w.id k
          (w.next_node_id + w.params.pdfs*(3+2*w.params.subqueries_per_iter)),
        decSpec w.provider_config w.id k
          (w.next_node_id + w.params.pdfs*(3+2*w.params.subqueries_per_iter)
            + 1)].countP (typeIterP t k')) := by
  unfold expandedAt
  dsimp only
  rw [typeCount_init, typeCount_init]
  unfold typeCount
  dsimp only
  rw [countP_typeIter_map t k' _ (fun m => (edgeF_fields _ _ m).2.1)
    (fun m => (edgeF_fields _ _ m).2.2.2.1)]
  by_cases hE : (exIdsOf w.next_node_id w.params.pdfs
      w.params.subqueries_per_iter).isEmpty = true
  · rw [if_pos hE]
    rw [countP_typeIter_map t k' _ (fun m => (edgeF_fields _ _ m).2.1)
      (fun m => (edgeF_fields _ _ m).2.2.2.1)]
    rw [List.countP_append, List.countP_append]
    rw [countP_typeIter_map t k' _
      (fun m => (extendChildren_fields _ _ m).2.1)
      (fun m => (extendChildren_fields _ _ m).2.2.2.1)]
    rw [countP_flatMap]
  · rw [if_neg hE]
    rw [countP_typeIter_map t k' _ (fun m => (exMapF_fields _ _ m).2.1)
      (fun m => (exMapF_fields _ _ m).2.2.2.1)]
    rw [List.countP_append, List.countP_append]
    rw [countP_typeIter_map t k' _
      (fun m => (extendChildren_fields _ _ m).2.1)
      (fun m => (extendChildren_fields _ _ m).2.2.2.1)]
    rw [countP_flatMap]

theorem expandedAt_typeCount (w : Workflow) (pid k : Nat) (t : NodeType)
    (k' : Nat) :
    typeCount (expandedAt w pid k) t k' =
      typeCount w t k' +
      (if k' = k then
        addedCountOf t w.params.pdfs w.params.subqueries_per_iter else 0) := by
  rw [expandedAt_countP]
  by_cases hk : k' = k
  · subst hk
    rw [if_pos rfl]
    simp only [pdfBlock_typeCount, if_pos rfl, sum_map_const,
      List.length_range]
    cases t <;>
      simp [aggSpec, decSpec, typeIterP, List.countP_cons, List.countP_nil,
        addedCountOf, blockCountOf, Nat.add_assoc]
  · rw [if_neg hk]
    simp only [pdfBlock_typeCount, if_neg hk, sum_map_const,
      List.length_range, Nat.mul_zero, Nat.add_zero]
    simp [aggSpec, decSpec, typeIterP, List.countP_cons, List.countP_nil,
      Ne.symm hk]

theorem exMapF_self (es : List Nat) (agg : Nat) (m : Node) (h : m.id = agg) :
    exMapF es agg m = { m with deps := m.deps ++ es } := by
  unfold exMapF
  rw [if_pos h]

theorem exMapF_mem (es : List Nat) (agg : Nat) (m : Node)
    (h1 : m.id ≠ agg) (h2 : m.id ∈ es) :
    exMapF es agg m = { m with children := m.children ++ [agg] } := by
  unfold exMapF
  rw [if_neg h1, if_pos h2]

theorem mem_init_of_ne (w : Workflow) (nid : Nat) (m : Node)
    (hm : m ∈ w.nodes) (hne : m.id ≠ nid) :
    m ∈ (initializeStateFromDeps w nid).nodes := by
  unfold initializeStateFromDeps
  cases hf : findNode w nid with
  | none => exact hm
  | some n =>
    dsimp only
    split
    · exact hm
    · dsimp only [updateNode]
      refine List.mem_map.mpr ⟨m, hm, ?_⟩
      rw [if_neg hne]

theorem mem_init_exists_state (w : Workflow) (nid : Nat) (m : Node)
    (hm : m ∈ w.nodes) :
    ∃ st, { m with state := st } ∈ (initializeStateFromDeps w nid).nodes := by
  unfold initializeStateFromDeps
  cases hf : findNode w nid with
  | none => exact ⟨m.state, hm⟩
  | some n =>
    dsimp only
    split
    · exact ⟨m.state, hm⟩
    · dsimp only [updateNode]
      by_cases h : m.id = nid
      · refine ⟨if depsSatisfied w n then NodeState.Runnable
          else NodeState.WaitingDeps, List.mem_map.mpr ⟨m, hm, ?_⟩⟩
        rw [if_pos h]
      · exact ⟨m.state, List.mem_map.mpr ⟨m, hm, by rw [if_neg h]⟩⟩

theorem exIdsOf_mem_intro (n0 P K p q : Nat) (hp : p < P) (hq : q < K) :
    n0 + p*(3+2*K) + 3 + 2*q + 1 ∈ exIdsOf n0 P K :=
  List.mem_flatMap.mpr ⟨p, List.mem_range.mpr hp,
    List.mem_map.mpr ⟨q, List.mem_range.mpr hq, rfl⟩⟩

theorem exIdsOf_not_mem_off (n0 P K p c : Nat) (hc : c ≤ 2) :
    n0 + p*(3+2*K) + c ∉ exIdsOf n0 P K := by
  intro hmem
  obtain ⟨p', q', hp', hq', heq⟩ := exIdsOf_mem n0 P K _ hmem
  have hr1 : (p+1)*(3+2*K) = p*(3+2*K)+3+2*K := by ring
  have hr2 : (p'+1)*(3+2*K) = p'*(3+2*K)+3+2*K := by ring
  rcases Nat.lt_trichotomy p p' with h | h | h
  · have hm2 : (p+1)*(3+2*K) ≤ p'*(3+2*K) := Nat.mul_le_mul_right _ h
    omega
  · subst h
    omega
  · have hm2 : (p'+1)*(3+2*K) ≤ p*(3+2*K) := Nat.mul_le_mul_right _ h
    omega

theorem exIdsOf_not_mem_ss (n0 P K p q : Nat) (hq : q < K) :
    n0 + p*(3+2*K) + 3 + 2*q ∉ exIdsOf n0 P K := by
  intro hmem
  obtain ⟨p', q', hp', hq', heq⟩ := exIdsOf_mem n0 P K _ hmem
  have hr1 : (p+1)*(3+2*K) = p*(3+2*K)+3+2*K := by ring
  have hr2 : (p'+1)*(3+2*K) = p'*(3+2*K)+3+2*K := by ring
  rcases Nat.lt_trichotomy p p' with h | h | h
  · have hm2 : (p+1)*(3+2*K) ≤ p'*(3+2*K) := Nat.mul_le_mul_right _ h
    omega
  · subst h
    omega
  · have hm2 : (p'+1)*(3+2*K) ≤ p*(3+2*K) := Nat.mul_le_mul_right _ h
    omega

theorem block_mem_bounds (w : Workflow) (pid k : Nat) (N : Node)
    (hmem : N ∈ (List.range w.params.pdfs).flatMap (fun p =>
      pdfBlock w.provider_config w.id w.params.seed k
        w.params.subqueries_per_iter pid
        (w.next_node_id + p*(3+2*w.params.subqueries_per_iter)) p)) :
    w.next_node_id ≤ N.id ∧ N.id < w.next_node_id +
      w.params.pdfs*(3+2*w.params.subqueries_per_iter) := by
  obtain ⟨p, hp, hm⟩ := List.mem_flatMap.mp hmem
  have hb := pdfBlock_id_bounds _ _ _ _ _ _ _ _ N hm
  have hp2 := List.mem_range.mp hp
  have hr1 : (p+1)*(3+2*w.params.subqueries_per_iter) =
    p*(3+2*w.params.subqueries_per_iter)+3+2*w.params.subqueries_per_iter :=
    by ring
  have hm2 : (p+1)*(3+2*w.params.subqueries_per_iter) ≤
    w.params.pdfs*(3+2*w.params.subqueries_per_iter) :=
    Nat.mul_le_mul_right _ hp2
  omega

theorem mem_expandedAt_block (w : Workflow) (pid k : Nat) (N : Node)
    (hpid : pid < w.next_node_id)
    (hmem : N ∈ (List.range w.params.pdfs).flatMap (fun p =>
      pdfBlock w.provider_config w.id w.params.seed k
        w.params.subqueries_per_iter pid
        (w.next_node_id + p*(3+2*w.params.subqueries_per_iter)) p))
    (hnes : N.id ∉ exIdsOf w.next_node_id w.params.pdfs
      w.params.subqueries_per_iter) :
    N ∈ (expandedAt w pid k).nodes := by
  have hb := block_mem_bounds w pid k N hmem
  unfold expandedAt
  dsimp only
  refine mem_init_of_ne _ _ _ (mem_init_of_ne _ _ _ ?_
    (show N.id ≠ _ by omega)) (show N.id ≠ _ by omega)
  have hbase : N ∈ w.nodes.map (extendChildren pid
      (loadIdsOf w.next_node_id w.params.pdfs w.params.subqueries_per_iter)) ++
      (List.range w.params.pdfs).flatMap (fun p =>
        pdfBlock w.provider_config w.id w.params.seed k
          w.params.subqueries_per_iter pid
          (w.next_node_id + p*(3+2*w.params.subqueries_per_iter)) p) ++
      [aggSpec w.provider_config w.id k (w.next_node_id +
        w.params.pdfs*(3+2*w.params.subqueries_per_iter)),
       decSpec w.provider_config w.id k (w.next_node_id +
        w.params.pdfs*(3+2*w.params.subqueries_per_iter) + 1)] :=
    List.mem_append_left _ (List.mem_append_right _ hmem)
  by_cases hE : (exIdsOf w.next_node_id w.params.pdfs
      w.params.subqueries_per_iter).isEmpty = true
  · rw [if_pos hE]
    refine List.mem_map.mpr ⟨edgeF pid _ N,
      List.mem_map.mpr ⟨N, hbase, rfl⟩, ?_⟩
    rw [edgeF_of_ne pid _ N (by omega) (by omega)]
    exact edgeF_of_ne _ _ _ (by omega) (by omega)
  · rw [if_neg hE]
    refine List.mem_map.mpr ⟨exMapF _ _ N,
      List.mem_map.mpr ⟨N, hbase, rfl⟩, ?_⟩
    rw [exMapF_of_ne _ _ _ (by omega) hnes]
    exact edgeF_of_ne _ _ _ (by omega) (by omega)

theorem mem_expandedAt_ext (w : Workflow) (pid k : Nat) (N : Node)
    (hmem : N ∈ (List.range w.params.pdfs).flatMap (fun p =>
      pdfBlock w.provider_config w.id w.params.seed k
        w.params.subqueries_per_iter pid
        (w.next_node_id + p*(3+2*w.params.subqueries_per_iter)) p))
    (hes : N.id ∈ exIdsOf w.next_node_id w.params.pdfs
      w.params.subqueries_per_iter) :
    { N with children := N.children ++ [w.next_node_id +
        w.params.pdfs*(3+2*w.params.subqueries_per_iter)] } ∈
      (expandedAt w pid k).nodes := by
  have hb := block_mem_bounds w pid k N hmem
  have hE : ¬ (exIdsOf w.next_node_id w.params.pdfs
      w.params.subqueries_per_iter).isEmpty = true := by
    intro h
    rw [List.isEmpty_iff] at h
    rw [h] at hes
    exact List.not_mem_nil _ hes
  unfold expandedAt
  dsimp only
  refine mem_init_of_ne _ _ _ (mem_init_of_ne _ _ _ ?_
    (show N.id ≠ _ by omega)) (show N.id ≠ _ by omega)
  rw [if_neg hE]
  have hbase : N ∈ w.nodes.map (extendChildren pid
      (loadIdsOf w.next_node_id w.params.pdfs w.params.subqueries_per_iter)) ++
      (List.range w.params.pdfs).flatMap (fun p =>
        pdfBlock w.provider_config w.id w.params.seed k
          w.params.subqueries_per_iter pid
          (w.next_node_id + p*(3+2*w.params.subqueries_per_iter)) p) ++
      [aggSpec w.provider_config w.id k (w.next_node_id +
        w.params.pdfs*(3+2*w.params.subqueries_per_iter)),
       decSpec w.provider_config w.id k (w.next_node_id +
        w.params.pdfs*(3+2*w.params.subqueries_per_iter) + 1)] :=
    List.mem_append_left _ (List.mem_append_right _ hmem)
  refine List.mem_map.mpr ⟨exMapF _ _ N,
    List.mem_map.mpr ⟨N, hbase, rfl⟩, ?_⟩
  rw [exMapF_mem _ _ _ (by omega) hes]
  exact edgeF_of_ne _ _ _ (show N.id ≠ _ by omega) (show N.id ≠ _ by omega)

theorem mem_init2_exists_state (w : Workflow) (nid1 nid2 : Nat) (m : Node)
    (hm : m ∈ w.nodes) :
    ∃ st, { m with state := st } ∈
      (initializeStateFromDeps (initializeStateFromDeps w nid1) nid2).nodes := by
  obtain ⟨st, h⟩ := mem_init_exists_state w nid1 m hm
  obtain ⟨st2, h2⟩ := mem_init_exists_state _ nid2 _ h
  exact ⟨st2, h2⟩

/-- **C4.** Expanding iteration `k` from a plan node (with the guards
passed: plan found, `k < max_iters`, no `Aggregate` at `k` yet,
`pdfs ≥ 1`) adds exactly `P` `LoadPDF`/`Chunk`/`Embed` nodes, `P*K`
`SimilaritySearch`/`ExtractEvidence` nodes, and one `Aggregate` and one
`DecideNext` node, all at iteration `k`, wired
`Plan→LoadPDF(p)→Chunk(p)→Embed(p)→SimilaritySearch(p,q)→ExtractEvidence(p,q)`,
every `ExtractEvidence→Aggregate` (or `Plan→Aggregate` when `K = 0`),
and `Aggregate→DecideNext`, with each `evidence_count_est` in
`{0,1,2,3}` derived by hashing `(seed, workflow id, iteration, pdf,
subquery)`. -/
theorem expansion_structure (w : Workflow) (pid : Nat) (plan : Node)
    (hids : idsBelow w = true)
    (hfind : findNode w pid = some plan)
    (hmax : plan.iter < w.params.max_iters)
    (hnoagg : w.nodes.any (fun n =>
      n.ntype = NodeType.Aggregate ∧ n.iter = plan.iter) = false)
    (hP : 1 ≤ w.params.pdfs) :
    c4Prop w pid plan.iter := by
  have hpid : pid < w.next_node_id := by
    have hmem := mem_of_findNode hfind
    have hid := findNode_id hfind
    have hb := idsBelow_bound hids plan hmem
    omega
  have hEQ := expandIterationFromPlan_eq w pid plan hids hfind hmax hnoagg
  have h0 : typeCount w NodeType.Aggregate plan.iter = 0 := by
    unfold typeCount
    rw [List.countP_eq_zero]
    intro a ha hc
    have h2 : w.nodes.any (fun n =>
        n.ntype = NodeType.Aggregate ∧ n.iter = plan.iter) = true :=
      List.any_eq_true.mpr ⟨a, ha, hc⟩
    rw [hnoagg] at h2
    exact Bool.false_ne_true h2
  unfold c4Prop
  refine ⟨?_, ?_, ?_, ?_, ?_, ?_, ?_, ?_, ?_, ?_, ?_⟩
  · rw [hEQ, expandedAt_typeCount, if_pos rfl]
    rfl
  · rw [hEQ, expandedAt_typeCount, if_pos rfl]
    rfl
  · rw [hEQ, expandedAt_typeCount, if_pos rfl]
    rfl
  · rw [hEQ, expandedAt_typeCount, if_pos rfl]
    rfl
  · rw [hEQ, expandedAt_typeCount, if_pos rfl]
    rfl
  · rw [hEQ, expandedAt_typeCount, if_pos rfl, h0]
    rfl
  · rw [hEQ, expandedAt_typeCount, if_pos rfl]
    rfl
  · intro p hp
    rw [hEQ]
    refine ⟨?_, ?_, ?_⟩
    · refine mem_expandedAt_block w pid plan.iter _ hpid
        (List.mem_flatMap.mpr ⟨p, List.mem_range.mpr hp,
          List.mem_cons_self _ _⟩) ?_
      exact exIdsOf_not_mem_off _ _ _ p 0 (by omega)
    · refine mem_expandedAt_block w pid plan.iter _ hpid
        (List.mem_flatMap.mpr ⟨p, List.mem_range.mpr hp,
          List.mem_cons_of_mem _ (List.mem_cons_self _ _)⟩) ?_
      exact exIdsOf_not_mem_off _ _ _ p 1 (by omega)
    · refine mem_expandedAt_block w pid plan.iter _ hpid
        (List.mem_flatMap.mpr ⟨p, List.mem_range.mpr hp,
          List.mem_cons_of_mem _ (List.mem_cons_of_mem _
            (List.mem_cons_self _ _))⟩) ?_
      exact exIdsOf_not_mem_off _ _ _ p 2 (by omega)
  · intro p hp q hq
    rw [hEQ]
    refine ⟨?_, ?_, ?_⟩
    · refine mem_expandedAt_block w pid plan.iter _ hpid
        (List.mem_flatMap.mpr ⟨p, List.mem_range.mpr hp,
          List.mem_cons_of_mem _ (List.mem_cons_of_mem _
            (List.mem_cons_of_mem _ (List.mem_flatMap.mpr
              ⟨q, List.mem_range.mpr hq, List.mem_cons_self _ _⟩)))⟩) ?_
      exact exIdsOf_not_mem_ss _ _ _ p q hq
    · exact mem_expandedAt_ext w pid plan.iter _
        (List.mem_flatMap.mpr ⟨p, List.mem_range.mpr hp,
          List.mem_cons_of_mem _ (List.mem_cons_of_mem _
            (List.mem_cons_of_mem _ (List.mem_flatMap.mpr
              ⟨q, List.mem_range.mpr hq, List.mem_cons_of_mem _
                (List.mem_cons_self _ _)⟩)))⟩)
        (exIdsOf_mem_intro _ _ _ p q hp hq)
    · omega
  · by_cases hK0 : w.params.subqueries_per_iter = 0
    · rw [if_pos hK0, hEQ]
      have hEm : (exIdsOf w.next_node_id w.params.pdfs
          w.params.subqueries_per_iter).isEmpty = true :=
        (exIdsOf_isEmpty _ _ _).mpr (Or.inr hK0)
      unfold expandedAt
      dsimp only
      rw [if_pos hEm]
      refine mem_init2_exists_state _ _ _
        { id := w.next_node_id +
            w.params.pdfs*(3+2*w.params.subqueries_per_iter)
          workflow_id := w.id, ntype := NodeType.Aggregate
          resource_class := ResourceClass.cpu, idempotent := true
          iter := plan.iter, deps := [pid]
          children := [w.next_node_id +
            w.params.pdfs*(3+2*w.params.subqueries_per_iter) + 1]
          preference_list := prefFor w.provider_config ResourceClass.cpu }
        ?_
      refine List.mem_map.mpr ⟨_, List.mem_map.mpr
        ⟨aggSpec w.provider_config w.id plan.iter (w.next_node_id +
          w.params.pdfs*(3+2*w.params.subqueries_per_iter)),
         List.mem_append_right _ (List.mem_cons_self _ _), rfl⟩, ?_⟩
      have e1 : edgeF pid (w.next_node_id +
          w.params.pdfs*(3+2*w.params.subqueries_per_iter))
          (aggSpec w.provider_config w.id plan.iter (w.next_node_id +
            w.params.pdfs*(3+2*w.params.subqueries_per_iter))) =
          { id := w.next_node_id +
              w.params.pdfs*(3+2*w.params.subqueries_per_iter)
            workflow_id := w.id, ntype := NodeType.Aggregate
            resource_class := ResourceClass.cpu, idempotent := true
            iter := plan.iter, deps := [pid]
            preference_list := prefFor w.provider_config
              ResourceClass.cpu } := by
        rw [edgeF_dst pid (w.next_node_id +
            w.params.pdfs*(3+2*w.params.subqueries_per_iter))
          (aggSpec w.provider_config w.id plan.iter (w.next_node_id +
            w.params.pdfs*(3+2*w.params.subqueries_per_iter))) rfl
          (show w.next_node_id +
            w.params.pdfs*(3+2*w.params.subqueries_per_iter) ≠ pid
            by omega)]
        rfl
      rw [e1]
      rw [edgeF_eq_extend (w.next_node_id +
          w.params.pdfs*(3+2*w.params.subqueries_per_iter))
        (w.next_node_id +
          w.params.pdfs*(3+2*w.params.subqueries_per_iter) + 1)
        { id := w.next_node_id +
            w.params.pdfs*(3+2*w.params.subqueries_per_iter)
          workflow_id := w.id, ntype := NodeType.Aggregate
          resource_class := ResourceClass.cpu, idempotent := true
          iter := plan.iter, deps := [pid]
          preference_list := prefFor w.provider_config ResourceClass.cpu }
        (show w.next_node_id +
          w.params.pdfs*(3+2*w.params.subqueries_per_iter) ≠
          w.next_node_id +
            w.params.pdfs*(3+2*w.params.subqueries_per_iter) + 1 by omega)]
      rw [extendChildren_self (w.next_node_id +
          w.params.pdfs*(3+2*w.params.subqueries_per_iter))
        [w.next_node_id +
          w.params.pdfs*(3+2*w.params.subqueries_per_iter) + 1]
        { id := w.next_node_id +
            w.params.pdfs*(3+2*w.params.subqueries_per_iter)
          workflow_id := w.id, ntype := NodeType.Aggregate
          resource_class := ResourceClass.cpu, idempotent := true
          iter := plan.iter, deps := [pid]
          preference_list := prefFor w.provider_config ResourceClass.cpu }
        rfl]
      rfl
    · rw [if_neg hK0, hEQ]
      have hEm : ¬ (exIdsOf w.next_node_id w.params.pdfs
          w.params.subqueries_per_iter).isEmpty = true := by
        intro h
        rcases (exIdsOf_isEmpty _ _ _).mp h with h2 | h2
        · omega
        · exact hK0 h2
      unfold expandedAt
      dsimp only
      rw [if_neg hEm]
      refine mem_init2_exists_state _ _ _
        { id := w.next_node_id +
            w.params.pdfs*(3+2*w.params.subqueries_per_iter)
          workflow_id := w.id, ntype := NodeType.Aggregate
          resource_class := ResourceClass.cpu, idempotent := true
          iter := plan.iter
          deps := exIdsOf w.next_node_id w.params.pdfs
            w.params.subqueries_per_iter
          children := [w.next_node_id +
            w.params.pdfs*(3+2*w.params.subqueries_per_iter) + 1]
          preference_list := prefFor w.provider_config ResourceClass.cpu }
        ?_
      refine List.mem_map.mpr ⟨_, List.mem_map.mpr
        ⟨aggSpec w.provider_config w.id plan.iter (w.next_node_id +
          w.params.pdfs*(3+2*w.params.subqueries_per_iter)),
         List.mem_append_right _ (List.mem_cons_self _ _), rfl⟩, ?_⟩
      have e1 : exMapF (exIdsOf w.next_node_id w.params.pdfs
            w.params.subqueries_per_iter)
          (w.next_node_id +
            w.params.pdfs*(3+2*w.params.subqueries_per_iter))
          (aggSpec w.provider_config w.id plan.iter (w.next_node_id +
            w.params.pdfs*(3+2*w.params.subqueries_per_iter))) =
          { id := w.next_node_id +
              w.params.pdfs*(3+2*w.params.subqueries_per_iter)
            workflow_id := w.id, ntype := NodeType.Aggregate
            resource_class := ResourceClass.cpu, idempotent := true
            iter := plan.iter
            deps := exIdsOf w.next_node_id w.params.pdfs
              w.params.subqueries_per_iter
            preference_list := prefFor w.provider_config
              ResourceClass.cpu } := by
        rw [exMapF_self (exIdsOf w.next_node_id w.params.pdfs
            w.params.subqueries_per_iter)
          (w.next_node_id +
            w.params.pdfs*(3+2*w.params.subqueries_per_iter))
          (aggSpec w.provider_config w.id plan.iter (w.next_node_id +
            w.params.pdfs*(3+2*w.params.subqueries_per_iter))) rfl]
        rfl
      rw [e1]
      rw [edgeF_eq_extend (w.next_node_id +
          w.params.pdfs*(3+2*w.params.subqueries_per_iter))
        (w.next_node_id +
          w.params.pdfs*(3+2*w.params.subqueries_per_iter) + 1)
        { id := w.next_node_id +
            w.params.pdfs*(3+2*w.params.subqueries_per_iter)
          workflow_id := w.id, ntype := NodeType.Aggregate
          resource_class := ResourceClass.cpu, idempotent := true
          iter := plan.iter
          deps := exIdsOf w.next_node_id w.params.pdfs
            w.params.subqueries_per_iter
          preference_list := prefFor w.provider_config ResourceClass.cpu }
        (show w.next_node_id +
          w.params.pdfs*(3+2*w.params.subqueries_per_iter) ≠
          w.next_node_id +
            w.params.pdfs*(3+2*w.params.subqueries_per_iter) + 1 by omega)]
      rw [extendChildren_self (w.next_node_id +
          w.params.pdfs*(3+2*w.params.subqueries_per_iter))
        [w.next_node_id +
          w.params.pdfs*(3+2*w.params.subqueries_per_iter) + 1]
        { id := w.next_node_id +
            w.params.pdfs*(3+2*w.params.subqueries_per_iter)
          workflow_id := w.id, ntype := NodeType.Aggregate
          resource_class := ResourceClass.cpu, idempotent := true
          iter := plan.iter
          deps := exIdsOf w.next_node_id w.params.pdfs
            w.params.subqueries_per_iter
          preference_list := prefFor w.provider_config ResourceClass.cpu }
        rfl]
      rfl
  · rw [hEQ]
    unfold expandedAt
    dsimp only
    have hval : edgeF (w.next_node_id +
        w.params.pdfs*(3+2*w.params.subqueries_per_iter))
        (w.next_node_id +
          w.params.pdfs*(3+2*w.params.subqueries_per_iter) + 1)
        (decSpec w.provider_config w.id plan.iter (w.next_node_id +
          w.params.pdfs*(3+2*w.params.subqueries_per_iter) + 1)) =
        { id := w.next_node_id +
            w.params.pdfs*(3+2*w.params.subqueries_per_iter) + 1
          workflow_id := w.id, ntype := NodeType.DecideNext
          resource_class := ResourceClass.llm, idempotent := true
          iter := plan.iter
          deps := [w.next_node_id +
            w.params.pdfs*(3+2*w.params.subqueries_per_iter)]
          preference_list := prefFor w.provider_config
            ResourceClass.llm } := by
      rw [edgeF_dst (w.next_node_id +
          w.params.pdfs*(3+2*w.params.subqueries_per_iter))
        (w.next_node_id +
          w.params.pdfs*(3+2*w.params.subqueries_per_iter) + 1)
        (decSpec w.provider_config w.id plan.iter (w.next_node_id +
          w.params.pdfs*(3+2*w.params.subqueries_per_iter) + 1)) rfl
        (show w.next_node_id +
          w.params.pdfs*(3+2*w.params.subqueries_per_iter) + 1 ≠
          w.next_node_id +
            w.params.pdfs*(3+2*w.params.subqueries_per_iter) by omega)]
      rfl
    by_cases hE : (exIdsOf w.next_node_id w.params.pdfs
        w.params.subqueries_per_iter).isEmpty = true
    · rw [if_pos hE]
      refine mem_init2_exists_state _ _ _
        { id := w.next_node_id +
            w.params.pdfs*(3+2*w.params.subqueries_per_iter) + 1
          workflow_id := w.id, ntype := NodeType.DecideNext
          resource_class := ResourceClass.llm, idempotent := true
          iter := plan.iter
          deps := [w.next_node_id +
            w.params.pdfs*(3+2*w.params.subqueries_per_iter)]
          preference_list := prefFor w.provider_config ResourceClass.llm }
        ?_
      refine List.mem_map.mpr ⟨_, List.mem_map.mpr
        ⟨decSpec w.provider_config w.id plan.iter (w.next_node_id +
          w.params.pdfs*(3+2*w.params.subqueries_per_iter) + 1),
         List.mem_append_right _ (List.mem_cons_of_mem _
           (List.mem_cons_self _ _)), rfl⟩, ?_⟩
      rw [edgeF_of_ne pid (w.next_node_id +
          w.params.pdfs*(3+2*w.params.subqueries_per_iter))
        (decSpec w.provider_config w.id plan.iter (w.next_node_id +
          w.params.pdfs*(3+2*w.params.subqueries_per_iter) + 1))
        (show w.next_node_id +
          w.params.pdfs*(3+2*w.params.subqueries_per_iter) + 1 ≠ pid
          by omega)
        (show w.next_node_id +
          w.params.pdfs*(3+2*w.params.subqueries_per_iter) + 1 ≠
          w.next_node_id +
            w.params.pdfs*(3+2*w.params.subqueries_per_iter) by omega)]
      exact hval
    · rw [if_neg hE]
      refine mem_init2_exists_state _ _ _
        { id := w.next_node_id +
            w.params.pdfs*(3+2*w.params.subqueries_per_iter) + 1
          workflow_id := w.id, ntype := NodeType.DecideNext
          resource_class := ResourceClass.llm, idempotent := true
          iter := plan.iter
          deps := [w.next_node_id +
            w.params.pdfs*(3+2*w.params.subqueries_per_iter)]
          preference_list := prefFor w.provider_config ResourceClass.llm }
        ?_
      refine List.mem_map.mpr ⟨_, List.mem_map.mpr
        ⟨decSpec w.provider_config w.id plan.iter (w.next_node_id +
          w.params.pdfs*(3+2*w.params.subqueries_per_iter) + 1),
         List.mem_append_right _ (List.mem_cons_of_mem _
           (List.mem_cons_self _ _)), rfl⟩, ?_⟩
      rw [exMapF_of_ne (exIdsOf w.next_node_id w.params.pdfs
          w.params.subqueries_per_iter)
        (w.next_node_id +
          w.params.pdfs*(3+2*w.params.subqueries_per_iter))
        (decSpec w.provider_config w.id plan.iter (w.next_node_id +
          w.params.pdfs*(3+2*w.params.subqueries_per_iter) + 1))
        (show w.next_node_id +
          w.params.pdfs*(3+2*w.params.subqueries_per_iter) + 1 ≠
          w.next_node_id +
            w.params.pdfs*(3+2*w.params.subqueries_per_iter) by omega)
        (fun hc => by
          have hb := (exIdsOf_bounds _ _ _ _ hc).2
          have hid : (decSpec w.provider_config w.id plan.iter
              (w.next_node_id +
                w.params.pdfs*(3+2*w.params.subqueries_per_iter) + 1)).id =
              w.next_node_id +
                w.params.pdfs*(3+2*w.params.subqueries_per_iter) + 1 := rfl
          omega)]
      exact hval

theorem all_congr_mem2 {α : Type} (l : List α) (p q : α → Bool)
    (h : ∀ x ∈ l, p x = q x) : l.all p = l.all q := by
  induction l with
  | nil => rfl
  | cons a l ih =>
    simp only [List.all_cons]
    rw [h a (List.mem_cons_self a l),
      ih (fun x hx => h x (List.mem_cons_of_mem a hx))]

theorem idsBelow_mapNodes (w : Workflow) (f : Node → Node)
    (hf : ∀ m, (f m).id = m.id) :
    idsBelow { w with nodes := w.nodes.map f } = idsBelow w := by
  unfold idsBelow
  dsimp only
  rw [List.all_map]
  refine all_congr_mem2 _ _ _ (fun x _ => ?_)
  show decide ((f x).id < w.next_node_id) = _
  rw [hf x]

theorem typeCount_mapNodes (w : Workflow) (f : Node → Node)
    (hf : ∀ m, (f m).ntype = m.ntype) (hf2 : ∀ m, (f m).iter = m.iter)
    (t : NodeType) (k : Nat) :
    typeCount { w with nodes := w.nodes.map f } t k = typeCount w t k := by
  unfold typeCount
  dsimp only
  exact countP_typeIter_map t k f hf hf2 _

theorem refreshNode_fields (w : Workflow) (n : Node) :
    (refreshNode w n).ntype = n.ntype ∧ (refreshNode w n).iter = n.iter := by
  unfold refreshNode
  split
  · exact ⟨rfl, rfl⟩
  · split <;> exact ⟨rfl, rfl⟩

theorem idsBelow_refresh (w : Workflow) :
    idsBelow (refreshRunnable w) = idsBelow w :=
  idsBelow_mapNodes w (refreshNode w) (refreshNode_id w)

theorem typeCount_refresh (w : Workflow) (t : NodeType) (k : Nat) :
    typeCount (refreshRunnable w) t k = typeCount w t k :=
  typeCount_mapNodes w (refreshNode w)
    (fun m => (refreshNode_fields w m).1) (fun m => (refreshNode_fields w m).2)
    t k

theorem idsBelow_init (w : Workflow) (nid : Nat) :
    idsBelow (initializeStateFromDeps w nid) = idsBelow w := by
  unfold initializeStateFromDeps
  cases hf : findNode w nid with
  | none => rfl
  | some n =>
    dsimp only
    split
    · rfl
    · exact idsBelow_mapNodes w _ (fun m => by
        by_cases h : m.id = nid <;> simp [h])

theorem typeCount_agg_zero (w : Workflow) (k : Nat)
    (h : w.nodes.any (fun n =>
      n.ntype = NodeType.Aggregate ∧ n.iter = k) = false) :
    typeCount w NodeType.Aggregate k = 0 := by
  unfold typeCount
  rw [List.countP_eq_zero]
  intro a ha hc
  have h2 : w.nodes.any (fun n =>
      n.ntype = NodeType.Aggregate ∧ n.iter = k) = true :=
    List.any_eq_true.mpr ⟨a, ha, hc⟩
  rw [h] at h2
  exact Bool.false_ne_true h2

theorem setState_cases (w : Workflow) (nid : Nat) (next : NodeState)
    (w' : Workflow) (h : setState w nid next = Except.ok w') :
    ∃ n, findNode w nid = some n ∧
      ((n.state = next ∧ w' = w) ∨
       (n.state ≠ next ∧ isTerminal n.state = false ∧
        allowedNext w n next = true ∧
        w' = updateNode w nid (fun m => { m with state := next }))) := by
  unfold setState at h
  cases hf : findNode w nid with
  | none => rw [hf] at h; cases h
  | some n =>
    rw [hf] at h
    dsimp only at h
    refine ⟨n, rfl, ?_⟩
    by_cases h1 : n.state = next
    · rw [if_pos h1] at h
      cases h
      exact Or.inl ⟨h1, rfl⟩
    · rw [if_neg h1] at h
      by_cases h2 : isTerminal n.state = true
      · rw [if_pos h2] at h
        cases h
      · rw [if_neg h2] at h
        by_cases h3 : allowedNext w n next = true
        · rw [if_pos h3] at h
          cases h
          exact Or.inr ⟨h1, Bool.eq_false_iff.mpr h2, h3, rfl⟩
        · rw [if_neg h3] at h
          cases h

theorem expand_cases (w : Workflow) (pid : Nat) :
    expandIterationFromPlan w pid = w ∨
    ∃ plan, findNode w pid = some plan ∧
      plan.iter < w.params.max_iters ∧
      (w.nodes.any (fun n =>
        n.ntype = NodeType.Aggregate ∧ n.iter = plan.iter)) = false := by
  rcases hf : findNode w pid with _ | plan
  · left
    unfold expandIterationFromPlan
    rw [hf]
  · by_cases h1 : w.params.max_iters ≤ plan.iter
    · left
      unfold expandIterationFromPlan
      rw [hf]
      dsimp only
      rw [if_pos h1]
    · by_cases h2 : (w.nodes.any (fun n =>
          n.ntype = NodeType.Aggregate ∧ n.iter = plan.iter)) = true
      · left
        unfold expandIterationFromPlan
        rw [hf]
        dsimp only
        rw [if_neg h1, if_pos h2]
      · exact Or.inr ⟨plan, rfl, by omega, Bool.eq_false_iff.mpr h2⟩

theorem idsBelow_expandedAt (w : Workflow) (pid k : Nat)
    (hids : idsBelow w = true) :
    idsBelow (expandedAt w pid k) = true := by
  unfold expandedAt
  dsimp only
  rw [idsBelow_init, idsBelow_init]
  unfold idsBelow
  dsimp only
  rw [List.all_eq_true]
  intro x hx
  have hx2 := List.mem_map.mp hx
  obtain ⟨y, hy, rfl⟩ := hx2
  refine decide_eq_true ?_
  rw [(edgeF_fields _ _ _).1]
  have hbase : ∀ z, z ∈ w.nodes.map (extendChildren pid
      (loadIdsOf w.next_node_id w.params.pdfs w.params.subqueries_per_iter)) ++
      (List.range w.params.pdfs).flatMap (fun p =>
        pdfBlock w.provider_config w.id w.params.seed k
          w.params.subqueries_per_iter pid
          (w.next_node_id + p*(3+2*w.params.subqueries_per_iter)) p) ++
      [aggSpec w.provider_config w.id k (w.next_node_id +
        w.params.pdfs*(3+2*w.params.subqueries_per_iter)),
       decSpec w.provider_config w.id k (w.next_node_id +
        w.params.pdfs*(3+2*w.params.subqueries_per_iter) + 1)] →
      z.id < w.next_node_id +
        w.params.pdfs*(3+2*w.params.subqueries_per_iter) + 2 := by
    intro z hz
    rcases List.mem_append.mp hz with hz1 | hz2
    · rcases List.mem_append.mp hz1 with hz3 | hz4
      · obtain ⟨m0, hm0, rfl⟩ := List.mem_map.mp hz3
        have hb := idsBelow_bound hids m0 hm0
        rw [(extendChildren_fields _ _ _).1]
        omega
      · have hb := block_mem_bounds w pid k z hz4
        omega
    · rcases List.mem_cons.mp hz2 with rfl | hz5
      · show w.next_node_id +
          w.params.pdfs*(3+2*w.params.subqueries_per_iter) < _
        omega
      · rcases List.mem_cons.mp hz5 with rfl | hz6
        · show w.next_node_id +
            w.params.pdfs*(3+2*w.params.subqueries_per_iter) + 1 < _
          omega
        · exact absurd hz6 (List.not_mem_nil _)
  by_cases hE : (exIdsOf w.next_node_id w.params.pdfs
      w.params.subqueries_per_iter).isEmpty = true
  · rw [if_pos hE] at hy
    obtain ⟨z, hz, rfl⟩ := List.mem_map.mp hy
    rw [(edgeF_fields _ _ _).1]
    exact hbase z hz
  · rw [if_neg hE] at hy
    obtain ⟨z, hz, rfl⟩ := List.mem_map.mp hy
    rw [(exMapF_fields _ _ _).1]
    exact hbase z hz

theorem wfInv_stateMap (w : Workflow) (f : Node → Node)
    (hid : ∀ m, (f m).id = m.id) (hnt : ∀ m, (f m).ntype = m.ntype)
    (hit : ∀ m, (f m).iter = m.iter) (hInv : wfInv w) :
    wfInv { w with nodes := w.nodes.map f } := by
  obtain ⟨h1, h2⟩ := hInv
  refine ⟨by rw [idsBelow_mapNodes w f hid]; exact h1, fun k => ?_⟩
  rw [typeCount_mapNodes w f hnt hit, typeCount_mapNodes w f hnt hit]
  exact h2 k

theorem wfInv_refresh (w : Workflow) (hInv : wfInv w) :
    wfInv (refreshRunnable w) :=
  wfInv_stateMap w (refreshNode w) (refreshNode_id w)
    (fun m => (refreshNode_fields w m).1)
    (fun m => (refreshNode_fields w m).2) hInv

theorem wfInv_updateState (w : Workflow) (nid : Nat) (st : NodeState)
    (hInv : wfInv w) :
    wfInv (updateNode w nid (fun m => { m with state := st })) :=
  wfInv_stateMap w _
    (fun m => by by_cases h : m.id = nid <;> simp [h])
    (fun m => by by_cases h : m.id = nid <;> simp [h])
    (fun m => by by_cases h : m.id = nid <;> simp [h]) hInv

theorem wfInv_addEdge (w : Workflow) (a b : Nat) (hInv : wfInv w) :
    wfInv (addEdge w a b) :=
  wfInv_stateMap w (edgeF a b) (fun m => (edgeF_fields _ _ m).1)
    (fun m => (edgeF_fields _ _ m).2.1)
    (fun m => (edgeF_fields _ _ m).2.2.2.1) hInv

theorem wfInv_init (w : Workflow) (nid : Nat) (hInv : wfInv w) :
    wfInv (initializeStateFromDeps w nid) :=
  ⟨by rw [idsBelow_init]; exact hInv.1,
   fun k => by
    rw [typeCount_init, typeCount_init]
    exact hInv.2 k⟩

theorem wfInv_prune (w : Workflow) (k0 : Nat) (hInv : wfInv w) :
    wfInv (pruneAfterStop w k0) := by
  unfold pruneAfterStop
  apply wfInv_refresh
  exact wfInv_stateMap w _
    (fun m => by
      by_cases h1 : isTerminal m.state = true <;>
        by_cases h2 : k0 < m.iter <;> simp [h1, h2])
    (fun m => by
      by_cases h1 : isTerminal m.state = true <;>
        by_cases h2 : k0 < m.iter <;> simp [h1, h2])
    (fun m => by
      by_cases h1 : isTerminal m.state = true <;>
        by_cases h2 : k0 < m.iter <;> simp [h1, h2]) hInv

theorem wfInv_expand (w : Workflow) (pid : Nat) (hInv : wfInv w) :
    wfInv (expandIterationFromPlan w pid) := by
  rcases expand_cases w pid with heq | ⟨plan, hfind, hmax, hany⟩
  · rw [heq]
    exact hInv
  · rw [expandIterationFromPlan_eq w pid plan hInv.1 hfind hmax hany]
    refine ⟨idsBelow_expandedAt w pid plan.iter hInv.1, fun k' => ?_⟩
    have h0 := typeCount_agg_zero w plan.iter hany
    by_cases hk : k' = plan.iter
    · subst hk
      constructor
      · rw [expandedAt_typeCount]
        simp only [eq_self_iff_true, if_true, addedCountOf, h0]
        omega
      · rw [expandedAt_typeCount, expandedAt_typeCount]
        simp only [eq_self_iff_true, if_true, addedCountOf]
        have h1 := (hInv.2 plan.iter).2
        have h2 := (hInv.2 plan.iter).1
        omega
    · constructor
      · rw [expandedAt_typeCount, if_neg hk, Nat.add_zero]
        exact (hInv.2 k').1
      · rw [expandedAt_typeCount, expandedAt_typeCount, if_neg hk,
          if_neg hk, Nat.add_zero, Nat.add_zero]
        exact (hInv.2 k').2

theorem wfInv_onDecideNext (w : Workflow) (nid : Nat) (hInv : wfInv w) :
    wfInv (onDecideNext w nid) := by
  unfold onDecideNext
  cases hf : findNode w nid with
  | none => exact hInv
  | some dn =>
    dsimp only
    cases hc : computeDecideAction w dn.iter with
    | Stop => exact wfInv_prune _ _ hInv
    | Continue =>
      dsimp only [newNodeId]
      apply wfInv_init
      apply wfInv_addEdge
      dsimp only [addNode]
      constructor
      · unfold idsBelow
        dsimp only
        rw [List.all_append, Bool.and_eq_true]
        refine ⟨?_, ?_⟩
        · rw [List.all_eq_true]
          intro m hm
          have hb := idsBelow_bound hInv.1 m hm
          exact decide_eq_true (by omega)
        · simp only [List.all_cons, List.all_nil, Bool.and_eq_true]
          refine ⟨decide_eq_true ?_, trivial⟩
          show w.next_node_id < w.next_node_id + 1
          omega
      · intro k'
        unfold typeCount
        dsimp only
        simp only [List.countP_append]
        have hAgg : List.countP (typeIterP NodeType.Aggregate k')
            [populatePrefList w.provider_config
              { id := w.next_node_id, workflow_id := w.id
                ntype := NodeType.Plan, resource_class := ResourceClass.llm
                idempotent := true, iter := dn.iter + 1
                output_size_est := 220 + 15 * w.params.subqueries_per_iter +
                  4 * w.params.pdfs }] = 0 := by
          simp [typeIterP, populatePrefList_eq, List.countP_cons]
        have hDec : List.countP (typeIterP NodeType.DecideNext k')
            [populatePrefList w.provider_config
              { id := w.next_node_id, workflow_id := w.id
                ntype := NodeType.Plan, resource_class := ResourceClass.llm
                idempotent := true, iter := dn.iter + 1
                output_size_est := 220 + 15 * w.params.subqueries_per_iter +
                  4 * w.params.pdfs }] = 0 := by
          simp [typeIterP, populatePrefList_eq, List.countP_cons]
        rw [hAgg, hDec, Nat.add_zero, Nat.add_zero]
        exact hInv.2 k'

theorem wfInv_step (m : Mutator) (w w' : Workflow) (hInv : wfInv w)
    (h : applyMutator m w = Except.ok w') : wfInv w' := by
  cases m with
  | mQueued nid =>
    obtain ⟨n, hf, hcase⟩ := setState_cases w nid _ w' h
    rcases hcase with ⟨_, rfl⟩ | ⟨_, _, _, rfl⟩
    · exact hInv
    · exact wfInv_updateState w nid _ hInv
  | mRunning nid =>
    obtain ⟨n, hf, hcase⟩ := setState_cases w nid _ w' h
    rcases hcase with ⟨_, rfl⟩ | ⟨_, _, _, rfl⟩
    · exact hInv
    · exact wfInv_updateState w nid _ hInv
  | mSucceeded nid =>
    unfold applyMutator markSucceeded at h
    dsimp only at h
    cases hf : findNode w nid with
    | none => rw [hf] at h; cases h
    | some n =>
      rw [hf] at h
      dsimp only at h
      cases hset : setState w nid NodeState.Succeeded with
      | error e => rw [hset] at h; cases h
      | ok w1 =>
        rw [hset] at h
        have hInv1 : wfInv w1 := by
          obtain ⟨n2, hf2, hcase⟩ := setState_cases w nid _ w1 hset
          rcases hcase with ⟨_, rfl⟩ | ⟨_, _, _, rfl⟩
          · exact hInv
          · exact wfInv_updateState w nid _ hInv
        cases h
        apply wfInv_refresh
        by_cases hnt : n.ntype = NodeType.Plan
        · rw [if_pos hnt]
          exact wfInv_expand w1 nid hInv1
        · rw [if_neg hnt]
          by_cases hnd : n.ntype = NodeType.DecideNext
          · rw [if_pos hnd]
            exact wfInv_onDecideNext w1 nid hInv1
          · rw [if_neg hnd]
            exact hInv1
  | mFailed nid =>
    unfold applyMutator markFailed at h
    dsimp only at h
    cases hset : setState w nid NodeState.Failed with
    | error e => rw [hset] at h; cases h
    | ok w1 =>
      rw [hset] at h
      cases h
      apply wfInv_refresh
      obtain ⟨n2, hf2, hcase⟩ := setState_cases w nid _ w1 hset
      rcases hcase with ⟨_, rfl⟩ | ⟨_, _, _, rfl⟩
      · exact hInv
      · exact wfInv_updateState w nid _ hInv
  | mCancel nid =>
    unfold applyMutator cancel at h
    dsimp only at h
    cases hf : findNode w nid with
    | none => rw [hf] at h; cases h
    | some n =>
      rw [hf] at h
      dsimp only at h
      by_cases ht : isTerminal n.state = true
      · rw [if_pos ht] at h
        cases h
        exact hInv
      · rw [if_neg ht] at h
        cases h
        exact wfInv_refresh _ (wfInv_updateState w nid _ hInv)
  | mRefresh =>
    cases h
    exact wfInv_refresh w hInv
  | mPrune k =>
    cases h
    exact wfInv_prune w k hInv

theorem wfInv_mk (id : Nat) (prm : WorkloadParams) (cfg : List TierConfig) :
    wfInv (mkWorkflow id prm cfg) := by
  unfold mkWorkflow
  apply wfInv_refresh
  unfold ensureInitialPlan
  dsimp only [newNodeId, addNode]
  constructor
  · unfold idsBelow
    dsimp only
    simp only [List.nil_append, List.all_cons, List.all_nil,
      Bool.and_eq_true]
    exact ⟨decide_eq_true (by show (1 : Nat) < 2; omega), trivial⟩
  · intro k
    constructor <;>
      simp [typeCount, typeIterP, List.countP_cons, populatePrefList_eq]

theorem wfInv_reachable : ∀ w, Reachable w → wfInv w := by
  intro w h
  induction h with
  | init id prm cfg => exact wfInv_mk id prm cfg
  | step w w' m hr heq ih => exact wfInv_step m w w' ih heq

theorem findNode_ne_none_of_mem (w : Workflow) (n : Node)
    (h : n ∈ w.nodes) : findNode w n.id ≠ none := by
  intro hc
  unfold findNode at hc
  rw [List.find?_eq_none] at hc
  exact hc n h (decide_eq_true rfl)

theorem no_new_of_map (w w' : Workflow) (f : Node → Node)
    (hid : ∀ m, (f m).id = m.id) (hw : w'.nodes = w.nodes.map f)
    {C : Node → Prop} :
    ∀ n' ∈ w'.nodes, findNode w n'.id = none → C n' := by
  intro n' hn' hnone
  rw [hw] at hn'
  obtain ⟨m0, hm0, rfl⟩ := List.mem_map.mp hn'
  rw [hid] at hnone
  exact absurd hnone (findNode_ne_none_of_mem w m0 hm0)

theorem claimStepOK_terminal (w' : Workflow) (old : NodeState) (n' : Node)
    (ht : isTerminal old = true) (h : claimStepOK w' old n' = true) :
    n'.state = old := by
  unfold claimStepOK at h
  by_cases h0 : old = n'.state
  · exact h0.symm
  · rw [if_neg h0, if_pos ht] at h
    exact absurd h (by simp)

theorem claimStepOK_transfer (w1 w2 : Workflow) (old : NodeState)
    (n1 n2 : Node) (hst : n2.state = n1.state) (hdeps : n2.deps = n1.deps)
    (hsucc : ∀ x, succAt w2 x = succAt w1 x)
    (h : claimStepOK w1 old n1 = true) : claimStepOK w2 old n2 = true := by
  unfold claimStepOK at h ⊢
  rw [hst]
  by_cases h0 : old = n1.state
  · rw [if_pos h0]
  · rw [if_neg h0] at h ⊢
    by_cases hT : isTerminal old = true
    · rw [if_pos hT] at h
      exact absurd h (by simp)
    · rw [if_neg hT] at h ⊢
      cases hns : n1.state with
      | WaitingDeps => rfl
      | Runnable =>
        rw [hns] at h
        rw [depsSatisfied_congr w1 w2 n1 n2 hdeps hsucc]
        exact h
      | Queued => rw [hns] at h; exact h
      | Running => rw [hns] at h; exact h
      | Succeeded => rw [hns] at h; exact h
      | Failed => rw [hns] at h; exact h
      | Cancelled => rfl

theorem claimStepOK_refresh (w2 : Workflow) (old : NodeState) (n : Node)
    (h : claimStepOK w2 old n = true) :
    claimStepOK (refreshRunnable w2) old (refreshNode w2 n) = true := by
  have hterm : old = n.state ∨ isTerminal old = false := by
    by_cases h0 : old = n.state
    · exact Or.inl h0
    · right
      unfold claimStepOK at h
      rw [if_neg h0] at h
      by_cases hT : isTerminal old = true
      · rw [if_pos hT] at h
        exact absurd h (by simp)
      · exact Bool.eq_false_iff.mpr hT
  unfold refreshNode
  by_cases hq : isTerminal n.state = true ∨ n.state = NodeState.Queued ∨
      n.state = NodeState.Running
  · rw [if_pos hq]
    exact claimStepOK_transfer w2 _ old n n rfl rfl
      (fun x => succAt_refresh w2 x) h
  · rw [if_neg hq]
    have hterm2 : isTerminal old = false := by
      rcases hterm with h0 | h0
      · rw [h0]
        push_neg at hq
        exact Bool.eq_false_iff.mpr hq.1
      · exact h0
    by_cases hd : depsSatisfied w2 n = true
    · rw [if_pos hd]
      unfold claimStepOK
      by_cases ho : old = NodeState.Runnable
      · rw [if_pos (show old = _ from ho)]
      · rw [if_neg (show ¬ old = _ from ho),
          if_neg (by simp [hterm2])]
        show depsSatisfied (refreshRunnable w2)
          { n with state := NodeState.Runnable } = true
        rw [depsSatisfied_congr w2 (refreshRunnable w2) n
          { n with state := NodeState.Runnable } rfl
          (fun x => succAt_refresh w2 x)]
        exact hd
    · rw [if_neg hd]
      unfold claimStepOK
      by_cases ho : old = NodeState.WaitingDeps
      · rw [if_pos (show old = _ from ho)]
      · rw [if_neg (show ¬ old = _ from ho),
          if_neg (by simp [hterm2])]

theorem setState_claimOK (w : Workflow) (nid : Nat) (next : NodeState)
    (w' : Workflow) (h : setState w nid next = Except.ok w')
    (hnext : next = NodeState.Queued ∨ next = NodeState.Running ∨
      next = NodeState.Succeeded ∨ next = NodeState.Failed)
    (nid' : Nat) (old n' : Node) (hfo : findNode w nid' = some old)
    (hfn : findNode w' nid' = some n') :
    claimStepOK w' old.state n' = true := by
  obtain ⟨n, hf, hcase⟩ := setState_cases w nid next w' h
  rcases hcase with ⟨hsame, rfl⟩ | ⟨hne, hterm, hallow, rfl⟩
  · rw [hfo] at hfn
    cases hfn
    unfold claimStepOK
    rw [if_pos rfl]
  · rw [findNode_updateNode w nid (fun m => { m with state := next })
      (fun m => rfl) nid', hfo] at hfn
    cases hfn
    dsimp only
    by_cases hid : old.id = nid
    · have hnn : nid' = nid := by rw [← findNode_id hfo, hid]
      subst hnn
      rw [hfo] at hf
      cases hf
      rw [if_pos hid]
      unfold claimStepOK
      dsimp only
      rw [if_neg hne, if_neg (by simp [hterm])]
      rcases hnext with rfl | rfl | rfl | rfl
      · exact hallow
      · exact hallow
      · refine decide_eq_true ?_
        have h2 := of_decide_eq_true hallow
        rcases h2 with h2 | h2 | h2 <;> simp [h2]
      · refine decide_eq_true ?_
        have h2 := of_decide_eq_true hallow
        rcases h2 with h2 | h2 | h2 <;> simp [h2]
    · rw [if_neg hid]
      unfold claimStepOK
      rw [if_pos rfl]

theorem idsBelow_setState (w : Workflow) (nid : Nat) (next : NodeState)
    (w' : Workflow) (h : setState w nid next = Except.ok w')
    (hids : idsBelow w = true) : idsBelow w' = true := by
  obtain ⟨n, hf, hcase⟩ := setState_cases w nid next w' h
  rcases hcase with ⟨_, rfl⟩ | ⟨_, _, _, rfl⟩
  · exact hids
  · exact Eq.trans (idsBelow_mapNodes w _
      (fun m => by by_cases h2 : m.id = nid <;> simp [h2])) hids

theorem findNode_setState_none (w : Workflow) (nid : Nat) (next : NodeState)
    (w' : Workflow) (h : setState w nid next = Except.ok w') (x : Nat)
    (hx : findNode w x = none) : findNode w' x = none := by
  obtain ⟨n, hf, hcase⟩ := setState_cases w nid next w' h
  rcases hcase with ⟨_, rfl⟩ | ⟨_, _, _, rfl⟩
  · exact hx
  · rw [findNode_updateNode w nid (fun m => { m with state := next })
      (fun m => rfl) x, hx]
    rfl

theorem findNode_init_ne (w : Workflow) (nid nid2 : Nat) (hne : nid ≠ nid2) :
    findNode (initializeStateFromDeps w nid2) nid = findNode w nid := by
  unfold initializeStateFromDeps
  cases hf : findNode w nid2 with
  | none => rfl
  | some n2 =>
    dsimp only
    split
    · rfl
    · rw [findNode_updateNode w nid2 (fun m =>
        { m with state := if depsSatisfied w n2 = true then
            NodeState.Runnable else NodeState.WaitingDeps })
        (fun m => rfl) nid]
      cases hh : findNode w nid with
      | none => rfl
      | some nn =>
        dsimp only [Option.map]
        rw [if_neg (by rw [findNode_id hh]; exact hne)]

theorem mem_init_inv (w : Workflow) (nid : Nat) (m : Node)
    (h : m ∈ (initializeStateFromDeps w nid).nodes) :
    ∃ m0 ∈ w.nodes, m.id = m0.id ∧
      (m = m0 ∨ m.state = NodeState.Runnable ∨
        m.state = NodeState.WaitingDeps) := by
  unfold initializeStateFromDeps at h
  cases hf : findNode w nid with
  | none =>
    rw [hf] at h
    exact ⟨m, h, rfl, Or.inl rfl⟩
  | some n =>
    rw [hf] at h
    dsimp only at h
    split at h
    · exact ⟨m, h, rfl, Or.inl rfl⟩
    · dsimp only [updateNode] at h
      obtain ⟨m0, hm0, rfl⟩ := List.mem_map.mp h
      by_cases h2 : m0.id = nid
      · refine ⟨m0, hm0, by rw [if_pos h2], ?_⟩
        rw [if_pos h2]
        by_cases hd : depsSatisfied w n = true
        · right; left; simp [hd]
        · right; right; simp [hd]
      · exact ⟨m0, hm0, by rw [if_neg h2], Or.inl (by rw [if_neg h2])⟩

theorem pdfBlock_state (cfg : List TierConfig)
    (wfid seed k K pid b p : Nat) :
    ∀ m ∈ pdfBlock cfg wfid seed k K pid b p,
      m.state = NodeState.WaitingDeps := by
  intro m hm
  simp only [pdfBlock, List.mem_cons, List.mem_flatMap, List.mem_range] at hm
  rcases hm with rfl | rfl | rfl | ⟨q, hq, hmem⟩
  · rfl
  · rfl
  · rfl
  · rcases (by simpa [subPairSpec] using hmem : m = _ ∨ m = _) with rfl | rfl
    · rfl
    · rfl

theorem findNode_expandedAt_old (w : Workflow) (pid k nid : Nat) (n : Node)
    (hids : idsBelow w = true) (hf : findNode w nid = some n) :
    ∃ n', findNode (expandedAt w pid k) nid = some n' ∧
      n'.state = n.state ∧ n'.deps = n.deps := by
  have hmem := mem_of_findNode hf
  have hid := findNode_id hf
  have hlt : nid < w.next_node_id := by
    have := idsBelow_bound hids n hmem
    omega
  have hle := Nat.le_add_right w.next_node_id
    (w.params.pdfs*(3+2*w.params.subqueries_per_iter))
  unfold expandedAt
  dsimp only
  rw [findNode_init_ne _ _ _ (by omega), findNode_init_ne _ _ _ (by omega)]
  unfold findNode
  dsimp only
  rw [find?_map_of_id _ (fun m => (edgeF_fields _ _ m).1)]
  have hf' : w.nodes.find? (fun m => m.id = nid) = some n := hf
  have hfb : (w.nodes.map (extendChildren pid
      (loadIdsOf w.next_node_id w.params.pdfs w.params.subqueries_per_iter)) ++
      (List.range w.params.pdfs).flatMap (fun p =>
        pdfBlock w.provider_config w.id w.params.seed k
          w.params.subqueries_per_iter pid
          (w.next_node_id + p*(3+2*w.params.subqueries_per_iter)) p) ++
      [aggSpec w.provider_config w.id k (w.next_node_id +
        w.params.pdfs*(3+2*w.params.subqueries_per_iter)),
       decSpec w.provider_config w.id k (w.next_node_id +
        w.params.pdfs*(3+2*w.params.subqueries_per_iter) + 1)]).find?
      (fun m => m.id = nid) = some (extendChildren pid
        (loadIdsOf w.next_node_id w.params.pdfs
          w.params.subqueries_per_iter) n) := by
    rw [List.find?_append, List.find?_append]
    rw [find?_map_of_id _ (fun m => (extendChildren_fields _ _ m).1)]
    rw [hf']
    rfl
  by_cases hE : (exIdsOf w.next_node_id w.params.pdfs
      w.params.subqueries_per_iter).isEmpty = true
  · rw [if_pos hE]
    rw [find?_map_of_id _ (fun m => (edgeF_fields _ _ m).1), hfb]
    refine ⟨_, rfl, ?_, ?_⟩
    · rw [(edgeF_fields _ _ _).2.2.1, (edgeF_fields _ _ _).2.2.1,
        (extendChildren_fields _ _ _).2.2.1]
    · rw [edgeF_deps_of_ne _ _ _ (by
        rw [(edgeF_fields _ _ _).1, (extendChildren_fields _ _ _).1]
        omega)]
      rw [edgeF_deps_of_ne _ _ _ (by
        rw [(extendChildren_fields _ _ _).1]
        omega)]
      rw [(extendChildren_fields _ _ _).2.2.2.2.1]
  · rw [if_neg hE]
    rw [find?_map_of_id _ (fun m => (exMapF_fields _ _ m).1), hfb]
    refine ⟨_, rfl, ?_, ?_⟩
    · rw [(edgeF_fields _ _ _).2.2.1, (exMapF_fields _ _ _).2.2.1,
        (extendChildren_fields _ _ _).2.2.1]
    · rw [edgeF_deps_of_ne _ _ _ (by
        rw [(exMapF_fields _ _ _).1, (extendChildren_fields _ _ _).1]
        omega)]
      rw [exMapF_deps_of_ne _ _ _ (by
        rw [(extendChildren_fields _ _ _).1]
        omega)]
      rw [(extendChildren_fields _ _ _).2.2.2.2.1]

theorem expandedAt_new_state (w : Workflow) (pid k : Nat) :
    ∀ m ∈ (expandedAt w pid k).nodes, findNode w m.id = none →
      m.state = NodeState.WaitingDeps ∨ m.state = NodeState.Runnable := by
  intro m hm hnone
  obtain ⟨m1, hm1, hid1, hc1⟩ := mem_init_inv _ _ _ hm
  obtain ⟨m0, hm0, hid0, hc0⟩ := mem_init_inv _ _ _ hm1
  rcases hc1 with rfl | hst | hst
  · rcases hc0 with rfl | hst | hst
    · obtain ⟨e1, he1, rfl⟩ := List.mem_map.mp hm0
      rw [(edgeF_fields _ _ _).1] at hnone
      have hleft : e1.state = NodeState.WaitingDeps →
          (edgeF (w.next_node_id +
            w.params.pdfs*(3+2*w.params.subqueries_per_iter))
            (w.next_node_id +
              w.params.pdfs*(3+2*w.params.subqueries_per_iter) + 1)
            e1).state = NodeState.WaitingDeps ∨
          (edgeF (w.next_node_id +
            w.params.pdfs*(3+2*w.params.subqueries_per_iter))
            (w.next_node_id +
              w.params.pdfs*(3+2*w.params.subqueries_per_iter) + 1)
            e1).state = NodeState.Runnable := by
        intro hw0
        left
        rw [(edgeF_fields _ _ _).2.2.1, hw0]
      by_cases hE : (exIdsOf w.next_node_id w.params.pdfs
          w.params.subqueries_per_iter).isEmpty = true
      · rw [if_pos hE] at he1
        obtain ⟨b0, hb0, rfl⟩ := List.mem_map.mp he1
        rw [(edgeF_fields _ _ _).1] at hnone
        refine hleft ?_
        rw [(edgeF_fields _ _ _).2.2.1]
        rcases List.mem_append.mp hb0 with hb1 | hb2
        · rcases List.mem_append.mp hb1 with hb3 | hb4
          · obtain ⟨m00, hm00, rfl⟩ := List.mem_map.mp hb3
            rw [(extendChildren_fields _ _ _).1] at hnone
            exact absurd hnone (findNode_ne_none_of_mem w m00 hm00)
          · obtain ⟨p, _, hmem⟩ := List.mem_flatMap.mp hb4
            exact pdfBlock_state _ _ _ _ _ _ _ _ b0 hmem
        · rcases List.mem_cons.mp hb2 with rfl | hb5
          · rfl
          · rcases List.mem_cons.mp hb5 with rfl | hb6
            · rfl
            · exact absurd hb6 (List.not_mem_nil _)
      · rw [if_neg hE] at he1
        obtain ⟨b0, hb0, rfl⟩ := List.mem_map.mp he1
        rw [(exMapF_fields _ _ _).1] at hnone
        refine hleft ?_
        rw [(exMapF_fields _ _ _).2.2.1]
        rcases List.mem_append.mp hb0 with hb1 | hb2
        · rcases List.mem_append.mp hb1 with hb3 | hb4
          · obtain ⟨m00, hm00, rfl⟩ := List.mem_map.mp hb3
            rw [(extendChildren_fields _ _ _).1] at hnone
            exact absurd hnone (findNode_ne_none_of_mem w m00 hm00)
          · obtain ⟨p, _, hmem⟩ := List.mem_flatMap.mp hb4
            exact pdfBlock_state _ _ _ _ _ _ _ _ b0 hmem
        · rcases List.mem_cons.mp hb2 with rfl | hb5
          · rfl
          · rcases List.mem_cons.mp hb5 with rfl | hb6
            · rfl
            · exact absurd hb6 (List.not_mem_nil _)
    · exact Or.inr hst
    · exact Or.inl hst
  · exact Or.inr hst
  · exact Or.inl hst

theorem succAt_expandedAt (w : Workflow) (pid k : Nat)
    (hids : idsBelow w = true) (x : Nat) :
    succAt (expandedAt w pid k) x = succAt w x := by
  unfold succAt
  cases hf : findNode w x with
  | some n =>
    obtain ⟨n', hfn', hst, _⟩ := findNode_expandedAt_old w pid k x n hids hf
    rw [hfn']
    show decide (n'.state = _) = decide (n.state = _)
    rw [hst]
  | none =>
    cases hf2 : findNode (expandedAt w pid k) x with
    | none => rfl
    | some m =>
      have hmem := mem_of_findNode hf2
      have hid := findNode_id hf2
      have hstate := expandedAt_new_state w pid k m hmem (by rw [hid]; exact hf)
      show decide (m.state = NodeState.Succeeded) = false
      rcases hstate with h2 | h2 <;> simp [h2]

theorem expand_persist (w : Workflow) (pid : Nat) (hids : idsBelow w = true)
    (x : Nat) (n1 : Node) (hf1 : findNode w x = some n1) :
    ∃ n2, findNode (expandIterationFromPlan w pid) x = some n2 := by
  rcases expand_cases w pid with heq | ⟨plan, hfp, hmax, hany⟩
  · rw [heq]
    exact ⟨n1, hf1⟩
  · rw [expandIterationFromPlan_eq w pid plan hids hfp hmax hany]
    obtain ⟨n', hfn', _, _⟩ :=
      findNode_expandedAt_old w pid plan.iter x n1 hids hf1
    exact ⟨n', hfn'⟩

theorem expand_lift (w : Workflow) (pid : Nat) (hids : idsBelow w = true)
    (x : Nat) (n1 n2 : Node) (old : NodeState)
    (hf1 : findNode w x = some n1)
    (hf2 : findNode (expandIterationFromPlan w pid) x = some n2)
    (h : claimStepOK w old n1 = true) :
    claimStepOK (expandIterationFromPlan w pid) old n2 = true := by
  rcases expand_cases w pid with heq | ⟨plan, hfp, hmax, hany⟩
  · rw [heq] at hf2 ⊢
    rw [hf1] at hf2
    cases hf2
    exact h
  · rw [expandIterationFromPlan_eq w pid plan hids hfp hmax hany] at hf2 ⊢
    obtain ⟨n', hfn', hst, hdeps⟩ :=
      findNode_expandedAt_old w pid plan.iter x n1 hids hf1
    rw [hfn'] at hf2
    cases hf2
    exact claimStepOK_transfer w _ old n1 n2 hst hdeps
      (fun y => succAt_expandedAt w pid plan.iter hids y) h

theorem expand_new (w : Workflow) (pid : Nat) (hids : idsBelow w = true) :
    ∀ m ∈ (expandIterationFromPlan w pid).nodes, findNode w m.id = none →
      m.state = NodeState.WaitingDeps ∨ m.state = NodeState.Runnable := by
  intro m hm hnone
  rcases expand_cases w pid with heq | ⟨plan, hfp, hmax, hany⟩
  · rw [heq] at hm
    exact absurd hnone (findNode_ne_none_of_mem w m hm)
  · rw [expandIterationFromPlan_eq w pid plan hids hfp hmax hany] at hm
    exact expandedAt_new_state w pid plan.iter m hm hnone

theorem idsBelow_expand (w : Workflow) (pid : Nat)
    (hids : idsBelow w = true) :
    idsBelow (expandIterationFromPlan w pid) = true := by
  rcases expand_cases w pid with heq | ⟨plan, hfp, hmax, hany⟩
  · rw [heq]
    exact hids
  · rw [expandIterationFromPlan_eq w pid plan hids hfp hmax hany]
    exact idsBelow_expandedAt w pid plan.iter hids

theorem claimStepOK_old_nonterminal (w : Workflow) (old : NodeState)
    (n : Node) (h : claimStepOK w old n = true)
    (hn : isTerminal n.state = false) : isTerminal old = false := by
  by_cases h0 : old = n.state
  · rw [h0]
    exact hn
  · unfold claimStepOK at h
    rw [if_neg h0] at h
    by_cases hT : isTerminal old = true
    · rw [if_pos hT] at h
      exact absurd h (by simp)
    · exact Bool.eq_false_iff.mpr hT

theorem cancelMap_claimOK (w W2 : Workflow) (k0 : Nat) (old : NodeState)
    (n1 : Node) (hsucc : ∀ y, succAt W2 y = succAt w y)
    (h : claimStepOK w old n1 = true) :
    claimStepOK W2 old
      (if isTerminal n1.state = true then n1
       else if k0 < n1.iter then { n1 with state := NodeState.Cancelled }
       else n1) = true := by
  by_cases h1 : isTerminal n1.state = true
  · rw [if_pos h1]
    exact claimStepOK_transfer w W2 old n1 n1 rfl rfl hsucc h
  · rw [if_neg h1]
    by_cases h2 : k0 < n1.iter
    · rw [if_pos h2]
      have hterm := claimStepOK_old_nonterminal w old n1 h
        (Bool.eq_false_iff.mpr h1)
      unfold claimStepOK
      dsimp only
      by_cases ho : old = NodeState.Cancelled
      · rw [if_pos ho]
      · rw [if_neg ho, if_neg (by simp [hterm])]
    · rw [if_neg h2]
      exact claimStepOK_transfer w W2 old n1 n1 rfl rfl hsucc h

theorem succAt_cancelMap (W : Workflow) (k0 : Nat) (y : Nat) :
    succAt { W with nodes := W.nodes.map (fun n =>
      if isTerminal n.state = true then n
      else if k0 < n.iter then { n with state := NodeState.Cancelled }
      else n) } y = succAt W y := by
  unfold succAt findNode
  dsimp only
  rw [find?_map_of_id _ (fun m => by
    by_cases h1 : isTerminal m.state = true <;>
      by_cases h2 : k0 < m.iter <;> simp [h1, h2])]
  cases h : W.nodes.find? (fun m => m.id = y) with
  | none => rfl
  | some n =>
    dsimp only [Option.map]
    by_cases h1 : isTerminal n.state = true
    · rw [if_pos h1]
    · rw [if_neg h1]
      by_cases h2 : k0 < n.iter
      · rw [if_pos h2]
        have hns : n.state ≠ NodeState.Succeeded := by
          intro hc
          rw [hc] at h1
          exact h1 (by decide)
        show decide (NodeState.Cancelled = NodeState.Succeeded) =
          decide (n.state = NodeState.Succeeded)
        simp [hns]
      · rw [if_neg h2]

theorem findNode_cancelMap (W : Workflow) (k0 : Nat) (y : Nat) :
    findNode { W with nodes := W.nodes.map (fun n =>
      if isTerminal n.state = true then n
      else if k0 < n.iter then { n with state := NodeState.Cancelled }
      else n) } y = (findNode W y).map (fun n =>
      if isTerminal n.state = true then n
      else if k0 < n.iter then { n with state := NodeState.Cancelled }
      else n) := by
  unfold findNode
  dsimp only
  exact find?_map_of_id _ (fun m => by
    by_cases h1 : isTerminal m.state = true <;>
      by_cases h2 : k0 < m.iter <;> simp [h1, h2]) _ _

theorem succAt_pruneAfterStop (W : Workflow) (k0 : Nat) (y : Nat) :
    succAt (pruneAfterStop W k0) y = succAt W y := by
  unfold pruneAfterStop
  rw [succAt_refresh]
  exact succAt_cancelMap W k0 y

theorem findNode_ge_none (w : Workflow) (hids : idsBelow w = true) (y : Nat)
    (hy : w.next_node_id ≤ y) : findNode w y = none := by
  unfold findNode
  rw [List.find?_eq_none]
  intro m hm hc
  have h1 := idsBelow_bound hids m hm
  have h2 := of_decide_eq_true hc
  omega

theorem findNode_addEdge_addNode (w : Workflow) (p' : Node) (a b y : Nat)
    (hp : p'.id ≠ y) :
    findNode (addEdge (addNode { w with
      next_node_id := w.next_node_id + 1 } p') a b) y =
      (findNode w y).map (edgeF a b) := by
  unfold addEdge addNode findNode
  dsimp only
  rw [find?_map_of_id _ (fun m => (edgeF_fields _ _ m).1)]
  rw [List.find?_append]
  have hnil : [p'].find? (fun m => m.id = y) = none := by
    rw [List.find?_eq_none]
    intro x hx
    rcases List.mem_cons.mp hx with rfl | h2
    · intro hc
      exact hp (of_decide_eq_true hc)
    · exact absurd h2 (List.not_mem_nil _)
  rw [hnil]
  cases h : w.nodes.find? (fun m => m.id = y) <;> rfl

theorem idsBelow_addEdge (w : Workflow) (a b : Nat) :
    idsBelow (addEdge w a b) = idsBelow w :=
  idsBelow_mapNodes w (edgeF a b) (fun m => (edgeF_fields _ _ m).1)

theorem succAt_contTerm (w : Workflow) (nid2 it : Nat)
    (hids : idsBelow w = true) (y : Nat) :
    succAt (initializeStateFromDeps (addEdge (addNode { w with
        next_node_id := w.next_node_id + 1 }
      (populatePrefList w.provider_config
        { id := w.next_node_id, workflow_id := w.id, ntype := NodeType.Plan
          resource_class := ResourceClass.llm, idempotent := true
          iter := it + 1
          output_size_est := 220 + 15 * w.params.subqueries_per_iter +
            4 * w.params.pdfs }))
      nid2 w.next_node_id) w.next_node_id) y = succAt w y := by
  by_cases hy : y = w.next_node_id
  · subst hy
    have hR : succAt w w.next_node_id = false := by
      unfold succAt
      rw [findNode_ge_none w hids _ (Nat.le_refl _)]
    rw [hR]
    unfold succAt
    split
    · rename_i m hfi
      have hmem := mem_of_findNode hfi
      have hidm := findNode_id hfi
      obtain ⟨m1, hm1, hid1, hc1⟩ := mem_init_inv _ _ _ hmem
      rcases hc1 with rfl | hst | hst
      · obtain ⟨e, he, rfl⟩ := List.mem_map.mp hm1
        rcases List.mem_append.mp he with he1 | he2
        · rw [(edgeF_fields _ _ _).1] at hidm
          have := idsBelow_bound hids e he1
          omega
        · rcases List.mem_cons.mp he2 with rfl | he3
          · rw [show (edgeF nid2 w.next_node_id
              (populatePrefList w.provider_config
                { id := w.next_node_id, workflow_id := w.id
                  ntype := NodeType.Plan
                  resource_class := ResourceClass.llm
                  idempotent := true, iter := it + 1
                  output_size_est := 220 +
                    15 * w.params.subqueries_per_iter +
                    4 * w.params.pdfs })).state =
              NodeState.WaitingDeps from
              (edgeF_fields _ _ _).2.2.1]
            rfl
          · exact absurd he3 (List.not_mem_nil _)
      · rw [hst]
        rfl
      · rw [hst]
        rfl
    · rfl
  · unfold succAt
    rw [findNode_init_ne _ _ _ hy]
    rw [findNode_addEdge_addNode w _ nid2 w.next_node_id y
      (fun hc => hy (by
        rw [← hc]
        exact ((populatePrefList_eq _ _).symm ▸ rfl)))]
    cases h : findNode w y with
    | none => rfl
    | some n =>
      dsimp only [Option.map]
      show decide ((edgeF nid2 w.next_node_id n).state = _) =
        decide (n.state = _)
      rw [(edgeF_fields _ _ _).2.2.1]

theorem findNode_contTerm_old (w : Workflow) (nid2 it y : Nat)
    (hy : y ≠ w.next_node_id) :
    findNode (initializeStateFromDeps (addEdge (addNode { w with
        next_node_id := w.next_node_id + 1 }
      (populatePrefList w.provider_config
        { id := w.next_node_id, workflow_id := w.id, ntype := NodeType.Plan
          resource_class := ResourceClass.llm, idempotent := true
          iter := it + 1
          output_size_est := 220 + 15 * w.params.subqueries_per_iter +
            4 * w.params.pdfs }))
      nid2 w.next_node_id) w.next_node_id) y =
      (findNode w y).map (edgeF nid2 w.next_node_id) := by
  rw [findNode_init_ne _ _ _ hy]
  exact findNode_addEdge_addNode w _ nid2 w.next_node_id y
    (fun hc => hy (by
      rw [← hc]
      exact ((populatePrefList_eq _ _).symm ▸ rfl)))

theorem mem_contTerm_new (w : Workflow) (nid2 it : Nat)
    (hids : idsBelow w = true) :
    ∀ m ∈ (initializeStateFromDeps (addEdge (addNode { w with
        next_node_id := w.next_node_id + 1 }
      (populatePrefList w.provider_config
        { id := w.next_node_id, workflow_id := w.id, ntype := NodeType.Plan
          resource_class := ResourceClass.llm, idempotent := true
          iter := it + 1
          output_size_est := 220 + 15 * w.params.subqueries_per_iter +
            4 * w.params.pdfs }))
      nid2 w.next_node_id) w.next_node_id).nodes,
      findNode w m.id = none →
      m.state = NodeState.WaitingDeps ∨ m.state = NodeState.Runnable := by
  intro m hm hnone
  obtain ⟨m1, hm1, hid1, hc1⟩ := mem_init_inv _ _ _ hm
  rcases hc1 with rfl | hst | hst
  · obtain ⟨e, he, rfl⟩ := List.mem_map.mp hm1
    rcases List.mem_append.mp he with he1 | he2
    · rw [(edgeF_fields _ _ _).1] at hnone
      exact absurd hnone (findNode_ne_none_of_mem w e he1)
    · rcases List.mem_cons.mp he2 with rfl | he3
      · left
        rw [show (edgeF nid2 w.next_node_id
            (populatePrefList w.provider_config
              { id := w.next_node_id, workflow_id := w.id
                ntype := NodeType.Plan
                resource_class := ResourceClass.llm
                idempotent := true, iter := it + 1
                output_size_est := 220 +
                  15 * w.params.subqueries_per_iter +
                  4 * w.params.pdfs })).state =
            NodeState.WaitingDeps from (edgeF_fields _ _ _).2.2.1]
      · exact absurd he3 (List.not_mem_nil _)
  · exact Or.inr hst
  · exact Or.inl hst

theorem succAt_ondn (w : Workflow) (nid2 : Nat) (hids : idsBelow w = true)
    (y : Nat) : succAt (onDecideNext w nid2) y = succAt w y := by
  unfold onDecideNext
  cases hf : findNode w nid2 with
  | none => rfl
  | some dn =>
    dsimp only
    cases hc : computeDecideAction w dn.iter with
    | Stop =>
      rw [succAt_pruneAfterStop]
      rfl
    | Continue =>
      dsimp only [newNodeId]
      exact succAt_contTerm w nid2 dn.iter hids y

theorem findNode_pruneAfterStop (W : Workflow) (k0 y : Nat) :
    findNode (pruneAfterStop W k0) y = (findNode W y).map (fun n =>
      refreshNode { W with nodes := W.nodes.map (fun n2 =>
          if isTerminal n2.state = true then n2
          else if k0 < n2.iter then { n2 with state := NodeState.Cancelled }
          else n2) }
        (if isTerminal n.state = true then n
         else if k0 < n.iter then { n with state := NodeState.Cancelled }
         else n)) := by
  unfold pruneAfterStop
  rw [findNode_refresh, findNode_cancelMap]
  cases h : findNode W y <;> rfl

theorem ondn_persist (w : Workflow) (nid2 : Nat) (hids : idsBelow w = true)
    (x : Nat) (n1 : Node) (hf1 : findNode w x = some n1) :
    ∃ n2, findNode (onDecideNext w nid2) x = some n2 := by
  unfold onDecideNext
  cases hf : findNode w nid2 with
  | none => exact ⟨n1, hf1⟩
  | some dn =>
    dsimp only
    cases hc : computeDecideAction w dn.iter with
    | Stop =>
      rw [findNode_pruneAfterStop]
      rw [show findNode { w with done := true, stop_iter := some dn.iter } x
        = some n1 from hf1]
      exact ⟨_, rfl⟩
    | Continue =>
      dsimp only [newNodeId]
      have hxlt : x < w.next_node_id := by
        have h1 := idsBelow_bound hids n1 (mem_of_findNode hf1)
        rw [findNode_id hf1] at h1
        exact h1
      have h2 := findNode_contTerm_old w nid2 dn.iter x (by omega)
      rw [hf1] at h2
      exact ⟨edgeF nid2 w.next_node_id n1, h2.trans rfl⟩

theorem ondn_lift (w : Workflow) (nid2 : Nat) (hids : idsBelow w = true)
    (x : Nat) (n1 n2 : Node) (old : NodeState)
    (hf1 : findNode w x = some n1)
    (hf2 : findNode (onDecideNext w nid2) x = some n2)
    (h : claimStepOK w old n1 = true) :
    claimStepOK (onDecideNext w nid2) old n2 = true := by
  unfold onDecideNext at hf2 ⊢
  revert hf2
  cases hf : findNode w nid2 with
  | none =>
    intro hf2
    rw [hf1] at hf2
    cases hf2
    exact h
  | some dn =>
    dsimp only
    cases hc : computeDecideAction w dn.iter with
    | Stop =>
      intro hf2
      rw [findNode_pruneAfterStop] at hf2
      rw [show findNode { w with done := true, stop_iter := some dn.iter } x
        = some n1 from hf1] at hf2
      dsimp only [Option.map] at hf2
      cases hf2
      refine claimStepOK_refresh _ old _
        (cancelMap_claimOK w _ dn.iter old n1 (fun y =>
          (succAt_cancelMap
            { w with done := true, stop_iter := some dn.iter }
            dn.iter y).trans rfl) h)
    | Continue =>
      dsimp only [newNodeId]
      intro hf2
      have hxlt : x < w.next_node_id := by
        have h1 := idsBelow_bound hids n1 (mem_of_findNode hf1)
        rw [findNode_id hf1] at h1
        exact h1
      have h2 := findNode_contTerm_old w nid2 dn.iter x (by omega)
      rw [hf1] at h2
      have h5 : some n2 = some (edgeF nid2 w.next_node_id n1) :=
        hf2.symm.trans (h2.trans rfl)
      injection h5 with h6
      subst h6
      refine claimStepOK_transfer w _ old n1 (edgeF nid2 w.next_node_id n1)
        ((edgeF_fields _ _ _).2.2.1)
        (edgeF_deps_of_ne _ _ _ (by rw [findNode_id hf1]; omega))
        (fun y => succAt_contTerm w nid2 dn.iter hids y) h

theorem ondn_new (w : Workflow) (nid2 : Nat) (hids : idsBelow w = true) :
    ∀ m ∈ (onDecideNext w nid2).nodes, findNode w m.id = none →
      m.state = NodeState.WaitingDeps ∨ m.state = NodeState.Runnable := by
  intro m hm hnone
  unfold onDecideNext at hm
  revert hm
  cases hf : findNode w nid2 with
  | none =>
    intro hm
    exact absurd hnone (findNode_ne_none_of_mem w m hm)
  | some dn =>
    dsimp only
    cases hc : computeDecideAction w dn.iter with
    | Stop =>
      intro hm
      unfold pruneAfterStop refreshRunnable at hm
      dsimp only at hm
      rw [List.map_map] at hm
      obtain ⟨m0, hm0, rfl⟩ := List.mem_map.mp hm
      simp only [Function.comp_apply, refreshNode_id] at hnone
      have hidm : (if isTerminal m0.state = true then m0
          else if dn.iter < m0.iter then
            { m0 with state := NodeState.Cancelled }
          else m0).id = m0.id := by
        by_cases h1 : isTerminal m0.state = true <;>
          by_cases h2 : dn.iter < m0.iter <;> simp [h1, h2]
      rw [hidm] at hnone
      exact absurd hnone (findNode_ne_none_of_mem w m0 hm0)
    | Continue =>
      dsimp only [newNodeId]
      intro hm
      exact mem_contTerm_new w nid2 dn.iter hids m hm hnone

theorem idsBelow_ondn (w : Workflow) (nid2 : Nat)
    (hids : idsBelow w = true) : idsBelow (onDecideNext w nid2) = true := by
  unfold onDecideNext
  cases hf : findNode w nid2 with
  | none => exact hids
  | some dn =>
    dsimp only
    cases hc : computeDecideAction w dn.iter with
    | Stop =>
      unfold pruneAfterStop
      rw [idsBelow_refresh]
      exact Eq.trans (idsBelow_mapNodes
        { w with done := true, stop_iter := some dn.iter } _
        (fun n => by
          by_cases h1 : isTerminal n.state = true <;>
            by_cases h3 : dn.iter < n.iter <;> simp [h1, h3])) hids
    | Continue =>
      dsimp only [newNodeId]
      rw [idsBelow_init, idsBelow_addEdge]
      unfold idsBelow addNode
      dsimp only
      rw [List.all_append, Bool.and_eq_true]
      refine ⟨?_, ?_⟩
      · refine List.all_eq_true.mpr ?_
        intro n hn
        have := idsBelow_bound hids n hn
        exact decide_eq_true (by omega)
      · refine List.all_eq_true.mpr ?_
        intro n hn
        rcases List.mem_cons.mp hn with rfl | h3
        · exact decide_eq_true (Nat.lt_succ_self w.next_node_id)
        · exact absurd h3 (List.not_mem_nil _)

theorem claimStepOK_self (w' : Workflow) (n : Node) :
    claimStepOK w' n.state n = true := by
  unfold claimStepOK
  rw [if_pos rfl]

theorem setState_persist (w : Workflow) (nid : Nat) (next : NodeState)
    (w' : Workflow) (h : setState w nid next = Except.ok w') (x : Nat)
    (old : Node) (hfo : findNode w x = some old) :
    ∃ n', findNode w' x = some n' := by
  obtain ⟨n, hfn, hcase⟩ := setState_cases w nid next w' h
  rcases hcase with ⟨_, rfl⟩ | ⟨_, _, _, rfl⟩
  · exact ⟨old, hfo⟩
  · rw [findNode_updateNode w nid (fun m => { m with state := next })
      (fun m => rfl) x, hfo]
    exact ⟨_, rfl⟩

theorem setState_no_new (w : Workflow) (nid : Nat) (next : NodeState)
    (w' : Workflow) (h : setState w nid next = Except.ok w')
    {C : Node → Prop} :
    ∀ n' ∈ w'.nodes, findNode w n'.id = none → C n' := by
  obtain ⟨n, hfn, hcase⟩ := setState_cases w nid next w' h
  rcases hcase with ⟨_, rfl⟩ | ⟨_, _, _, rfl⟩
  · intro n' hn' hnone
    exact absurd hnone (findNode_ne_none_of_mem _ n' hn')
  · exact no_new_of_map w _ _
      (fun m => by by_cases h2 : m.id = nid <;> simp [h2]) rfl

theorem setState_lookup (w : Workflow) (nid : Nat) (st : NodeState)
    (w1 : Workflow) (h : setState w nid st = Except.ok w1) (x : Nat)
    (old : Node) (hfo : findNode w x = some old) :
    ∃ n1, findNode w1 x = some n1 ∧ n1.iter = old.iter ∧
      n1.ntype = old.ntype ∧ (x = nid ∨ n1 = old) := by
  obtain ⟨n, hfn, hcase⟩ := setState_cases w nid st w1 h
  rcases hcase with ⟨_, rfl⟩ | ⟨_, _, _, rfl⟩
  · exact ⟨old, hfo, rfl, rfl, Or.inr rfl⟩
  · rw [findNode_updateNode w nid (fun m => { m with state := st })
      (fun m => rfl) x, hfo]
    dsimp only [Option.map]
    by_cases hx : old.id = nid
    · refine ⟨_, rfl, ?_, ?_, ?_⟩
      · rw [if_pos hx]
      · rw [if_pos hx]
      · left
        rw [← findNode_id hfo]
        exact hx
    · refine ⟨_, rfl, ?_, ?_, ?_⟩
      · rw [if_neg hx]
      · rw [if_neg hx]
      · right
        rw [if_neg hx]

theorem refresh_persist (w2 : Workflow) (x : Nat) (n : Node)
    (hf : findNode w2 x = some n) :
    findNode (refreshRunnable w2) x = some (refreshNode w2 n) := by
  rw [findNode_refresh, hf]
  rfl

theorem refreshNode_terminal (w : Workflow) (n : Node)
    (h : isTerminal n.state = true) : refreshNode w n = n := by
  unfold refreshNode
  rw [if_pos (Or.inl h)]

theorem mem_refresh_exists (w2 : Workflow) (m : Node) (hm : m ∈ w2.nodes) :
    ∃ st, { m with state := st } ∈ (refreshRunnable w2).nodes := by
  unfold refreshRunnable
  dsimp only
  by_cases h1 : isTerminal m.state = true ∨ m.state = NodeState.Queued ∨
      m.state = NodeState.Running
  · exact ⟨m.state, List.mem_map.mpr ⟨m, hm, by
      unfold refreshNode
      rw [if_pos h1]⟩⟩
  · by_cases h2 : depsSatisfied w2 m = true
    · exact ⟨NodeState.Runnable, List.mem_map.mpr ⟨m, hm, by
        unfold refreshNode
        rw [if_neg h1, if_pos h2]⟩⟩
    · exact ⟨NodeState.WaitingDeps, List.mem_map.mpr ⟨m, hm, by
        unfold refreshNode
        rw [if_neg h1, if_neg h2]⟩⟩

theorem refresh_new (w w2 : Workflow)
    (hnew : ∀ m ∈ w2.nodes, findNode w m.id = none →
      m.state = NodeState.WaitingDeps ∨ m.state = NodeState.Runnable) :
    ∀ n' ∈ (refreshRunnable w2).nodes, findNode w n'.id = none →
      n'.state = NodeState.WaitingDeps ∨
        (n'.state = NodeState.Runnable ∧
          depsSatisfied (refreshRunnable w2) n' = true) := by
  intro n' hn' hnone
  unfold refreshRunnable at hn'
  dsimp only at hn'
  obtain ⟨m, hm, rfl⟩ := List.mem_map.mp hn'
  rw [refreshNode_id] at hnone
  have hms := hnew m hm hnone
  unfold refreshNode
  have hcond : ¬ (isTerminal m.state = true ∨ m.state = NodeState.Queued ∨
      m.state = NodeState.Running) := by
    rcases hms with h1 | h1 <;> simp [h1, isTerminal]
  rw [if_neg hcond]
  by_cases hd : depsSatisfied w2 m = true
  · rw [if_pos hd]
    right
    refine ⟨rfl, ?_⟩
    rw [depsSatisfied_congr w2 (refreshRunnable w2) m
      { m with state := NodeState.Runnable } rfl
      (fun d => succAt_refresh w2 d)]
    exact hd
  · rw [if_neg hd]
    left
    rfl

theorem typeCount_addEdge (w : Workflow) (a b : Nat) (t : NodeType)
    (k : Nat) : typeCount (addEdge w a b) t k = typeCount w t k :=
  typeCount_mapNodes w (edgeF a b) (fun m => (edgeF_fields a b m).2.1)
    (fun m => (edgeF_fields a b m).2.2.2.1) t k

theorem typeCount_addNode_hit (w : Workflow) (p : Node) (t : NodeType)
    (k : Nat) (hp : typeIterP t k p = true) :
    typeCount (addNode w p) t k = typeCount w t k + 1 := by
  unfold typeCount addNode
  dsimp only
  rw [List.countP_append, List.countP_cons, List.countP_nil, hp]
  simp

theorem typeCount_setState (w : Workflow) (nid : Nat) (st : NodeState)
    (w1 : Workflow) (h : setState w nid st = Except.ok w1) (t : NodeType)
    (k : Nat) : typeCount w1 t k = typeCount w t k := by
  obtain ⟨n, hfn, hcase⟩ := setState_cases w nid st w1 h
  rcases hcase with ⟨_, rfl⟩ | ⟨_, _, _, rfl⟩
  · rfl
  · exact typeCount_mapNodes w _
      (fun m => by by_cases h2 : m.id = nid <;> simp [h2])
      (fun m => by by_cases h2 : m.id = nid <;> simp [h2]) t k

theorem filter_map_comm {α : Type} (f : α → α) (p : α → Bool)
    (hp : ∀ m, p (f m) = p m) (l : List α) :
    (l.map f).filter p = (l.filter p).map f := by
  induction l with
  | nil => rfl
  | cons a l ih =>
    simp only [List.map_cons, List.filter_cons, hp]
    by_cases h : p a = true <;> simp [h, ih]

theorem iterEvidenceTotal_mapNodes (w : Workflow) (f : Node → Node)
    (hf : ∀ m, (f m).iter = m.iter ∧ (f m).ntype = m.ntype ∧
      (f m).pdf_idx = m.pdf_idx ∧
      (f m).evidence_count_est = m.evidence_count_est) (it : Nat) :
    iterEvidenceTotal { w with nodes := w.nodes.map f } it =
      iterEvidenceTotal w it := by
  unfold iterEvidenceTotal
  dsimp only
  rw [filter_map_comm f _ (fun m => by rw [(hf m).1, (hf m).2.1]),
    List.map_map]
  exact congrArg List.sum (List.map_congr_left
    (fun m _ => (hf m).2.2.2))

theorem iterPdfCoverageCount_mapNodes (w : Workflow) (f : Node → Node)
    (hf : ∀ m, (f m).iter = m.iter ∧ (f m).ntype = m.ntype ∧
      (f m).pdf_idx = m.pdf_idx ∧
      (f m).evidence_count_est = m.evidence_count_est) (it : Nat) :
    iterPdfCoverageCount { w with nodes := w.nodes.map f } it =
      iterPdfCoverageCount w it := by
  unfold iterPdfCoverageCount
  dsimp only
  rw [filter_map_comm f _ (fun m => by
      rw [(hf m).1, (hf m).2.1, (hf m).2.2.2]),
    List.map_map]
  exact congrArg (fun l => l.dedup.length)
    (List.map_congr_left (fun m _ => (hf m).2.2.1))

theorem computeDecideAction_congr (w w2 : Workflow) (it : Nat)
    (hp : w2.params = w.params) (hid : w2.id = w.id)
    (he : iterEvidenceTotal w2 it = iterEvidenceTotal w it)
    (hc : iterPdfCoverageCount w2 it = iterPdfCoverageCount w it) :
    computeDecideAction w2 it = computeDecideAction w it := by
  unfold computeDecideAction
  rw [hp, hid, he, hc]

theorem computeDecideAction_setState (w : Workflow) (nid : Nat)
    (st : NodeState) (w1 : Workflow) (h : setState w nid st = Except.ok w1)
    (it : Nat) : computeDecideAction w1 it = computeDecideAction w it := by
  obtain ⟨n, hfn, hcase⟩ := setState_cases w nid st w1 h
  rcases hcase with ⟨_, rfl⟩ | ⟨_, _, _, rfl⟩
  · rfl
  · exact computeDecideAction_congr w _ it rfl rfl
      (iterEvidenceTotal_mapNodes w _
        (fun m => by by_cases h2 : m.id = nid <;> simp [h2]) it)
      (iterPdfCoverageCount_mapNodes w _
        (fun m => by by_cases h2 : m.id = nid <;> simp [h2]) it)

theorem idsBelow_step (mu : Mutator) (w w' : Workflow)
    (hids : idsBelow w = true) (h : applyMutator mu w = Except.ok w') :
    idsBelow w' = true := by
  cases mu with
  | mQueued nid => exact idsBelow_setState w nid _ w' h hids
  | mRunning nid => exact idsBelow_setState w nid _ w' h hids
  | mSucceeded nid =>
    unfold applyMutator markSucceeded at h
    dsimp only at h
    cases hf : findNode w nid with
    | none => rw [hf] at h; cases h
    | some n =>
      rw [hf] at h
      dsimp only at h
      cases hset : setState w nid NodeState.Succeeded with
      | error e => rw [hset] at h; cases h
      | ok w1 =>
        rw [hset] at h
        have hids1 : idsBelow w1 = true :=
          idsBelow_setState w nid _ w1 hset hids
        cases h
        rw [idsBelow_refresh]
        by_cases hp : n.ntype = NodeType.Plan
        · rw [if_pos hp]
          exact idsBelow_expand w1 nid hids1
        · rw [if_neg hp]
          by_cases hd : n.ntype = NodeType.DecideNext
          · rw [if_pos hd]
            exact idsBelow_ondn w1 nid hids1
          · rw [if_neg hd]
            exact hids1
  | mFailed nid =>
    unfold applyMutator markFailed at h
    dsimp only at h
    cases hset : setState w nid NodeState.Failed with
    | error e => rw [hset] at h; cases h
    | ok w1 =>
      rw [hset] at h
      cases h
      rw [idsBelow_refresh]
      exact idsBelow_setState w nid _ w1 hset hids
  | mCancel nid =>
    unfold applyMutator cancel at h
    dsimp only at h
    cases hf : findNode w nid with
    | none => rw [hf] at h; cases h
    | some n =>
      rw [hf] at h
      dsimp only at h
      by_cases ht : isTerminal n.state = true
      · rw [if_pos ht] at h
        cases h
        exact hids
      · rw [if_neg ht] at h
        cases h
        rw [idsBelow_refresh]
        exact Eq.trans (idsBelow_mapNodes w _ (fun m => by
          by_cases h2 : m.id = nid <;> simp [h2])) hids
  | mRefresh =>
    cases h
    rw [idsBelow_refresh]
    exact hids
  | mPrune k =>
    cases h
    unfold pruneAfterStop
    rw [idsBelow_refresh]
    exact Eq.trans (idsBelow_mapNodes w _ (fun m => by
      by_cases h1 : isTerminal m.state = true <;>
        by_cases h2 : k < m.iter <;> simp [h1, h2])) hids

/-- The two observations of one mutator step that the state-machine
claim is about: every pre-existing node maps to a post-state node whose
transition `claimStepOK` allows, and every freshly created node starts
in `WaitingDeps`, or in `Runnable` with all parents `Succeeded`. -/
theorem step_effects (mu : Mutator) (w w' : Workflow)
    (hids : idsBelow w = true) (h : applyMutator mu w = Except.ok w') :
    (∀ x old, findNode w x = some old →
      ∃ n', findNode w' x = some n' ∧ claimStepOK w' old.state n' = true) ∧
    (∀ n' ∈ w'.nodes, findNode w n'.id = none →
      n'.state = NodeState.WaitingDeps ∨
        (n'.state = NodeState.Runnable ∧ depsSatisfied w' n' = true)) := by
  cases mu with
  | mQueued nid =>
    refine ⟨?_, ?_⟩
    · intro x old hfo
      obtain ⟨n', hfn⟩ := setState_persist w nid _ w' h x old hfo
      exact ⟨n', hfn, setState_claimOK w nid _ w' h (Or.inl rfl)
        x old n' hfo hfn⟩
    · exact setState_no_new w nid _ w' h
  | mRunning nid =>
    refine ⟨?_, ?_⟩
    · intro x old hfo
      obtain ⟨n', hfn⟩ := setState_persist w nid _ w' h x old hfo
      exact ⟨n', hfn, setState_claimOK w nid _ w' h (Or.inr (Or.inl rfl))
        x old n' hfo hfn⟩
    · exact setState_no_new w nid _ w' h
  | mSucceeded nid =>
    unfold applyMutator markSucceeded at h
    dsimp only at h
    cases hf : findNode w nid with
    | none => rw [hf] at h; cases h
    | some n =>
      rw [hf] at h
      dsimp only at h
      cases hset : setState w nid NodeState.Succeeded with
      | error e => rw [hset] at h; cases h
      | ok w1 =>
        rw [hset] at h
        have hids1 : idsBelow w1 = true :=
          idsBelow_setState w nid _ w1 hset hids
        cases h
        by_cases hp : n.ntype = NodeType.Plan
        · rw [if_pos hp]
          refine ⟨?_, ?_⟩
          · intro x old hfo
            obtain ⟨n1, hf1⟩ := setState_persist w nid _ w1 hset x old hfo
            have hc1 : claimStepOK w1 old.state n1 = true :=
              setState_claimOK w nid _ w1 hset
                (Or.inr (Or.inr (Or.inl rfl))) x old n1 hfo hf1
            obtain ⟨n2, hf2⟩ := expand_persist w1 nid hids1 x n1 hf1
            exact ⟨refreshNode _ n2, refresh_persist _ x n2 hf2,
              claimStepOK_refresh _ old.state n2
                (expand_lift w1 nid hids1 x n1 n2 old.state hf1 hf2 hc1)⟩
          · exact refresh_new w _ (fun m hm hnone =>
              expand_new w1 nid hids1 m hm
                (findNode_setState_none w nid _ w1 hset m.id hnone))
        · rw [if_neg hp]
          by_cases hd : n.ntype = NodeType.DecideNext
          · rw [if_pos hd]
            refine ⟨?_, ?_⟩
            · intro x old hfo
              obtain ⟨n1, hf1⟩ := setState_persist w nid _ w1 hset x old hfo
              have hc1 : claimStepOK w1 old.state n1 = true :=
                setState_claimOK w nid _ w1 hset
                  (Or.inr (Or.inr (Or.inl rfl))) x old n1 hfo hf1
              obtain ⟨n2, hf2⟩ := ondn_persist w1 nid hids1 x n1 hf1
              exact ⟨refreshNode (onDecideNext w1 nid) n2,
                refresh_persist _ x n2 hf2,
                claimStepOK_refresh (onDecideNext w1 nid) old.state n2
                  (ondn_lift w1 nid hids1 x n1 n2 old.state hf1 hf2 hc1)⟩
            · exact refresh_new w _ (fun m hm hnone =>
                ondn_new w1 nid hids1 m hm
                  (findNode_setState_none w nid _ w1 hset m.id hnone))
          · rw [if_neg hd]
            refine ⟨?_, ?_⟩
            · intro x old hfo
              obtain ⟨n1, hf1⟩ := setState_persist w nid _ w1 hset x old hfo
              have hc1 : claimStepOK w1 old.state n1 = true :=
                setState_claimOK w nid _ w1 hset
                  (Or.inr (Or.inr (Or.inl rfl))) x old n1 hfo hf1
              exact ⟨refreshNode w1 n1, refresh_persist w1 x n1 hf1,
                claimStepOK_refresh w1 old.state n1 hc1⟩
            · exact refresh_new w w1
                (setState_no_new w nid _ w1 hset)
  | mFailed nid =>
    unfold applyMutator markFailed at h
    dsimp only at h
    cases hset : setState w nid NodeState.Failed with
    | error e => rw [hset] at h; cases h
    | ok w1 =>
      rw [hset] at h
      cases h
      refine ⟨?_, ?_⟩
      · intro x old hfo
        obtain ⟨n1, hf1⟩ := setState_persist w nid _ w1 hset x old hfo
        have hc1 : claimStepOK w1 old.state n1 = true :=
          setState_claimOK w nid _ w1 hset
            (Or.inr (Or.inr (Or.inr rfl))) x old n1 hfo hf1
        exact ⟨refreshNode w1 n1, refresh_persist w1 x n1 hf1,
          claimStepOK_refresh w1 old.state n1 hc1⟩
      · exact refresh_new w w1 (setState_no_new w nid _ w1 hset)
  | mCancel nid =>
    unfold applyMutator cancel at h
    dsimp only at h
    cases hf : findNode w nid with
    | none => rw [hf] at h; cases h
    | some n =>
      rw [hf] at h
      dsimp only at h
      by_cases ht : isTerminal n.state = true
      · rw [if_pos ht] at h
        cases h
        refine ⟨?_, ?_⟩
        · intro x old hfo
          exact ⟨old, hfo, claimStepOK_self w old⟩
        · intro n' hn' hnone
          exact absurd hnone (findNode_ne_none_of_mem w n' hn')
      · rw [if_neg ht] at h
        cases h
        refine ⟨?_, ?_⟩
        · intro x old hfo
          have hf1 : findNode (updateNode w nid
              (fun m => { m with state := NodeState.Cancelled })) x =
              some (if old.id = nid then
                { old with state := NodeState.Cancelled } else old) := by
            rw [findNode_updateNode w nid
              (fun m => { m with state := NodeState.Cancelled })
              (fun m => rfl) x, hfo]
            rfl
          have hc1 : claimStepOK (updateNode w nid
              (fun m => { m with state := NodeState.Cancelled })) old.state
              (if old.id = nid then
                { old with state := NodeState.Cancelled } else old) = true := by
            by_cases hx : old.id = nid
            · rw [if_pos hx]
              have hxn : x = nid := by rw [← findNode_id hfo, hx]
              subst hxn
              have hon : old = n := Option.some.inj (hfo.symm.trans hf)
              unfold claimStepOK
              dsimp only
              by_cases ho : old.state = NodeState.Cancelled
              · rw [if_pos ho]
              · rw [if_neg ho, if_neg (fun hc => ht (hon ▸ hc))]
            · rw [if_neg hx]
              exact claimStepOK_self _ old
          exact ⟨refreshNode _ _, refresh_persist _ x _ hf1,
            claimStepOK_refresh _ old.state _ hc1⟩
        · exact refresh_new w _ (no_new_of_map w _
            (fun m => if m.id = nid then
              { m with state := NodeState.Cancelled } else m)
            (fun m => by by_cases h2 : m.id = nid <;> simp [h2]) rfl)
  | mRefresh =>
    cases h
    refine ⟨?_, ?_⟩
    · intro x old hfo
      exact ⟨refreshNode w old, refresh_persist w x old hfo,
        claimStepOK_refresh w old.state old (claimStepOK_self w old)⟩
    · exact refresh_new w w (fun m hm hnone =>
        absurd hnone (findNode_ne_none_of_mem w m hm))
  | mPrune k =>
    cases h
    refine ⟨?_, ?_⟩
    · intro x old hfo
      have hf1 := findNode_pruneAfterStop w k x
      rw [hfo] at hf1
      refine ⟨_, hf1, ?_⟩
      refine claimStepOK_refresh _ old.state _
        (cancelMap_claimOK w _ k old.state old
          (fun y => succAt_cancelMap w k y) (claimStepOK_self w old))
    · exact refresh_new w _ (no_new_of_map w _
        (fun m => if isTerminal m.state = true then m
          else if k < m.iter then { m with state := NodeState.Cancelled }
          else m)
        (fun m => by
          by_cases h1 : isTerminal m.state = true <;>
            by_cases h2 : k < m.iter <;> simp [h1, h2]) rfl)

theorem terminal_absorbing (mu : Mutator) (v v' : Workflow)
    (hids : idsBelow v = true) (h : applyMutator mu v = Except.ok v')
    (x : Nat) (m : Node) (hf : findNode v x = some m)
    (ht : isTerminal m.state = true) :
    ∃ m', findNode v' x = some m' ∧ m'.state = m.state := by
  obtain ⟨conj1, _⟩ := step_effects mu v v' hids h
  obtain ⟨n', hfn', hok⟩ := conj1 x m hf
  exact ⟨n', hfn', claimStepOK_terminal v' m.state n' ht hok⟩

theorem ondn_stop_done (w1 : Workflow) (nid : Nat) (dn1 : Node)
    (hms : findNode w1 nid = some dn1)
    (hcda : computeDecideAction w1 dn1.iter = DecideAction.Stop) :
    (onDecideNext w1 nid).done = true ∧
      (onDecideNext w1 nid).stop_iter = some dn1.iter := by
  unfold onDecideNext
  rw [hms]
  dsimp only
  rw [hcda]
  exact ⟨rfl, rfl⟩

theorem ondn_stop_cancel (w1 : Workflow) (nid : Nat) (dn1 : Node)
    (hms : findNode w1 nid = some dn1)
    (hcda : computeDecideAction w1 dn1.iter = DecideAction.Stop)
    (x : Nat) (m : Node) (hfx : findNode w1 x = some m)
    (hterm : isTerminal m.state = false) (hlt : dn1.iter < m.iter) :
    findNode (onDecideNext w1 nid) x =
      some { m with state := NodeState.Cancelled } := by
  unfold onDecideNext
  rw [hms]
  dsimp only
  rw [hcda]
  dsimp only
  rw [findNode_pruneAfterStop]
  rw [show findNode { w1 with done := true, stop_iter := some dn1.iter } x
    = some m from hfx]
  dsimp only [Option.map]
  rw [if_neg (by rw [hterm]; exact Bool.false_ne_true), if_pos hlt]
  rw [refreshNode_terminal _ _ (by rfl)]

theorem ondn_continue_typeCount (w1 : Workflow) (nid : Nat) (dn1 : Node)
    (hms : findNode w1 nid = some dn1)
    (hcda : computeDecideAction w1 dn1.iter = DecideAction.Continue) :
    typeCount (onDecideNext w1 nid) NodeType.Plan (dn1.iter + 1) =
      typeCount w1 NodeType.Plan (dn1.iter + 1) + 1 := by
  unfold onDecideNext
  rw [hms]
  dsimp only
  rw [hcda]
  dsimp only [newNodeId]
  rw [typeCount_init, typeCount_addEdge,
    typeCount_addNode_hit _ _ NodeType.Plan (dn1.iter + 1)
      (by exact decide_eq_true ⟨rfl, rfl⟩)]
  rfl

theorem contTerm_plan_mem (w : Workflow) (nid2 it : Nat)
    (hnid : nid2 ≠ w.next_node_id) :
    ∃ st,
      ({ id := w.next_node_id, workflow_id := w.id, ntype := NodeType.Plan,
         resource_class := ResourceClass.llm, idempotent := true,
         state := st, iter := it + 1, deps := [nid2],
         preference_list := prefFor w.provider_config ResourceClass.llm,
         output_size_est := 220 + 15 * w.params.subqueries_per_iter +
           4 * w.params.pdfs } : Node) ∈
      (initializeStateFromDeps (addEdge (addNode { w with
          next_node_id := w.next_node_id + 1 }
        (populatePrefList w.provider_config
          { id := w.next_node_id, workflow_id := w.id, ntype := NodeType.Plan
            resource_class := ResourceClass.llm, idempotent := true
            iter := it + 1
            output_size_est := 220 + 15 * w.params.subqueries_per_iter +
              4 * w.params.pdfs }))
        nid2 w.next_node_id) w.next_node_id).nodes := by
  have hmem1 :
      ({ id := w.next_node_id, workflow_id := w.id,
         ntype := NodeType.Plan, resource_class := ResourceClass.llm,
         idempotent := true, iter := it + 1, deps := [nid2],
         preference_list := prefFor w.provider_config ResourceClass.llm,
         output_size_est := 220 + 15 * w.params.subqueries_per_iter +
           4 * w.params.pdfs } : Node) ∈
      (addEdge (addNode { w with next_node_id := w.next_node_id + 1 }
        (populatePrefList w.provider_config
          { id := w.next_node_id, workflow_id := w.id, ntype := NodeType.Plan
            resource_class := ResourceClass.llm, idempotent := true
            iter := it + 1
            output_size_est := 220 + 15 * w.params.subqueries_per_iter +
              4 * w.params.pdfs }))
        nid2 w.next_node_id).nodes := by
    unfold addEdge addNode
    dsimp only
    refine List.mem_map.mpr ⟨populatePrefList w.provider_config
      { id := w.next_node_id, workflow_id := w.id, ntype := NodeType.Plan
        resource_class := ResourceClass.llm, idempotent := true
        iter := it + 1
        output_size_est := 220 + 15 * w.params.subqueries_per_iter +
          4 * w.params.pdfs }, ?_, ?_⟩
    · exact List.mem_append.mpr (Or.inr (List.mem_cons.mpr (Or.inl rfl)))
    · unfold edgeF
      dsimp only
      rw [if_neg (show ¬ ((populatePrefList w.provider_config
          { id := w.next_node_id, workflow_id := w.id
            ntype := NodeType.Plan
            resource_class := ResourceClass.llm, idempotent := true
            iter := it + 1
            output_size_est := 220 + 15 * w.params.subqueries_per_iter +
              4 * w.params.pdfs }).id = nid2) from fun hc => hnid hc.symm)]
      rw [if_pos (show (populatePrefList w.provider_config
          { id := w.next_node_id, workflow_id := w.id
            ntype := NodeType.Plan
            resource_class := ResourceClass.llm, idempotent := true
            iter := it + 1
            output_size_est := 220 + 15 * w.params.subqueries_per_iter +
              4 * w.params.pdfs }).id = w.next_node_id from rfl)]
      rfl
  obtain ⟨st, hst⟩ := mem_init_exists_state _ w.next_node_id _ hmem1
  exact ⟨st, hst⟩

theorem ondn_continue_plan_mem (w1 : Workflow) (nid : Nat) (dn1 : Node)
    (hms : findNode w1 nid = some dn1)
    (hcda : computeDecideAction w1 dn1.iter = DecideAction.Continue)
    (hnid : nid ≠ w1.next_node_id) :
    ∃ st,
      ({ id := w1.next_node_id, workflow_id := w1.id,
         ntype := NodeType.Plan, resource_class := ResourceClass.llm,
         idempotent := true, state := st, iter := dn1.iter + 1,
         deps := [nid],
         preference_list := prefFor w1.provider_config ResourceClass.llm,
         output_size_est := 220 + 15 * w1.params.subqueries_per_iter +
           4 * w1.params.pdfs } : Node) ∈ (onDecideNext w1 nid).nodes := by
  unfold onDecideNext
  rw [hms]
  dsimp only
  rw [hcda]
  dsimp only [newNodeId]
  exact contTerm_plan_mem w1 nid dn1.iter hnid

theorem setState_frame (w : Workflow) (nid : Nat) (st : NodeState)
    (w1 : Workflow) (h : setState w nid st = Except.ok w1) :
    w1.next_node_id = w.next_node_id ∧ w1.id = w.id ∧
      w1.params = w.params ∧ w1.provider_config = w.provider_config := by
  obtain ⟨n, hfn, hcase⟩ := setState_cases w nid st w1 h
  rcases hcase with ⟨_, rfl⟩ | ⟨_, _, _, rfl⟩
  · exact ⟨rfl, rfl, rfl, rfl⟩
  · exact ⟨rfl, rfl, rfl, rfl⟩

/-- **C9.** Iteration expansion is idempotent per (workflow, iteration):
when an `Aggregate` node at the plan's iteration already exists,
`ExpandIterationFromPlan` returns the workflow unchanged; and along
every workflow history the constructor and mutators can produce, each
iteration holds at most one `Aggregate` and at most one `DecideNext`
node. -/
theorem expansion_idempotent_and_unique :
    (∀ (w : Workflow) (pid : Nat) (plan : Node),
      findNode w pid = some plan →
      (w.nodes.any (fun n =>
        n.ntype = NodeType.Aggregate ∧ n.iter = plan.iter)) = true →
      expandIterationFromPlan w pid = w) ∧
    (∀ w, Reachable w → ∀ k,
      typeCount w NodeType.Aggregate k ≤ 1 ∧
      typeCount w NodeType.DecideNext k ≤ 1) := by
  constructor
  · intro w pid plan hfind hany
    unfold expandIterationFromPlan
    rw [hfind]
    dsimp only
    by_cases h1 : w.params.max_iters ≤ plan.iter
    · rw [if_pos h1]
    · rw [if_neg h1, if_pos hany]
  · intro w hr k
    have h := wfInv_reachable w hr
    exact ⟨(h.2 k).1, le_trans (h.2 k).2 (h.2 k).1⟩

/-- Witness for C9: re-expanding a workflow that already holds an
iteration-0 `Aggregate` (node 5 of `wfC3B`) is a no-op, and a freshly
constructed workflow satisfies the per-iteration uniqueness bounds. -/
theorem expansion_idempotent_and_unique_witness :
    (findNode wfC3B 5 = some { id := 5, workflow_id := 7,
                               ntype := NodeType.Aggregate,
                               resource_class := ResourceClass.cpu,
                               iter := 0 } ∧
     expandIterationFromPlan wfC3B 5 = wfC3B) ∧
    (typeCount (mkWorkflow 1 wfC4.params []) NodeType.Aggregate 0 ≤ 1 ∧
     typeCount (mkWorkflow 1 wfC4.params []) NodeType.DecideNext 0 ≤ 1) :=
  ⟨⟨rfl, expansion_idempotent_and_unique.1 wfC3B 5 _ rfl rfl⟩,
   expansion_idempotent_and_unique.2 _ (Reachable.init 1 wfC4.params []) 0⟩

/-- Witness for C4: the structural theorem applied to a concrete
one-pdf, one-subquery workflow with its iteration-0 plan succeeded. -/
theorem expansion_structure_witness :
    idsBelow wfC4 = true ∧ findNode wfC4 0 = some planC4 ∧
    planC4.iter < wfC4.params.max_iters ∧
    (wfC4.nodes.any (fun n =>
      n.ntype = NodeType.Aggregate ∧ n.iter = planC4.iter)) = false ∧
    1 ≤ wfC4.params.pdfs ∧ c4Prop wfC4 0 planC4.iter :=
  ⟨rfl, rfl, by decide, rfl, by decide,
   expansion_structure wfC4 0 planC4 rfl rfl (by decide) rfl (by decide)⟩

/-- **C2.** Every node state change performed through the workflow
mutators respects the state machine: each pre-existing node maps to a
post-state node whose transition is allowed (`Runnable` only with all
parents `Succeeded`, `Queued` only from `Runnable`, `Running` only from
`Queued`/`Runnable`, `Succeeded`/`Failed` only from the active states,
`Cancelled` only from a non-terminal state, and terminal states
absorbing), and every node created by a mutator starts in `WaitingDeps`
or in `Runnable` with all parents `Succeeded`. -/
theorem state_machine_respected (mu : Mutator) (w w' : Workflow)
    (hR : Reachable w) (h : applyMutator mu w = Except.ok w') :
    (∀ x old, findNode w x = some old →
      ∃ n', findNode w' x = some n' ∧ claimStepOK w' old.state n' = true) ∧
    (∀ n' ∈ w'.nodes, findNode w n'.id = none →
      n'.state = NodeState.WaitingDeps ∨
        (n'.state = NodeState.Runnable ∧ depsSatisfied w' n' = true)) :=
  step_effects mu w w' (wfInv_reachable w hR).1 h

/-- Witness for C2: one `RefreshRunnable` step on a freshly constructed
workflow. -/
theorem state_machine_respected_witness :
    (∀ x old, findNode (mkWorkflow 2 wfC4.params []) x = some old →
      ∃ n', findNode (refreshRunnable (mkWorkflow 2 wfC4.params [])) x =
          some n' ∧
        claimStepOK (refreshRunnable (mkWorkflow 2 wfC4.params []))
          old.state n' = true) ∧
    (∀ n' ∈ (refreshRunnable (mkWorkflow 2 wfC4.params [])).nodes,
      findNode (mkWorkflow 2 wfC4.params []) n'.id = none →
        n'.state = NodeState.WaitingDeps ∨
          (n'.state = NodeState.Runnable ∧
            depsSatisfied (refreshRunnable (mkWorkflow 2 wfC4.params []))
              n' = true)) :=
  state_machine_respected Mutator.mRefresh (mkWorkflow 2 wfC4.params []) _
    (Reachable.init 2 wfC4.params []) rfl

/-- **C7.** When a `DecideNext` node at iteration `k` is marked
succeeded: on `Stop` the workflow's `done` flag becomes true,
`stop_iter` is set to `k`, and every non-terminal node with `iter > k`
becomes `Cancelled`; on `Continue` exactly one new `Plan` node at
iteration `k+1` is created whose only dependency is the `DecideNext`
node; and (whether or not `done` is set) no later mutator moves a node
out of a terminal state. -/
theorem ondecide_effects (w : Workflow) (nid : Nat) (dn : Node)
    (w' : Workflow) (hids : idsBelow w = true)
    (hf : findNode w nid = some dn) (hd : dn.ntype = NodeType.DecideNext)
    (h : markSucceeded w nid = Except.ok w') :
    (computeDecideAction w dn.iter = DecideAction.Stop →
      w'.done = true ∧ w'.stop_iter = some dn.iter ∧
      ∀ x m, findNode w x = some m → isTerminal m.state = false →
        dn.iter < m.iter →
        ∃ m', findNode w' x = some m' ∧ m'.state = NodeState.Cancelled) ∧
    (computeDecideAction w dn.iter = DecideAction.Continue →
      typeCount w' NodeType.Plan (dn.iter + 1) =
        typeCount w NodeType.Plan (dn.iter + 1) + 1 ∧
      ∃ st,
        ({ id := w.next_node_id, workflow_id := w.id,
           ntype := NodeType.Plan, resource_class := ResourceClass.llm,
           idempotent := true, state := st, iter := dn.iter + 1,
           deps := [nid],
           preference_list := prefFor w.provider_config ResourceClass.llm,
           output_size_est := 220 + 15 * w.params.subqueries_per_iter +
             4 * w.params.pdfs } : Node) ∈ w'.nodes) ∧
    (∀ mu v, applyMutator mu w' = Except.ok v → w'.done = true →
      ∀ x m, findNode w' x = some m → isTerminal m.state = true →
        ∃ m', findNode v x = some m' ∧ m'.state = m.state) := by
  have hids' : idsBelow w' = true :=
    idsBelow_step (Mutator.mSucceeded nid) w w' hids h
  unfold markSucceeded at h
  rw [hf] at h
  dsimp only at h
  cases hset : setState w nid NodeState.Succeeded with
  | error e => rw [hset] at h; cases h
  | ok w1 =>
    rw [hset] at h
    cases h
    rw [if_neg (show ¬ (dn.ntype = NodeType.Plan) by rw [hd]; decide),
      if_pos hd] at hids' ⊢
    have hids1 : idsBelow w1 = true := idsBelow_setState w nid _ w1 hset hids
    obtain ⟨dn1, hms, hiter1, hnty1, _⟩ :=
      setState_lookup w nid _ w1 hset nid dn hf
    have hcdaEq : computeDecideAction w1 dn1.iter =
        computeDecideAction w dn.iter := by
      rw [hiter1]
      exact computeDecideAction_setState w nid _ w1 hset dn.iter
    have hframe := setState_frame w nid _ w1 hset
    have hnidlt : nid < w.next_node_id := by
      have h1 := idsBelow_bound hids dn (mem_of_findNode hf)
      rw [findNode_id hf] at h1
      exact h1
    refine ⟨?_, ?_, ?_⟩
    · intro hstop
      have hcda1 : computeDecideAction w1 dn1.iter = DecideAction.Stop :=
        hcdaEq.trans hstop
      obtain ⟨hdone, hstopi⟩ := ondn_stop_done w1 nid dn1 hms hcda1
      refine ⟨hdone, hstopi.trans (congrArg _ hiter1), ?_⟩
      intro x m hfm hterm hlt
      by_cases hxn : x = nid
      · subst hxn
        rw [hf] at hfm
        cases hfm
        exact absurd hlt (by omega)
      · obtain ⟨m1, hfm1, _, _, hcase⟩ :=
          setState_lookup w nid _ w1 hset x m hfm
        rcases hcase with hcx | rfl
        · exact absurd hcx hxn
        · have hcan := ondn_stop_cancel w1 nid dn1 hms hcda1 x m1 hfm1
            hterm (by rw [hiter1]; exact hlt)
          refine ⟨refreshNode (onDecideNext w1 nid)
            { m1 with state := NodeState.Cancelled },
            refresh_persist _ x _ hcan, ?_⟩
          rw [refreshNode_terminal _ _ (by rfl)]
    · intro hcont
      have hcda1 : computeDecideAction w1 dn1.iter = DecideAction.Continue :=
        hcdaEq.trans hcont
      refine ⟨?_, ?_⟩
      · have hTC := ondn_continue_typeCount w1 nid dn1 hms hcda1
        rw [hiter1] at hTC
        have hTc2 : typeCount w1 NodeType.Plan (dn.iter + 1) =
            typeCount w NodeType.Plan (dn.iter + 1) :=
          typeCount_setState w nid _ w1 hset _ _
        rw [typeCount_refresh]
        exact hTC.trans (by rw [hTc2])
      · have hne1 : nid ≠ w1.next_node_id := by
          rw [hframe.1]
          omega
        obtain ⟨st0, h0⟩ := ondn_continue_plan_mem w1 nid dn1 hms hcda1 hne1
        rw [hiter1, hframe.1, hframe.2.1, hframe.2.2.1, hframe.2.2.2] at h0
        obtain ⟨st1, h1⟩ := mem_refresh_exists (onDecideNext w1 nid) _ h0
        exact ⟨st1, h1⟩
    · intro mu v hv hdone x m hfm hterm
      exact terminal_absorbing mu _ v hids' hv x m hfm hterm

/-- Witness for C7: marking the `DecideNext` node of `wfC7` succeeded
(a `Stop` decision, since `max_iters = 1`). -/
theorem ondecide_effects_witness :
    ∃ w', markSucceeded wfC7 0 = Except.ok w' ∧
      ((computeDecideAction wfC7 nodeC7.iter = DecideAction.Stop →
        w'.done = true ∧ w'.stop_iter = some nodeC7.iter ∧
        ∀ x m, findNode wfC7 x = some m → isTerminal m.state = false →
          nodeC7.iter < m.iter →
          ∃ m', findNode w' x = some m' ∧
            m'.state = NodeState.Cancelled) ∧
      (computeDecideAction wfC7 nodeC7.iter = DecideAction.Continue →
        typeCount w' NodeType.Plan (nodeC7.iter + 1) =
          typeCount wfC7 NodeType.Plan (nodeC7.iter + 1) + 1 ∧
        ∃ st,
          ({ id := wfC7.next_node_id, workflow_id := wfC7.id,
             ntype := NodeType.Plan, resource_class := ResourceClass.llm,
             idempotent := true, state := st, iter := nodeC7.iter + 1,
             deps := [0],
             preference_list :=
               prefFor wfC7.provider_config ResourceClass.llm,
             output_size_est :=
               220 + 15 * wfC7.params.subqueries_per_iter +
                 4 * wfC7.params.pdfs } : Node) ∈ w'.nodes) ∧
      (∀ mu v, applyMutator mu w' = Except.ok v → w'.done = true →
        ∀ x m, findNode w' x = some m → isTerminal m.state = true →
          ∃ m', findNode v x = some m' ∧ m'.state = m.state)) :=
  ⟨_, rfl, ondecide_effects wfC7 0 nodeC7 _ rfl rfl rfl rfl⟩

end Cascade
